import Mathlib

/-!
# Candbury/whatsapp: command dispatch, tag resolution, fan-out and profile links

A shallow embedding of `src/commands.js` and of the message listener of
`src/index.js`.

Modelling conventions

* A JavaScript value that may be `undefined` is an `Option`; `||` defaults follow
  JavaScript truthiness (`undefined`, `""` and `0` are falsy).
* An asynchronous handler is an `Act`: a function from the document store to an
  outcome (`ok` or a thrown error message), the new store and the chronological
  list of observable events (replies, upstream calls, store reads and writes).
  `try`/`catch` keeps the events and the store changes made before the throw.
* The upstream game API and the document store are fallible collaborators, given
  by `Env`; the transport calls (`message.reply`, `message.getMentions`) are taken
  to return normally. `MessageMentions` is not among the exports of
  `whatsapp-web.js`, so the binding of that name in `commands.js` is `undefined`.
-/

namespace Whatsapp

/-! ## JavaScript string helpers -/

namespace Js

/-- Models `s.startsWith(p)`. -/
def startsWith (s p : String) : Bool :=
  p.data.isPrefixOf s.data

/-- Truthiness of a string value that may be `undefined`. -/
def truthy : Option String → Bool
  | none => false
  | some s => s != ""

/-- Models `a || b` on strings, `b` being a defined string. -/
def orElse (a : Option String) (b : String) : String :=
  if truthy a then a.getD b else b

/-- Template rendering of a string that may be `undefined`. -/
def str : Option String → String
  | none => "undefined"
  | some s => s

/-- Template rendering of a number that may be `undefined`. -/
def num : Option Nat → String
  | none => "undefined"
  | some n => toString n

/-- Template rendering of `x || "N/A"` for a string `x`. -/
def strOrNA (a : Option String) : String :=
  orElse a "N/A"

/-- Template rendering of `x || "N/A"` for a number `x` (`0` is falsy). -/
def numOrNA : Option Nat → String
  | none => "N/A"
  | some 0 => "N/A"
  | some n => toString n

/-- Template rendering of `x || 0` for a number `x`. -/
def numOrZero : Option Nat → String
  | none => "0"
  | some n => toString n

/-- Pieces of a character list cut at every `sep`; `cur` is the piece being read,
reversed. -/
def splitAux (sep : Char) : List Char → List Char → List String
  | [], cur => [String.mk cur.reverse]
  | c :: cs, cur =>
    if c = sep then String.mk cur.reverse :: splitAux sep cs []
    else splitAux sep cs (c :: cur)

/-- Models `s.split(sep)` for a one-character separator. -/
def split (s : String) (sep : Char) : List String :=
  splitAux sep s.data []

/-- Models `s.toLowerCase()` on the letters `A` to `Z`; other characters are kept. -/
def toLowerCase (s : String) : String :=
  String.mk (s.data.map Char.toLower)

/-- Models `s.substring(1)`. -/
def substring1 (s : String) : String :=
  String.mk (s.data.drop 1)

/-- Models `xs.join(sep)`. -/
def join (sep : String) : List String → String
  | [] => ""
  | [x] => x
  | x :: y :: rest => x ++ sep ++ join sep (y :: rest)

end Js

/-! ## Data model -/

/-- A stored link record; a field is `none` when the document has no such key.
`getUserProfile` reads an absent document as the record with no key at all. -/
structure UserProfile where
  userId : Option String
  playerTags : Option (List String)
  clanTags : Option (List String)
  deriving DecidableEq, Repr

/-- The object literal `{}` returned for an absent document. -/
def UserProfile.empty : UserProfile :=
  ⟨none, none, none⟩

/-- The document store: collection `chat_<chatID>`, document with the given
`userId`. -/
def Store := String → String → Option UserProfile

/-- The store without any document. -/
def Store.empty : Store :=
  fun _ _ => none

/-- The upstream methods of `cocClient` used by the handlers. -/
inductive ApiMethod
  | getClan
  | getPlayer
  | getClanMembers
  | getCurrentWar
  | getClanWarLog
  deriving DecidableEq, Repr

/-- What `message.reply` is given: a text or a rendered image. -/
inductive Reply
  | text (s : String)
  | media (filename : String) (data : String)
  deriving DecidableEq, Repr

/-- Observable effects of a handler, in the order they happen. -/
inductive Event
  | reply (r : Reply)
  | api (m : ApiMethod) (tag : String)
  | storeRead (chat : String) (user : Option String)
  | storeWrite (chat : String) (user : String)
  | edit (text : String)
  | call (command : String) (args : List String)
  | allowChat (chatId : String)
  | stopChat (chatId : String)
  | deleteLater (ms : Nat)
  deriving DecidableEq, Repr

/-- The inbound message: `body`, `from` (here `sender`), the optional `author`,
`_data.notifyName` and what `getMentions()` returns. -/
structure Message where
  body : String
  sender : String
  author : Option String
  notifyName : Option String
  mentions : List String
  deriving DecidableEq, Repr

/-! ## Upstream domain records

Only the fields the handlers read; a field is `none` when the upstream record
lacks it. -/

/-- The `location` of a clan, the `clan` or `league` of a player, a label. -/
structure Named where
  name : Option String
  deriving DecidableEq, Repr

/-- A district of a clan capital. -/
structure District where
  name : Option String
  districtHallLevel : Option Nat
  deriving DecidableEq, Repr

/-- The `capital` of a clan. -/
structure Capital where
  capitalHallLevel : Option Nat
  districts : Option (List District)
  deriving DecidableEq, Repr

/-- A member of the roster returned by `getClanMembers`. -/
structure ClanMember where
  name : Option String
  role : Option String
  expLevel : Option Nat
  townHallLevel : Option Nat
  trophies : Option Nat
  donations : Option Nat
  received : Option Nat
  deriving DecidableEq, Repr

/-- The record returned by `getClan`. -/
structure Clan where
  name : Option String
  tag : Option String
  level : Option Nat
  members : Option (List ClanMember)
  warWins : Option Nat
  warWinStreak : Option Nat
  warFrequency : Option String
  clanPoints : Option Nat
  clanVersusPoints : Option Nat
  requiredTrophies : Option Nat
  location : Option Named
  capital : Option Capital
  labels : Option (List Named)
  deriving DecidableEq, Repr

/-- The record returned by `getPlayer`. -/
structure Player where
  name : Option String
  tag : Option String
  townHallLevel : Option Nat
  expLevel : Option Nat
  trophies : Option Nat
  bestTrophies : Option Nat
  warStars : Option Nat
  attackWins : Option Nat
  defenseWins : Option Nat
  role : Option String
  clan : Option Named
  league : Option Named
  builderHallLevel : Option Nat
  versusTrophies : Option Nat
  bestVersusTrophies : Option Nat
  versusBattleWins : Option Nat
  deriving DecidableEq, Repr

/-- The `attacker` or `defender` of a war attack; `attacks` is the length of its
attack list. -/
structure Participant where
  name : Option String
  tag : Option String
  mapPosition : Option Nat
  attacks : Option Nat
  deriving DecidableEq, Repr

/-- One attack of a war. -/
structure WarAttack where
  attackerTag : Option String
  defenderTag : Option String
  stars : Option Nat
  destruction : Option Nat
  order : Option Nat
  duration : Option Nat
  isFresh : Bool
  attacker : Option Participant
  defender : Option Participant
  deriving DecidableEq, Repr

/-- A member of one side of a war. -/
structure WarMember where
  name : Option String
  tag : Option String
  mapPosition : Option Nat
  attacks : Option (List WarAttack)
  bestOpponentAttack : Option WarAttack
  deriving DecidableEq, Repr

/-- One side of a war. -/
structure WarClan where
  name : Option String
  tag : Option String
  stars : Option Nat
  destructionPercentage : Option Nat
  attacks : Option (List WarAttack)
  members : Option (List WarMember)
  deriving DecidableEq, Repr

/-- The record returned by `getCurrentWar`. -/
structure ClanWar where
  state : Option String
  clan : Option WarClan
  opponent : Option WarClan
  teamSize : Option Nat
  attacksPerMember : Option Nat
  isFriendly : Bool
  isCWL : Bool
  preparationStartTime : Option String
  startTime : Option String
  endTime : Option String
  deriving DecidableEq, Repr

/-- One side of a war-log entry. -/
structure WarLogClan where
  name : Option String
  stars : Option Nat
  expEarned : Option Nat
  deriving DecidableEq, Repr

/-- An entry of the list returned by `getClanWarLog`. -/
structure WarLogEntry where
  result : Option String
  clan : Option WarLogClan
  opponent : Option WarLogClan
  startTime : Option String
  endTime : Option String
  deriving DecidableEq, Repr

/-- A row of the war-log table handed to the canvas. -/
structure WarLogRow where
  opponentName : Option String
  result : Option String
  clanStars : Option Nat
  opponentStars : Option Nat
  expEarned : Option Nat
  startTime : String
  endTime : String
  deriving DecidableEq, Repr

/-- The collaborators of `commands.js`. The game API and the store may fail with
an error message; so may the canvas pipeline (`createCanvas`, `loadImage`,
`toBuffer`), which yields the base64 image. -/
structure Env where
  getClan : String → Except String Clan
  getPlayer : String → Except String Player
  getClanMembers : String → Except String (List ClanMember)
  getCurrentWar : String → Except String (Option ClanWar)
  getClanWarLog : String → Except String (List WarLogEntry)
  findOneFault : String → Option String → Option String
  updateOneFault : String → String → Option String
  toLocaleString : Option String → String
  drawMembers : List (List String) → Except String String
  drawWarLog : List WarLogRow → Except String String
  apiLatency : String
  botLatency : String

/-! ## Effects -/

/-- Result of running an action. -/
structure Res (α : Type) where
  out : Except String α
  store : Store
  trace : List Event

/-- An asynchronous computation over the store. -/
def Act (α : Type) : Type :=
  Store → Res α

namespace Act

/-- Return normally. -/
def ret {α : Type} (a : α) : Act α :=
  fun s => ⟨.ok a, s, []⟩

/-- The `throw` statement. -/
def throw {α : Type} (e : String) : Act α :=
  fun s => ⟨.error e, s, []⟩

/-- Sequencing; a throw in the first part skips the second. -/
def bind {α β : Type} (x : Act α) (f : α → Act β) : Act β :=
  fun s =>
    match x s with
    | ⟨.error e, s1, t1⟩ => ⟨.error e, s1, t1⟩
    | ⟨.ok a, s1, t1⟩ =>
      match f a s1 with
      | ⟨o, s2, t2⟩ => ⟨o, s2, t1 ++ t2⟩

/-- The statement `try x catch (error) h`. -/
def tryCatch {α : Type} (x : Act α) (h : String → Act α) : Act α :=
  fun s =>
    match x s with
    | ⟨.ok a, s1, t1⟩ => ⟨.ok a, s1, t1⟩
    | ⟨.error e, s1, t1⟩ =>
      match h e s1 with
      | ⟨o, s2, t2⟩ => ⟨o, s2, t1 ++ t2⟩

/-- Record one event. -/
def emit (e : Event) : Act Unit :=
  fun s => ⟨.ok (), s, [e]⟩

/-- Lift a fallible pure computation (a property access that may throw). -/
def ofExcept {α : Type} : Except String α → Act α
  | .ok a => ret a
  | .error e => throw e

/-- The loop `for (const x of xs) body(x)`. -/
def forEach {α : Type} (body : α → Act Unit) : List α → Act Unit
  | [] => ret ()
  | x :: xs => bind (body x) (fun _ => forEach body xs)

end Act

instance : Monad Act where
  pure := Act.ret
  bind := Act.bind

/-- The replies of a trace, in order. -/
def replies : List Event → List Reply
  | [] => []
  | .reply r :: es => r :: replies es
  | _ :: es => replies es

/-- The upstream calls of a trace, in order. -/
def apiCalls : List Event → List (ApiMethod × String)
  | [] => []
  | .api m t :: es => (m, t) :: apiCalls es
  | _ :: es => apiCalls es

/-- The tags the upstream API was asked about, in order. -/
def fetchedTags (es : List Event) : List String :=
  (apiCalls es).map Prod.snd

/-- The store reads and writes of a trace, in order. -/
def storeOps : List Event → List Event
  | [] => []
  | .storeRead c u :: es => .storeRead c u :: storeOps es
  | .storeWrite c u :: es => .storeWrite c u :: storeOps es
  | _ :: es => storeOps es

/-! ## Profile store adapter -/

/-- Models `message.author || message.from`. -/
def Message.userId (message : Message) : String :=
  Js.orElse message.author message.sender

/-- Models `collection.findOne({ userId })` on `chat_<chatID>`. Every stored document
carries a string `userId`, so a `null` id finds none. -/
def findOne (env : Env) (chatID : String) (userId : Option String) :
    Act (Option UserProfile) :=
  fun s =>
    match env.findOneFault chatID userId with
    | some e => ⟨.error e, s, [.storeRead chatID userId]⟩
    | none =>
      match userId with
      | none => ⟨.ok none, s, [.storeRead chatID userId]⟩
      | some u => ⟨.ok (s chatID u), s, [.storeRead chatID userId]⟩

/-- Models `collection.updateOne({ userId }, { $set: fields }, { upsert: true })`:
the keys present in `fields` replace those of the document, the others stay. -/
def updateOne (env : Env) (chatID userId : String) (fields : UserProfile) : Act Unit :=
  fun s =>
    match env.updateOneFault chatID userId with
    | some e => ⟨.error e, s, [.storeWrite chatID userId]⟩
    | none =>
      let old := (s chatID userId).getD UserProfile.empty
      let doc : UserProfile :=
        { userId := fields.userId <|> old.userId
          playerTags := fields.playerTags <|> old.playerTags
          clanTags := fields.clanTags <|> old.clanTags }
      ⟨.ok (), fun c u => if c = chatID ∧ u = userId then some doc else s c u,
        [.storeWrite chatID userId]⟩

/-- Models `saveUserProfile(chatID, { ...userProfile, userId })`, as every caller
invokes it. -/
def saveUserProfile (env : Env) (chatID : String) (userProfile : UserProfile)
    (userId : String) : Act Unit :=
  updateOne env chatID userId { userProfile with userId := some userId }

/-- Models `getUserProfile`: the document, or `{}`. -/
def getUserProfile (env : Env) (chatID : String) (userId : Option String) :
    Act UserProfile := do
  let document ← findOne env chatID userId
  pure (document.getD UserProfile.empty)

/-- Models `linkPlayerTag`. -/
def linkPlayerTag (env : Env) (chatID userId playerTag : String) : Act String := do
  let userProfile ← getUserProfile env chatID (some userId)
  let playerTags := userProfile.playerTags.getD []
  if !playerTags.contains playerTag then
    let userProfile := { userProfile with playerTags := some (playerTags ++ [playerTag]) }
    saveUserProfile env chatID userProfile userId
    pure ("Linked your profile to player tag " ++ playerTag ++ ".")
  else
    pure ("Player tag " ++ playerTag ++ " is already linked to your profile.")

/-- Models `linkClanTag`. -/
def linkClanTag (env : Env) (chatID userId clanTag : String) : Act String := do
  let userProfile ← getUserProfile env chatID (some userId)
  let clanTags := userProfile.clanTags.getD []
  if !clanTags.contains clanTag then
    let userProfile := { userProfile with clanTags := some (clanTags ++ [clanTag]) }
    saveUserProfile env chatID userProfile userId
    pure ("Linked your profile to clan tag " ++ clanTag ++ ".")
  else
    pure ("Clan tag " ++ clanTag ++ " is already linked to your profile.")

/-- Models `unlinkPlayerTag`. -/
def unlinkPlayerTag (env : Env) (chatID userId playerTag : String) : Act Unit := do
  let userProfile ← getUserProfile env chatID (some userId)
  let playerTags := userProfile.playerTags.getD []
  let userProfile :=
    { userProfile with playerTags := some (playerTags.filter (fun tag => tag != playerTag)) }
  saveUserProfile env chatID userProfile userId

/-- Models `unlinkClanTag`. -/
def unlinkClanTag (env : Env) (chatID userId clanTag : String) : Act Unit := do
  let userProfile ← getUserProfile env chatID (some userId)
  let clanTags := userProfile.clanTags.getD []
  let userProfile :=
    { userProfile with clanTags := some (clanTags.filter (fun tag => tag != clanTag)) }
  saveUserProfile env chatID userProfile userId

/-- The `TypeError` of reading property `prop` of `undefined`. -/
def Js.undefinedRead (prop : String) : String :=
  "Cannot read properties of undefined (reading \x27" ++ prop ++ "\x27)"

/-- Read a value whose absence makes the next property access throw. -/
def Js.orThrow {α : Type} (v : Option α) (prop : String) : Except String α :=
  match v with
  | some a => .ok a
  | none => .error (Js.undefinedRead prop)

/-- The binding `MessageMentions` that `commands.js` destructures from
`require("whatsapp-web.js")`. The library exports no such name, so the binding is
`undefined`. -/
def MessageMentions : Option (String → List String) :=
  none

/-- The module-level `getUserIdFromMention`: the first parsed mention, or `null`.
Reading `parseMentions` of `MessageMentions` throws, the binding being `undefined`. -/
def getUserIdFromMention (mention : String) : Except String (Option String) := do
  let messageMentions ← Js.orThrow MessageMentions "parseMentions"
  pure (messageMentions mention).head?

/-- The handler-local `getUserIdFromMention`: the first of `message.getMentions()`,
or `null`. -/
def Message.mentionedUser (message : Message) : Option String :=
  message.mentions.head?

/-- Models `await message.reply(text)`. -/
def reply (text : String) : Act Unit :=
  Act.emit (.reply (.text text))

/-- Models `await message.reply(new MessageMedia("image/png", data, filename))`. -/
def replyMedia (data filename : String) : Act Unit :=
  Act.emit (.reply (.media filename data))

/-- Models `await cocClient.getClan(tag)`. -/
def getClan (env : Env) (tag : String) : Act Clan :=
  Act.bind (Act.emit (.api .getClan tag)) (fun _ => Act.ofExcept (env.getClan tag))

/-- Models `await cocClient.getPlayer(tag)`. -/
def getPlayer (env : Env) (tag : String) : Act Player :=
  Act.bind (Act.emit (.api .getPlayer tag)) (fun _ => Act.ofExcept (env.getPlayer tag))

/-- Models `await cocClient.getClanMembers(tag)`. -/
def getClanMembers (env : Env) (tag : String) : Act (List ClanMember) :=
  Act.bind (Act.emit (.api .getClanMembers tag))
    (fun _ => Act.ofExcept (env.getClanMembers tag))

/-- Models `await cocClient.getCurrentWar(tag)`. -/
def getCurrentWar (env : Env) (tag : String) : Act (Option ClanWar) :=
  Act.bind (Act.emit (.api .getCurrentWar tag))
    (fun _ => Act.ofExcept (env.getCurrentWar tag))

/-- Models `await cocClient.getClanWarLog(tag)`. -/
def getClanWarLog (env : Env) (tag : String) : Act (List WarLogEntry) :=
  Act.bind (Act.emit (.api .getClanWarLog tag))
    (fun _ => Act.ofExcept (env.getClanWarLog tag))

/-! ## Response formatters -/

/-- Models `messages.en.INVALID_TAG`. -/
def INVALID_TAG : String :=
  "\u011f\u0178\u0161\u00ab Please provide a valid tag, e.g., `!clan #2PP`."

/-- Models `messages.en.CLAN_INFO`; reading `clan.members.length` throws when the record
has no member list. -/
def CLAN_INFO (clan : Clan) : Except String String :=
  match clan.members with
  | none => .error (Js.undefinedRead "length")
  | some members =>
    .ok ("\n\u011f\u0178\u00b0 **Clan Name**: " ++ Js.strOrNA clan.name ++
      "\n\u011f\u0178\u00b7\u00ef\u00b8 **Clan Tag**: " ++ Js.strOrNA clan.tag ++
      "\n\u011f\u0178\u201c\u02c6 **Clan Level**: " ++ Js.numOrNA clan.level ++
      "\n\u011f\u0178\u2018\u00a5 **Members**: " ++ Js.numOrNA (some members.length) ++
      "/50\n\u011f\u0178\u2020 **War Wins**: " ++ Js.numOrNA clan.warWins ++
      "\n\u011f\u0178\u201d\u00a5 **War Win Streak**: " ++ Js.numOrNA clan.warWinStreak ++
      "\n\u011f\u0178\u2014\u201c\u00ef\u00b8 **War Frequency**: " ++
      Js.strOrNA clan.warFrequency ++ "\n\u011f\u0178\u2019\u00af **Clan Points**: " ++
      Js.numOrNA clan.clanPoints ++ "\n\u011f\u0178\u2019\u00aa **Clan Versus Points**: " ++
      Js.numOrNA clan.clanVersusPoints ++ "\n\u011f\u0178\u2026 **Required Trophies**: " ++
      Js.numOrNA clan.requiredTrophies ++ "\n\u011f\u0178\u201c **Location**: " ++
      (match clan.location with
      | some location => Js.str location.name
      | none => "N/A") ++
      "\n    ")

/-- Models `messages.en.PLAYER_INFO`. -/
def PLAYER_INFO (player : Player) : String :=
  "\n\u011f\u0178\u2018\u00a4 **Player Name**: " ++ Js.strOrNA player.name ++
  "\n\u011f\u0178\u00b7\u00ef\u00b8 **Player Tag**: " ++ Js.strOrNA player.tag ++
  "\n\u011f\u0178\u00a0 **Town Hall Level**: " ++ Js.numOrNA player.townHallLevel ++
  "\n\u011f\u0178\u201c\u02c6 **XP Level**: " ++ Js.numOrNA player.expLevel ++
  "\n\u011f\u0178\u2026 **Trophies**: " ++ Js.numOrNA player.trophies ++
  "\n\u011f\u0178\u2020 **Best Trophies**: " ++ Js.numOrNA player.bestTrophies ++
  "\n\u00e2\u00ad **War Stars**: " ++ Js.numOrNA player.warStars ++
  "\n\u00e2\u0161\u201d\u00ef\u00b8 **Attack Wins**: " ++ Js.numOrNA player.attackWins ++
  "\n\u011f\u0178\u203a\u00a1\u00ef\u00b8 **Defense Wins**: " ++ Js.numOrNA player.defenseWins ++
  "\n\u011f\u0178\u00b0 **Clan Role**: " ++ Js.strOrNA player.role ++
  "\n\u011f\u0178\u00b0 **Clan**: " ++
  (match player.clan with
    | some clan => Js.str clan.name
    | none => "N/A") ++
  "\n\u011f\u0178\u2020 **League**: " ++
  (match player.league with
    | some league => Js.str league.name
    | none => "N/A") ++
  "\n\u011f\u0178\u00a0 **Builder Hall Level**: " ++ Js.numOrNA player.builderHallLevel ++
  "\n\u011f\u0178\u2026 **Versus Trophies**: " ++ Js.numOrNA player.versusTrophies ++
  "\n\u011f\u0178\u2020 **Best Versus Trophies**: " ++ Js.numOrNA player.bestVersusTrophies ++
  "\n\u00e2\u0161\u201d\u00ef\u00b8 **Versus Battle Wins**: " ++
  Js.numOrNA player.versusBattleWins ++ "\n    "

/-- One entry of `messages.en.MEMBERS_INFO_LIST`, trimmed, with its line break. -/
def memberEntry (index : Nat) (member : ClanMember) : String :=
  "\u011f\u0178\u2026 " ++ toString (index + 1) ++ ".*" ++ Js.orElse member.name "Unknown" ++
  "*:\n        \u00e2\u00ad Role: " ++ Js.strOrNA member.role ++
  "\n        \u011f\u0178\u2013\u00ef\u00b8 Level: " ++ Js.numOrNA member.expLevel ++
  "\n        \u011f\u0178\u00b0 Town Hall Level: " ++ Js.numOrNA member.townHallLevel ++
  "\n        \u011f\u0178\u2020 Trophies: " ++ Js.numOrZero member.trophies ++
  "\n        \u011f\u0178\u201c\u00a4 Donations: " ++ Js.numOrZero member.donations ++
  "\n        \u011f\u0178\u201c\u00a5 Received: " ++ Js.numOrZero member.received ++ "\n"

/-- The `forEach` of `MEMBERS_INFO_LIST`, from position `index` on. -/
def memberEntries : Nat → List ClanMember → String
  | _, [] => ""
  | index, member :: rest => memberEntry index member ++ memberEntries (index + 1) rest

/-- Models `messages.en.MEMBERS_INFO_LIST`. -/
def MEMBERS_INFO_LIST (members : List ClanMember) : String :=
  if members.length = 0 then "No members found in the clan. \u00e2\u0152"
  else "**Clan Members**:\n" ++ memberEntries 0 members

/-- Models `messages.en.LABELS_INFO`. -/
def LABELS_INFO (labels : List Named) : String :=
  labels.foldl
    (fun labelsInfo label => labelsInfo ++ "\u011f\u0178\u00b7\u00ef\u00b8 **" ++ Js.strOrNA label.name ++ "**\n")
    "**Clan Labels**:\n"

/-! ## Link commands -/

/-- The `linkplayer` command. -/
def linkplayer (env : Env) (message : Message) (args : List String) : Act Unit :=
  let chatID := message.sender
  let playerTag := args.head?
  if !Js.truthy playerTag || !Js.startsWith (playerTag.getD "") "#" then
    reply "Please provide a valid player tag, e.g., `!linkplayer #ABC123`."
  else
    let playerTag := playerTag.getD ""
    let userId := message.userId
    Act.tryCatch
      (do
        let player ← getPlayer env playerTag
        let response ← linkPlayerTag env chatID userId playerTag
        reply (response ++ " (" ++ Js.str player.name ++ ")."))
      (fun error => reply ("Error linking player tag: " ++ error ++ " \u00e2\u0152"))

/-- The `linkclan` command. -/
def linkclan (env : Env) (message : Message) (args : List String) : Act Unit :=
  let chatID := message.sender
  let clanTag := args.head?
  if !Js.truthy clanTag || !Js.startsWith (clanTag.getD "") "#" then
    reply "Please provide a valid clan tag, e.g., `!linkclan #ABC123`."
  else
    let clanTag := clanTag.getD ""
    let userId := message.userId
    Act.tryCatch
      (do
        let clan ← getClan env clanTag
        let response ← linkClanTag env chatID userId clanTag
        reply (response ++ " (" ++ Js.str clan.name ++ ")."))
      (fun error => reply ("Error linking clan tag: " ++ error ++ " \u00e2\u0152"))

/-- The `unlinkplayer` command. -/
def unlinkplayer (env : Env) (message : Message) (args : List String) : Act Unit :=
  let chatID := message.sender
  let playerTag := args.head?
  let userId := message.userId
  if !Js.truthy playerTag then do
    let userProfile ← getUserProfile env chatID (some userId)
    let userProfile := { userProfile with playerTags := some [] }
    saveUserProfile env chatID userProfile userId
    reply "All player tags unlinked from your profile."
  else do
    unlinkPlayerTag env chatID userId (playerTag.getD "")
    reply ("Unlinked player tag " ++ playerTag.getD "" ++ " from your profile.")

/-- The `unlinkclan` command. -/
def unlinkclan (env : Env) (message : Message) (args : List String) : Act Unit :=
  let chatID := message.sender
  let clanTag := args.head?
  let userId := message.userId
  if !Js.truthy clanTag then do
    let userProfile ← getUserProfile env chatID (some userId)
    let userProfile := { userProfile with clanTags := some [] }
    saveUserProfile env chatID userProfile userId
    reply "All clan tags unlinked from your profile."
  else do
    unlinkClanTag env chatID userId (clanTag.getD "")
    reply ("Unlinked clan tag " ++ clanTag.getD "" ++ " from your profile.")

/-! ## Single-tag commands -/

/-- The first element of a tag list that is present and non-empty
(`tags && tags.length > 0`, then `tags[0]`). -/
def firstTag : Option (List String) → Option String
  | some (tag :: _) => some tag
  | _ => none

/-- The statements of a single-tag command before its `try`: the user to look up is
the invoker, or, when a second argument is given, what `getUserIdFromMention` makes
of it. -/
def mentionOrSelf (message : Message) (mention : Option String) :
    Except String (Option String) :=
  if Js.truthy mention then getUserIdFromMention (mention.getD "")
  else .ok (some message.userId)

/-- The part of the `try` of `player` that follows the choice of the tag. -/
def playerFetch (env : Env) (playerTag : String) : Act Unit := do
  let player ← getPlayer env playerTag
  reply (PLAYER_INFO player)

/-- The `player` command. -/
def player (env : Env) (message : Message) (args : List String) : Act Unit :=
  let chatID := message.sender
  let playerTag := args.head?
  let mention := args[1]?
  Act.bind (Act.ofExcept (mentionOrSelf message mention)) (fun userId =>
    Act.tryCatch
      (if !Js.truthy playerTag then do
        let userProfile ← getUserProfile env chatID userId
        match firstTag userProfile.playerTags with
        | some playerTag => playerFetch env playerTag
        | none => reply "Please provide a player tag, e.g., `!player #ABC123`."
      else playerFetch env (playerTag.getD ""))
      (fun error => reply ("Error fetching profile: " ++ error ++ " \u00e2\u0152")))

/-- The part of the `try` of `clan` that follows the choice of the tag. -/
def clanFetch (env : Env) (clanTag : String) : Act Unit := do
  let clan ← getClan env clanTag
  let info ← Act.ofExcept (CLAN_INFO clan)
  reply info

/-- The `clan` command. -/
def clan (env : Env) (message : Message) (args : List String) : Act Unit :=
  let chatID := message.sender
  let clanTag := args.head?
  let mention := args[1]?
  Act.bind (Act.ofExcept (mentionOrSelf message mention)) (fun userId =>
    Act.tryCatch
      (if !Js.truthy clanTag then do
        let userProfile ← getUserProfile env chatID userId
        match firstTag userProfile.clanTags with
        | some clanTag => clanFetch env clanTag
        | none => reply "Please provide a clan tag, e.g., `!clan #ABC123`."
      else clanFetch env (clanTag.getD ""))
      (fun error => reply ("Error fetching clan information: " ++ error ++ " \u00e2\u0152")))

/-- The reply of `labels` for a fetched clan. -/
def labelsMessage (clan : Clan) : String :=
  match clan.labels with
  | some (label :: rest) =>
    "\u011f\u0178\u00b0 **Clan Labels for " ++ Js.str clan.name ++ " (" ++ Js.str clan.tag ++
      ")**:\n\n" ++
      LABELS_INFO (label :: rest)
  | _ =>
    "No labels available for the clan " ++ Js.str clan.name ++ " (" ++ Js.str clan.tag ++
      "). \u00e2\u0152"

/-- The part of the `try` of `labels` that follows the choice of the tag. -/
def labelsFetch (env : Env) (clanTag : String) : Act Unit := do
  let clan ← getClan env clanTag
  reply (labelsMessage clan)

/-- The `labels` command. -/
def labels (env : Env) (message : Message) (args : List String) : Act Unit :=
  let chatID := message.sender
  let clanTag := args.head?
  let mention := args[1]?
  Act.bind (Act.ofExcept (mentionOrSelf message mention)) (fun userId =>
    Act.tryCatch
      (if !Js.truthy clanTag then do
        let userProfile ← getUserProfile env chatID userId
        match firstTag userProfile.clanTags with
        | some clanTag => labelsFetch env clanTag
        | none => reply "Please provide a clan tag, e.g., `!labels #ABC123`."
      else labelsFetch env (clanTag.getD ""))
      (fun error => reply ("Error fetching clan labels: " ++ error ++ " \u00e2\u0152")))

/-- Property keys of the `thCounts` object: a level, or `"undefined"`. In the
order of `Object.keys`, levels come first, ascending. -/
def thKeyLt : Option Nat → Option Nat → Bool
  | some a, some b => a < b
  | some _, none => true
  | none, _ => false

/-- Models `counts[thLevel] = (counts[thLevel] || 0) + 1` on the key-ordered entries. -/
def thBump (thLevel : Option Nat) : List (Option Nat × Nat) → List (Option Nat × Nat)
  | [] => [(thLevel, 1)]
  | (key, count) :: rest =>
    if key = thLevel then (key, count + 1) :: rest
    else if thKeyLt thLevel key then (thLevel, 1) :: (key, count) :: rest
    else (key, count) :: thBump thLevel rest

/-- The `reduce` of `compo`: members per town-hall level, as `Object.keys`
enumerates them. -/
def thCounts (members : List ClanMember) : List (Option Nat × Nat) :=
  members.foldl (fun counts member => thBump member.townHallLevel counts) []

/-- The `responseMessage` of `compo`. -/
def compoMessage (clan : Clan) (members : List ClanMember) : String :=
  (thCounts members).foldl
    (fun responseMessage entry => responseMessage ++
      "\u011f\u0178\u00a0 TH " ++ Js.num entry.1 ++ ": " ++ toString entry.2 ++ "\n")
    ("\u011f\u0178\u00b0 **Clan Composition for " ++ Js.str clan.name ++ " (" ++
    Js.str clan.tag ++ ")**:\n\n")

/-- The part of the `try` of `compo` that follows the choice of the tag. -/
def compoFetch (env : Env) (clanTag : String) : Act Unit := do
  let clan ← getClan env clanTag
  let members ← getClanMembers env clanTag
  reply (compoMessage clan members)

/-- The `compo` command. -/
def compo (env : Env) (message : Message) (args : List String) : Act Unit :=
  let chatID := message.sender
  let clanTag := args.head?
  let mention := args[1]?
  Act.bind (Act.ofExcept (mentionOrSelf message mention)) (fun userId =>
    Act.tryCatch
      (if !Js.truthy clanTag then do
        let userProfile ← getUserProfile env chatID userId
        match firstTag userProfile.clanTags with
        | some clanTag => compoFetch env clanTag
        | none => reply "Please provide a clan tag, e.g., `!compo #ABC123`."
      else compoFetch env (clanTag.getD ""))
      (fun error => reply ("Error fetching clan composition: " ++ error ++ " \u00e2\u0152")))

/-- The reply of `capital` for one fetched clan. -/
def capitalMessage (clan : Clan) : String :=
  match clan.capital with
  | none =>
    "No capital information available for clan " ++ Js.str clan.name ++ " (" ++ Js.str clan.tag ++
    "). \u00e2\u0152"
  | some capital =>
    "\u011f\u0178\u00b0 **Clan**: " ++ Js.str clan.name ++ " (" ++ Js.str clan.tag ++ ")\n\n" ++
    "\u011f\u0178\u00b0 **Capital Hall Level**: " ++ Js.num capital.capitalHallLevel ++ "\n" ++
    (match capital.districts with
    | some (district :: rest) =>
      (district :: rest).foldl
        (fun responseMessage district => responseMessage ++
          "  - " ++ Js.str district.name ++ " (Level " ++ Js.num district.districtHallLevel ++
          ")\n")
        "\u011f\u0178\u00b0 **Districts**:\n"
    | _ => "\u011f\u0178\u00b0 **Districts**: No districts available.\n")

/-- The `capital` command. -/
def capital (env : Env) (message : Message) (args : List String) : Act Unit :=
  let chatID := message.sender
  let userId := message.userId
  Act.tryCatch
    (do
      let userProfile ← getUserProfile env chatID (some userId)
      let clanTags := if args.length != 0 then args else userProfile.clanTags.getD []
      if clanTags.length = 0 then
        reply "Your profile is not linked to any clan tag. Please provide a clan tag, e.g., `!capital #ABC123`."
      else
        Act.forEach
          (fun clanTag => do
            let clan ← getClan env clanTag
            reply (capitalMessage clan))
          clanTags)
    (fun error => reply ("Error fetching clan capital information: " ++ error ++ " \u00e2\u0152"))

/-! ## War formatters and aggregates -/

/-- Template rendering of `x || "N/A"` for a possibly negative number; `none` is
`NaN`. -/
def Js.intOrNA : Option Int → String
  | none => "N/A"
  | some n => if n = 0 then "N/A" else toString n

/-- The comparison `a > b` on numbers that may be `undefined`. -/
def Js.gt : Option Nat → Option Nat → Bool
  | some a, some b => b < a
  | _, _ => false

/-- The product `a * b` on numbers that may be `undefined` (`none` is `NaN`). -/
def Js.mul : Option Nat → Option Nat → Option Nat
  | some a, some b => some (a * b)
  | _, _ => none

/-- One entry of `messages.en.ATTACK_INFO`. -/
def attackEntry (index : Nat) (attack : WarAttack) : Except String String := do
  let attacker ← Js.orThrow attack.attacker "mapPosition"
  let defender ← Js.orThrow attack.defender "mapPosition"
  let used ← Js.orThrow attacker.attacks "length"
  pure ("\n      " ++ toString (index + 1) ++
    ". \u00e2\u0161\u201d\u00ef\u00b8 **Attack Details**:\n      \u011f\u0178\u00b9 Attacker:  *#" ++
    Js.num attacker.mapPosition ++ "*--" ++ Js.strOrNA attacker.name ++ " (" ++
    Js.strOrNA attacker.tag ++ ")\n      \u00e2\u00ad Stars Achieved: " ++
    Js.numOrNA attack.stars ++ " on \u011f\u0178\u2014\u00ba\u00ef\u00b8*#" ++
    Js.num defender.mapPosition ++ "*-" ++ Js.strOrNA defender.name ++ " (" ++
    Js.strOrNA defender.tag ++ ")\n      \u011f\u0178\u2019\u00a5 Destruction: " ++
    Js.numOrNA attack.destruction ++
    "%\n      \u011f\u0178\u2014\u00a1\u00ef\u00b8 Attack Order: " ++ Js.numOrNA attack.order ++
    "\n      \u00e2\u00b3 Duration: " ++ Js.numOrNA attack.duration ++
    " seconds\n      \u011f\u0178\u201d\u201e *Attacks Used:* " ++ Js.numOrNA (some used) ++
    "\n      \u011f\u0178\u2020\u2022 Fresh Attack: " ++
    (if attack.isFresh then "Yes" else "No") ++ "\n    ")

/-- The `map` of `ATTACK_INFO`, from position `index` on. -/
def attackEntries : Nat → List WarAttack → Except String (List String)
  | _, [] => .ok []
  | index, attack :: rest => do
    let entry ← attackEntry index attack
    let entries ← attackEntries (index + 1) rest
    pure (entry :: entries)

/-- Models `messages.en.ATTACK_INFO`. -/
def ATTACK_INFO (attacks : List WarAttack) : Except String String := do
  let entries ← attackEntries 0 attacks
  pure (Js.join "\n" entries)

/-- Models `messages.en.BEST_DEFENSE`. -/
def BEST_DEFENSE : Option WarAttack → Except String String
  | none => .ok "\u011f\u0178\u203a\u00a1\u00ef\u00b8 **Best Defense**: No defenses yet"
  | some bestDefense => do
    let attacker ← Js.orThrow bestDefense.attacker "name"
    pure ("\n        \u011f\u0178\u203a\u00a1\u00ef\u00b8 **Best Defense**:\n        - \u011f\u0178\u00b9 Attacker: " ++
      Js.strOrNA attacker.name ++ " (" ++ Js.strOrNA attacker.tag ++
      ")\n        - \u00e2\u00ad Stars: " ++ Js.numOrNA bestDefense.stars ++
      "\n        - \u011f\u0178\u2019\u00a5 Destruction: " ++ Js.numOrNA bestDefense.destruction ++
      "%\n      ")

/-- Models `messages.en.BEST_ATTACK`. -/
def BEST_ATTACK : Option WarAttack → Except String String
  | none => .ok "\u00e2\u0161\u201d\u00ef\u00b8 **Best Attack**: No attacks yet"
  | some bestAttack => do
    let attacker ← Js.orThrow bestAttack.attacker "name"
    let defender ← Js.orThrow bestAttack.defender "name"
    pure ("\n        \u00e2\u0161\u201d\u00ef\u00b8 **Best Attack**:\n        - \u011f\u0178\u00b9 Attacker: " ++
      Js.strOrNA attacker.name ++ " (" ++ Js.strOrNA attacker.tag ++
      ")\n        - \u011f\u0178\u203a\u00a1\u00ef\u00b8 Defender: " ++ Js.strOrNA defender.name ++
      " (" ++ Js.strOrNA defender.tag ++ ")\n        - \u00e2\u00ad Stars: " ++
      Js.numOrNA bestAttack.stars ++ "\n        - \u011f\u0178\u2019\u00a5 Destruction: " ++
      Js.numOrNA bestAttack.destruction ++ "%\n      ")

/-- Models `messages.en.TEAM_INFO`. -/
def TEAM_INFO (teamSize : Option Nat) (completedAttacks : Nat) (totalAttacks : Option Nat) :
    String :=
  "\n      \u011f\u0178\u00b0 **Team Size**: " ++ Js.numOrNA teamSize ++
  "\n      \u00e2\u0153\u2026 **Total Completed Attacks**: " ++
  Js.numOrNA (some completedAttacks) ++ "\n      \u00e2\u0152 **Total Attacks Left**: " ++
  Js.intOrNA (totalAttacks.map (fun total => (total : Int) - completedAttacks)) ++ "\n    "

/-- The `reduce` computing `bestDefense` in `attack`. -/
def bestDefense (members : List WarMember) : Option WarAttack :=
  members.foldl
    (fun best member =>
      match member.bestOpponentAttack with
      | none => best
      | some bestDefense =>
        match best with
        | none => some bestDefense
        | some b => if Js.gt bestDefense.destruction b.destruction then some bestDefense else best)
    none

/-- The `reduce` computing `bestAttack` in `attack`. -/
def bestAttack (attacks : List WarAttack) : Option WarAttack :=
  attacks.foldl
    (fun best attack =>
      match best with
      | none => some attack
      | some b =>
        if Js.gt attack.stars b.stars ||
            (attack.stars == b.stars && Js.gt attack.destruction b.destruction) then some attack
        else best)
    none

/-- The guard `!war || !war.clan || !war.opponent || war.state === "notInWar"`:
the war with both sides when it does not hold. -/
def inWar : Option ClanWar → Option (ClanWar × WarClan × WarClan)
  | none => none
  | some war =>
    match war.clan, war.opponent with
    | some clan, some opponent =>
      if war.state == some "notInWar" then none else some (war, clan, opponent)
    | _, _ => none

/-- The reply for a clan that is not at war. -/
def noCurrentWar (clan : Clan) : String :=
  "No current war information available for clan " ++ Js.str clan.name ++ " (" ++
  Js.str clan.tag ++ "). \u00e2\u0152"

/-- Models `args[0] && args[0].startsWith("#") ? args[0] : null`. -/
def hashArg (args : List String) : Option String :=
  if Js.truthy args.head? && Js.startsWith (args.head?.getD "") "#" then args.head? else none

/-! ## Fan-out commands -/

/-- Models `x ? new Date(x).toLocaleString() : "N/A"`. -/
def dateOrNA (env : Env) (x : Option String) : String :=
  if Js.truthy x then env.toLocaleString x else "N/A"

/-- The `warType` of `war`. -/
def warType (war : ClanWar) : String :=
  if war.isFriendly then "Friendly" else if war.isCWL then "CWL" else "Normal"

/-- The `forEach` of `war` that collects `attackDetails`. -/
def warAttackDetails (clan opponent : WarClan) : Except String String := do
  let attacks ← Js.orThrow clan.attacks "forEach"
  attacks.foldlM
    (fun attackDetails attack => do
      let clanMembers ← Js.orThrow clan.members "find"
      let attacker := clanMembers.find? (fun member => member.tag == attack.attackerTag)
      let opponentMembers ← Js.orThrow opponent.members "find"
      let defender := opponentMembers.find? (fun member => member.tag == attack.defenderTag)
      match attacker, defender with
      | some attacker, some defender =>
        pure (attackDetails ++
          "\n\u011f\u0178\u00b9 **" ++ Js.str attacker.name ++ " (#" ++
          Js.num attacker.mapPosition ++ ")** attacked **" ++ Js.str defender.name ++ " (#" ++
          Js.num defender.mapPosition ++ ")**")
      | _, _ => pure attackDetails)
    ""

/-- The `warInfo` text of `war`. -/
def warInfo (env : Env) (war : ClanWar) (clan opponent : WarClan) : Except String String := do
  let attackDetails ← warAttackDetails clan opponent
  pure ("\n  \u00e2\u0161\u201d\u00ef\u00b8 **War State**: " ++ Js.strOrNA war.state ++
    "\n  \u011f\u0178\u203a\u00a1\u00ef\u00b8 **Clan**: " ++ Js.str clan.name ++ " (" ++
    Js.str clan.tag ++ ") vs " ++ Js.str opponent.name ++ " (" ++ Js.str opponent.tag ++
    ")\n  \u00e2\u00ad **Stars**: " ++ Js.numOrZero clan.stars ++ " - " ++
    Js.numOrZero opponent.stars ++ "\n  \u011f\u0178\u2019\u00a5 **Destruction**: " ++
    Js.numOrZero clan.destructionPercentage ++ "% - " ++
    Js.numOrZero opponent.destructionPercentage ++
    "%\n  \u011f\u0178\u2018\u00a5 **Team Size**: " ++ Js.numOrNA war.teamSize ++
    "\n  \u00e2\u0161\u201d\u00ef\u00b8 **Attacks per Member**: " ++
    Js.numOrNA war.attacksPerMember ++ "\n  \u011f\u0178\u2020 **War Type**: " ++ warType war ++
    "\n  \u011f\u0178\u2022\u2019 **Preparation Start Time**: " ++
    dateOrNA env war.preparationStartTime ++ "\n  \u011f\u0178\u2022\u2019 **Start Time**: " ++
    dateOrNA env war.startTime ++ "\n  \u011f\u0178\u2022\u2019 **End Time**: " ++
    dateOrNA env war.endTime ++ "\n  " ++ attackDetails ++ "\n          ")

/-- The per-tag `try` of `war` after its two fetches. -/
def warAnswer (env : Env) (clan : Clan) (war : Option ClanWar) : Act Unit :=
  match inWar war with
  | none => reply (noCurrentWar clan)
  | some (war, warClan, opponent) => do
    let info ← Act.ofExcept (warInfo env war warClan opponent)
    reply info

/-- The body of the per-tag `try` of `war`. -/
def warForTag (env : Env) (tag : String) : Act Unit := do
  let clan ← getClan env tag
  let war ← getCurrentWar env tag
  warAnswer env clan war

/-- The statements of `war` and `leftattack` before their `try`: the user to look up
is the invoker, or, when a first argument is given that is not a tag, what the
module-level `getUserIdFromMention` makes of it. -/
def warUser (message : Message) (mention clanTag : Option String) :
    Except String (Option String) :=
  if Js.truthy mention && !Js.truthy clanTag then getUserIdFromMention (mention.getD "")
  else .ok (some message.userId)

/-- Models `clanTag ? [clanTag] : userProfile.clanTags || []`. -/
def resolveClanTags (clanTag : Option String) (userProfile : UserProfile) : List String :=
  match clanTag with
  | some tag => if tag != "" then [tag] else userProfile.clanTags.getD []
  | none => userProfile.clanTags.getD []

/-- The `war` command. -/
def war (env : Env) (message : Message) (args : List String) : Act Unit :=
  let chatID := message.sender
  let mention := args.head?
  let clanTag := hashArg args
  Act.bind (Act.ofExcept (warUser message mention clanTag)) (fun userId =>
    Act.tryCatch
      (do
        let userProfile ← getUserProfile env chatID userId
        let clanTags := resolveClanTags clanTag userProfile
        if clanTags.length = 0 then
          reply INVALID_TAG
        else
          Act.forEach
            (fun tag => Act.tryCatch (warForTag env tag)
              (fun error => reply ("Error fetching war information for clan " ++ tag ++ ": " ++
                error ++ " \u00e2\u0152")))
            clanTags)
      (fun error => reply ("Error fetching profile: " ++ error ++ " \u00e2\u0152")))

/-- The members with exactly `used` attacks, as `members.filter` finds them;
reading `member.attacks.length` throws when a member has no attack list. -/
def membersWithAttacks (used : Nat) : List WarMember → Except String (List WarMember)
  | [] => .ok []
  | member :: rest => do
    let attacks ← Js.orThrow member.attacks "length"
    let others ← membersWithAttacks used rest
    pure (if attacks.length = used then member :: others else others)

/-- The lines of `leftattack` for one group of members. -/
def memberLines (members : List WarMember) : String :=
  members.foldl
    (fun responseMessage member => responseMessage ++
      "\n\u011f\u0178\u2014\u00ba#" ++ Js.num member.mapPosition ++ "). " ++ Js.str member.name)
    ""

/-- Models `totalAttacksLeft` of `leftattack`. -/
def totalAttacksLeft (membersWithBothAttacksLeft membersWithOneAttackLeft : List WarMember) :
    Nat :=
  membersWithBothAttacksLeft.length * 2 + membersWithOneAttackLeft.length

/-- The `responseMessage` of `leftattack`. -/
def leftAttackMessage (clan : Clan) (warClan : WarClan) : Except String String := do
  let members ← Js.orThrow warClan.members "filter"
  let membersWithBothAttacksLeft ← membersWithAttacks 0 members
  let membersWithOneAttackLeft ← membersWithAttacks 1 members
  pure ("\u011f\u0178\u203a\u00a1\u00ef\u00b8 **Members who haven\x27t completed their attacks in clan " ++
    Js.str clan.name ++ " (" ++ Js.str clan.tag ++ ")**:\n" ++
    (if membersWithBothAttacksLeft.length > 0 then
      "\n\u00e2\u0161\u201d\u00ef\u00b8\u00e2\u0161\u201d\u00ef\u00b8 *Both Attacks Left*:\n" ++
      memberLines membersWithBothAttacksLeft
    else "\nAll members have used at least one attack. \u00e2\u0153\u2026\n") ++
    (if membersWithOneAttackLeft.length > 0 then
      "\n\u00e2\u0161\u201d\u00ef\u00b8 *One Attack Left*:\n" ++ memberLines membersWithOneAttackLeft
    else "") ++
    "\n\n*Total Attacks Left*: " ++
    toString (totalAttacksLeft membersWithBothAttacksLeft membersWithOneAttackLeft))

/-- The per-tag `try` of `leftattack` after its two fetches. -/
def leftattackAnswer (clan : Clan) (war : Option ClanWar) : Act Unit :=
  match inWar war with
  | none => reply (noCurrentWar clan)
  | some (_, warClan, _) => do
    let responseMessage ← Act.ofExcept (leftAttackMessage clan warClan)
    reply responseMessage

/-- The body of the per-tag `try` of `leftattack`. -/
def leftattackForTag (env : Env) (tag : String) : Act Unit := do
  let clan ← getClan env tag
  let war ← getCurrentWar env tag
  leftattackAnswer clan war

/-- The `leftattack` command. -/
def leftattack (env : Env) (message : Message) (args : List String) : Act Unit :=
  let chatID := message.sender
  let mention := args.head?
  let clanTag := hashArg args
  Act.bind (Act.ofExcept (warUser message mention clanTag)) (fun userId =>
    Act.tryCatch
      (do
        let userProfile ← getUserProfile env chatID userId
        let clanTags := resolveClanTags clanTag userProfile
        if clanTags.length = 0 then
          reply INVALID_TAG
        else
          Act.forEach
            (fun tag => Act.tryCatch (leftattackForTag env tag)
              (fun error => reply ("Error fetching war information for clan " ++ tag ++ ": " ++
                error ++ " \u00e2\u0152")))
            clanTags)
      (fun error => reply ("Error fetching profile: " ++ error ++ " \u00e2\u0152")))

/-- The user looked up by `attack` and `warlog` when the first argument is not a
tag, through the handler-local `getUserIdFromMention`. -/
def attackUser (message : Message) (args : List String) (clanTag : Option String) :
    Option String :=
  if !Js.truthy clanTag && Js.truthy args.head? then message.mentionedUser
  else some message.userId

/-- The reply of `attack` for a war with at least one attack. -/
def attackMessage (clan : Clan) (war : ClanWar) (warClan : WarClan)
    (attacks : List WarAttack) : Except String String := do
  let teamSize := war.teamSize
  let completedAttacks := attacks.length
  let totalAttacks := Js.mul teamSize war.attacksPerMember
  let members ← Js.orThrow warClan.members "reduce"
  let bestDefense := bestDefense members
  let bestAttack := bestAttack attacks
  let attackDetails ← ATTACK_INFO attacks
  let bestDefenseInfo ← BEST_DEFENSE bestDefense
  let bestAttackInfo ← BEST_ATTACK bestAttack
  let teamInfo := TEAM_INFO teamSize completedAttacks totalAttacks
  pure ("\u011f\u0178\u00b0 **Clan**: " ++ Js.str clan.name ++ " (" ++ Js.str clan.tag ++ ")\n\n" ++
    attackDetails ++ "\n\n" ++ bestDefenseInfo ++ "\n\n" ++ bestAttackInfo ++ "\n\n" ++ teamInfo)

/-- The per-tag `try` of `attack` after its two fetches. -/
def attackAnswer (clan : Clan) (war : Option ClanWar) : Act Unit :=
  match inWar war with
  | none => reply (noCurrentWar clan)
  | some (war, warClan, _) =>
    if (warClan.attacks.getD []).length = 0 then
      reply ("Clan " ++ Js.str clan.name ++ " is in preparation day. \u00e2\u0152")
    else do
      let text ← Act.ofExcept (attackMessage clan war warClan (warClan.attacks.getD []))
      reply text

/-- The body of the per-tag `try` of `attack`. -/
def attackForTag (env : Env) (tag : String) : Act Unit := do
  let clan ← getClan env tag
  let war ← getCurrentWar env tag
  attackAnswer clan war

/-- The `attack` command. -/
def attack (env : Env) (message : Message) (args : List String) : Act Unit :=
  let chatID := message.sender
  let clanTag := hashArg args
  let userId := attackUser message args clanTag
  Act.tryCatch
    (do
      let userProfile ← getUserProfile env chatID userId
      let clanTags := resolveClanTags clanTag userProfile
      if clanTags.length = 0 then
        reply "Invalid or no clan tag provided, and no linked clans found in profile."
      else
        Act.forEach
          (fun tag => Act.tryCatch (attackForTag env tag)
            (fun error => reply ("Error fetching war information for clan " ++ tag ++ ": " ++ error ++
              " \u00e2\u0152")))
          clanTags)
    (fun error => reply ("Error fetching attack details: " ++ error ++ " \u00e2\u0152"))

/-- The `rows` of the members table, from position `index` on. -/
def memberRows : Nat → List ClanMember → List (List String)
  | _, [] => []
  | index, member :: rest =>
    [toString (index + 1), Js.str member.name, Js.str member.role, Js.num member.expLevel,
      Js.num member.townHallLevel, Js.num member.trophies, Js.num member.donations,
      Js.num member.received] :: memberRows (index + 1) rest

/-- The per-tag `try` of `members` after its two fetches. -/
def membersAnswer (env : Env) (isTableFormat : Bool) (clan : Clan)
    (members : List ClanMember) : Act Unit :=
  if members.length = 0 then
    reply ("No members found in the clan " ++ Js.str clan.name ++ " (" ++ Js.str clan.tag ++ ").")
  else if isTableFormat then do
    let buffer ← Act.ofExcept (env.drawMembers (memberRows 0 members))
    replyMedia buffer "members.png"
  else
    reply ("\u011f\u0178\u00b0 **Clan**: " ++ Js.str clan.name ++ " (" ++ Js.str clan.tag ++ ")\n\n" ++
      MEMBERS_INFO_LIST members)

/-- The body of the per-tag `try` of `members`. -/
def membersForTag (env : Env) (isTableFormat : Bool) (tag : String) : Act Unit := do
  let clan ← getClan env tag
  let members ← getClanMembers env tag
  membersAnswer env isTableFormat clan members

/-- The user looked up by `members` when no argument is a tag, the first argument
is given and the table format is not asked for. -/
def membersUser (message : Message) (args : List String) (clanTag : Option String)
    (isTableFormat : Bool) : Option String :=
  if !Js.truthy clanTag && Js.truthy args.head? && !isTableFormat then message.mentionedUser
  else some message.userId

/-- The `members` command. -/
def members (env : Env) (message : Message) (args : List String) : Act Unit :=
  let chatID := message.sender
  let clanTag := args.find? (fun arg => Js.startsWith arg "#")
  let isTableFormat := args.head? == some "table" || args.contains "table"
  let userId := membersUser message args clanTag isTableFormat
  Act.tryCatch
    (do
      let userProfile ← getUserProfile env chatID userId
      let clanTags := resolveClanTags clanTag userProfile
      if clanTags.length = 0 then
        reply "Your profile is not linked to any clan tag. Please provide a clan tag, e.g., `!members #ABC123`."
      else
        Act.forEach
          (fun tag => Act.tryCatch (membersForTag env isTableFormat tag)
            (fun error => reply ("Error fetching clan members for clan " ++ tag ++ ": " ++ error ++ " \u00e2\u0152")))
          clanTags)
    (fun error => reply ("Error fetching clan members: " ++ error ++ " \u00e2\u0152"))

/-- The `wars` rows of `warlog`: the first ten entries. -/
def warLogRows (env : Env) : List WarLogEntry → Except String (List WarLogRow)
  | [] => .ok []
  | war :: rest => do
    let opponent ← Js.orThrow war.opponent "name"
    let clan ← Js.orThrow war.clan "stars"
    let rows ← warLogRows env rest
    pure ({ opponentName := opponent.name, result := war.result, clanStars := clan.stars,
            opponentStars := opponent.stars, expEarned := clan.expEarned,
            startTime := env.toLocaleString war.startTime,
            endTime := env.toLocaleString war.endTime } :: rows)

/-- The per-tag `try` of `warlog` after its two fetches. -/
def warlogAnswer (env : Env) (clan : Clan) (warLog : List WarLogEntry) : Act Unit :=
  if warLog.length = 0 then
    reply ("No war log available for the clan " ++ Js.str clan.name ++ " (" ++ Js.str clan.tag ++
      "). \u00e2\u0152")
  else do
    let wars ← Act.ofExcept (warLogRows env (warLog.take 10))
    let buffer ← Act.ofExcept (env.drawWarLog wars)
    replyMedia buffer "warlog.png"

/-- The body of the per-tag `try` of `warlog`. -/
def warlogForTag (env : Env) (tag : String) : Act Unit := do
  let clan ← getClan env tag
  let warLog ← getClanWarLog env tag
  warlogAnswer env clan warLog

/-- The `warlog` command. -/
def warlog (env : Env) (message : Message) (args : List String) : Act Unit :=
  let chatID := message.sender
  let clanTag := hashArg args
  let userId := attackUser message args clanTag
  Act.tryCatch
    (do
      let userProfile ← getUserProfile env chatID userId
      let clanTags := resolveClanTags clanTag userProfile
      if clanTags.length = 0 then
        reply "Invalid or no clan tag provided, and no linked clans found in profile."
      else
        Act.forEach
          (fun tag => Act.tryCatch (warlogForTag env tag)
            (fun error => reply ("Error: " ++ error ++ " \u00e2\u0152")))
          clanTags)
    (fun error => reply ("Error fetching profile: " ++ error ++ " \u00e2\u0152"))

/-! ## Profile, utility and help commands -/

/-- Models `fetchClanDetails` of `profile`, before the `join`. -/
def fetchClanDetails (env : Env) : List String → Act (List String)
  | [] => pure []
  | tag :: rest => do
    let line ← Act.tryCatch
      (do
        let clan ← getClan env tag
        pure ("- " ++ Js.str clan.name ++ " (Level " ++ Js.num clan.level ++ ") - " ++ tag))
      (fun _ => pure ("- Unknown Clan - " ++ tag))
    let lines ← fetchClanDetails env rest
    pure (line :: lines)

/-- Models `fetchPlayerDetails` of `profile`, before the `join`. -/
def fetchPlayerDetails (env : Env) : List String → Act (List String)
  | [] => pure []
  | tag :: rest => do
    let line ← Act.tryCatch
      (do
        let player ← getPlayer env tag
        pure ("-  " ++ Js.str player.name ++ " (Level " ++ Js.num player.expLevel ++ ") - " ++ tag))
      (fun _ => pure (" Unknown Player - " ++ tag))
    let lines ← fetchPlayerDetails env rest
    pure (line :: lines)

/-- Models `PROFILE_INFO` of `profile`. -/
def PROFILE_INFO (profile : UserProfile) (linkedClans linkedPlayers : String) : String :=
  let instructionsClan :=
    if linkedClans == "" then "\nTo link your clan, use *!linkclan* *#ClanTag*\n" else ""
  let instructionsPlayer :=
    if linkedPlayers == "" then "\nTo link your player, use *!linkplayer* *#PlayerTag*\n" else ""
  "\n  \u011f\u0178\u2018\u00a4 **User ID**: " ++ Js.strOrNA profile.userId ++ "\n  " ++
  (if linkedClans != "" then "\u011f\u0178\u00b0 **Linked Clans**:\n" ++ linkedClans
  else "\u011f\u0178\u00b0 **Linked Clans**: No clans linked" ++ instructionsClan) ++
  "\n  " ++
  (if linkedPlayers != "" then "\u011f\u0178\u2018\u00a5 **Linked Players**:\n" ++ linkedPlayers
  else "\u011f\u0178\u2018\u00a5 **Linked Players**: No players linked" ++ instructionsPlayer) ++
  "\n        "

/-- Truthiness of a value that is an object, `null` or `undefined`, `none` standing
for the latter two: every object is truthy, `{}` included. -/
def Js.truthyObject {α : Type} : Option α → Bool
  | none => false
  | some _ => true

/-- The `try` statement of `profile`, once the user is determined. The test
`!userProfile` is applied to what `getUserProfile` returned, which is an object. -/
def profileFor (env : Env) (chatID userId : String) : Act Unit :=
  Act.tryCatch
    (do
      let userProfile ← getUserProfile env chatID (some userId)
      if !Js.truthyObject (some userProfile) then
        reply "No profile linked to this user."
      else do
        let clanLines ← fetchClanDetails env (userProfile.clanTags.getD [])
        let linkedClans := Js.join "\n" clanLines
        let playerLines ← fetchPlayerDetails env (userProfile.playerTags.getD [])
        let linkedPlayers := Js.join "\n" playerLines
        reply (PROFILE_INFO userProfile linkedClans linkedPlayers))
    (fun error => reply ("Error fetching profile: " ++ error ++ " \u00e2\u0152"))

/-- The `profile` command. -/
def profile (env : Env) (message : Message) (args : List String) : Act Unit :=
  let chatID := message.sender
  let mention := args.head?
  if Js.truthy mention then
    let mentionedUserId := message.mentionedUser
    if !Js.truthy mentionedUserId then reply "Invalid user mention."
    else profileFor env chatID (mentionedUserId.getD "")
  else profileFor env chatID message.userId

/-- The `ping` command; the latencies are the `toFixed(2)` renderings of the two
measured intervals. -/
def ping (env : Env) (_message : Message) (_args : List String) : Act Unit :=
  Act.tryCatch
    (do
      reply "\u011f\u0178\u201c Pong! Checking latency..."
      let _ ← getClan env "#2PP"
      Act.emit (.edit "\u011f\u0178\u201c Pong! Checking latency...")
      let responseMessage :=
        "API Latency: " ++ env.apiLatency ++ "ms\nBot Latency: " ++ env.botLatency ++ "ms"
      Act.emit (.edit responseMessage))
    (fun error => reply ("Error occurred: " ++ error ++ " \u00e2\u0152"))

/-- Models `messages.en.HELP`. -/
def HELP : String :=
  "\n**Available Commands:**\n*Clan Information* \u011f\u0178\u00b0\n\n- *!clan* <tag>: Fetch general clan information.\n- *!labels* <tag>: Fetch clan labels.\n- *!capital* <tag>: Fetch clan capital information.\n- *!compo* <tag>: Show townhall counts for the clan.\n\n*Member Information* \u011f\u0178\u2018\u00a5\n\n- *!members* <tag>: Fetch the clan members list.\n- *!members* *table* <tag>: Fetch clan members in a table format.\n\n*Player Information* \u011f\u0178\u2018\u00a4\n\n- *!player* <tag>: Fetch detailed player information.\n\n*Clan Wars* \u00e2\u0161\u201d\u00ef\u00b8\n\n- *!war* <tag>: Fetch current clan war information.\n- *!warlog* <tag>: Fetch clan war log.\n- *!attack* <tag>: Fetch current war attack details.\n- *!leftattack* <tag>: Fetch members who haven\x27t completed their attacks.\n\n*Utilities* \u00e2\u201e\u00b9\u00ef\u00b8\n\n- !ping: Check bot and API responsiveness.\n- !help: Display this help message.\n    "

/-- Models `messages.en.BOT_INFO`. -/
def BOT_INFO : String :=
  "\n**Bot Information**:\n\u011f\u0178\u203a\u00a0\u00ef\u00b8 - Version: 1.0.0\n\u011f\u0178\u2018\u00a8\u00e2\u20ac\u011f\u0178\u2019\u00bb - Developed by: *Cadbury*\n\u011f\u0178\u201c\u0160 - Features: Fetch Clash of Clans data, provide war status, clan info, and more.\n    "

/-- The `coc` command. -/
def coc (_env : Env) (_message : Message) (_args : List String) : Act Unit :=
  reply HELP

/-- The `botinfo` command. -/
def botinfo (_env : Env) (_message : Message) (_args : List String) : Act Unit :=
  reply BOT_INFO

/-- The exported `handleMessage`: it calls `handleCommand`, an identifier that
`commands.js` neither defines nor imports, so the call throws a `ReferenceError`. -/
def handleMessage (_env : Env) (_message : Message) (_args : List String) : Act Unit :=
  Act.throw "handleCommand is not defined"

/-! ## Command registry and message listener (`index.js`) -/

/-- The keys of `module.exports` in `commands.js`. -/
inductive Command
  | handleMessage
  | linkplayer
  | linkclan
  | unlinkplayer
  | unlinkclan
  | profile
  | player
  | clan
  | capital
  | ping
  | coc
  | attack
  | members
  | warlog
  | labels
  | compo
  | war
  | leftattack
  | botinfo
  deriving DecidableEq, Repr

/-- The property key of a command. -/
def Command.name : Command → String
  | .handleMessage => "handleMessage"
  | .linkplayer => "linkplayer"
  | .linkclan => "linkclan"
  | .unlinkplayer => "unlinkplayer"
  | .unlinkclan => "unlinkclan"
  | .profile => "profile"
  | .player => "player"
  | .clan => "clan"
  | .capital => "capital"
  | .ping => "ping"
  | .coc => "coc"
  | .attack => "attack"
  | .members => "members"
  | .warlog => "warlog"
  | .labels => "labels"
  | .compo => "compo"
  | .war => "war"
  | .leftattack => "leftattack"
  | .botinfo => "botinfo"

/-- Every command, in the order of the object literal. -/
def Command.all : List Command :=
  [.handleMessage, .linkplayer, .linkclan, .unlinkplayer, .unlinkclan, .profile, .player,
    .clan, .capital, .ping, .coc, .attack, .members, .warlog, .labels, .compo, .war,
    .leftattack, .botinfo]

/-- The function stored under a command key. -/
def Command.run : Command → Env → Message → List String → Act Unit
  | .handleMessage => Whatsapp.handleMessage
  | .linkplayer => Whatsapp.linkplayer
  | .linkclan => Whatsapp.linkclan
  | .unlinkplayer => Whatsapp.unlinkplayer
  | .unlinkclan => Whatsapp.unlinkclan
  | .profile => Whatsapp.profile
  | .player => Whatsapp.player
  | .clan => Whatsapp.clan
  | .capital => Whatsapp.capital
  | .ping => Whatsapp.ping
  | .coc => Whatsapp.coc
  | .attack => Whatsapp.attack
  | .members => Whatsapp.members
  | .warlog => Whatsapp.warlog
  | .labels => Whatsapp.labels
  | .compo => Whatsapp.compo
  | .war => Whatsapp.war
  | .leftattack => Whatsapp.leftattack
  | .botinfo => Whatsapp.botinfo

/-- What `commands[commandName]` evaluates to when it is truthy. `commands` is an
object literal, so a key it does not own is looked up on `Object.prototype`. -/
inductive Property
  | own (c : Command)
  | inheritedFunction (throws : Option String)
  | inheritedObject
  deriving DecidableEq, Repr

/-- The properties of `Object.prototype` and what calling each as
`commands[commandName](message, args)` does: the accessor `__proto__` yields an
object, which is not callable; `__defineGetter__` and `__defineSetter__` reject
`args`, an array, as accessor function; the others return. -/
def objectPrototype : List (String × Property) :=
  [("constructor", .inheritedFunction none),
    ("__defineGetter__",
      .inheritedFunction (some "Object.prototype.__defineGetter__: Expecting function")),
    ("__defineSetter__",
      .inheritedFunction (some "Object.prototype.__defineSetter__: Expecting function")),
    ("hasOwnProperty", .inheritedFunction none),
    ("__lookupGetter__", .inheritedFunction none),
    ("__lookupSetter__", .inheritedFunction none),
    ("isPrototypeOf", .inheritedFunction none),
    ("propertyIsEnumerable", .inheritedFunction none),
    ("toString", .inheritedFunction none),
    ("valueOf", .inheritedFunction none),
    ("__proto__", .inheritedObject),
    ("toLocaleString", .inheritedFunction none)]

/-- Models `commands[commandName]`, `none` when it is `undefined`. -/
def lookup (commandName : String) : Option Property :=
  match Command.all.find? (fun c => c.name == commandName) with
  | some c => some (.own c)
  | none => (objectPrototype.find? (fun entry => entry.1 == commandName)).map Prod.snd

/-- Models `await commands[commandName](message, args)`. -/
def callProperty (env : Env) (commandName : String) (message : Message)
    (args : List String) : Property → Act Unit
  | .own c => Act.bind (Act.emit (.call c.name args)) (fun _ => c.run env message args)
  | .inheritedFunction none => pure ()
  | .inheritedFunction (some error) => Act.throw error
  | .inheritedObject => Act.throw ("commands[" ++ commandName ++ "] is not a function")

/-- The chat of a message: `chat.id._serialized`, `chat.isGroup`, `chat.name`. -/
structure Chat where
  id : String
  isGroup : Bool
  name : Option String
  deriving DecidableEq, Repr

/-- Models `adminChatId`. -/
def adminChatId : String :=
  "120363370354490104@g.us"

/-- The `info` text of `!info`. -/
def infoMessage (chat : Chat) (message : Message) : String :=
  if chat.isGroup then
    "\n            *User Info*\n            Name: " ++ Js.str chat.name ++ "\n            ID: " ++
    chat.id ++ "\n            Phone Number: " ++ Js.str (Js.split chat.id (Char.ofNat 64)).head? ++
    "\n          "
  else
    "\n            *User Info*\n            Name: " ++ Js.str message.notifyName ++
    "\n            ID: " ++ message.sender ++ "\n            Phone Number: " ++
    Js.str (Js.split message.sender (Char.ofNat 64)).head? ++ "\n          "

/-- The listener `whatsappClient.on("message", ...)`. `allowChat` and `stopChat`
are recorded as one event each, the `setTimeout` deletion as `deleteLater`. -/
def onMessage (env : Env) (chat : Chat) (message : Message) : Act Unit :=
  let normalizedMessage := Js.toLowerCase message.body
  if normalizedMessage == "!info" then
    reply (infoMessage chat message)
  else if chat.id == adminChatId then
    if Js.startsWith normalizedMessage "!allow " then do
      let chatId := Js.str (Js.split message.body (Char.ofNat 32))[1]?
      Act.emit (.allowChat chatId)
      reply ("Chat ID " ++ chatId ++ " is now allowed.")
    else if Js.startsWith normalizedMessage "!stop " then do
      let chatId := Js.str (Js.split message.body (Char.ofNat 32))[1]?
      Act.emit (.stopChat chatId)
      reply ("Chat ID " ++ chatId ++ " is no longer allowed.")
    else if normalizedMessage == "!ping" then
      reply "pong"
    else if normalizedMessage == "!help" then do
      reply "\n            *Available Commands*\n            !allow <chatId> - Allow a chat ID to interact with the bot\n            !stop <chatId> - Stop allowing a chat ID to interact with the bot\n            !ping - Check if the bot is responsive\n            !info - Get user information\n            !help - List all available commands\n          "
      Act.emit (.deleteLater 30000)
    else pure ()
  else if normalizedMessage == "!help" then do
    reply "\n          *Available Commands*\n          !ping - Check if the bot is responsive\n          !info - Get user information\n          !help - List all available commands\n        "
    Act.emit (.deleteLater 30000)
  else if Js.startsWith message.body "!" then
    let commandName := Js.substring1 (Js.str (Js.split message.body (Char.ofNat 32)).head?)
    let args := (Js.split message.body (Char.ofNat 32)).drop 1
    match lookup commandName with
    | some property =>
      Act.tryCatch (callProperty env commandName message args property)
        (fun _ => reply "An error occurred while executing the command.")
    | none => pure ()
  else pure ()

/-! ## Rate limiter -/

/-- The module state `rateLimitMap`: per user, the stored timestamps, `none` when the
map has no entry for the user. -/
def RateLimitMap := String → Option (List Nat)

/-- The map `new Map()` the module starts with. -/
def RateLimitMap.empty : RateLimitMap :=
  fun _ => none

/-- The constant `RATE_LIMIT_WINDOW_MS`. -/
def RATE_LIMIT_WINDOW_MS : Nat :=
  3000

/-- The constant `MAX_REQUESTS_PER_WINDOW`. -/
def MAX_REQUESTS_PER_WINDOW : Nat :=
  5

/-- Models `rateLimitCheck(userId)` with `Date.now()` given as `currentTime`: the value
returned and the map after the call. The map is set before the comparison. -/
def rateLimitCheck (rateLimitMap : RateLimitMap) (currentTime : Nat) (userId : String) :
    Bool × RateLimitMap :=
  let userRequests : List Nat := (rateLimitMap userId).getD []
  let filteredRequests : List Nat := userRequests.filter
    (fun (timestamp : Nat) =>
      decide ((currentTime : Int) - (timestamp : Int) < (RATE_LIMIT_WINDOW_MS : Int)))
  (decide (filteredRequests.length < MAX_REQUESTS_PER_WINDOW),
    fun u => if u = userId then some (filteredRequests ++ [currentTime]) else rateLimitMap u)

/-- The listener run on the successive messages of one chat. -/
def onMessages (env : Env) (chat : Chat) (messages : List Message) : Act Unit :=
  Act.forEach (onMessage env chat) messages

/-! ## Vocabulary of the statements -/

/-- What `getUserProfile` yields for a looked-up user in a working store. -/
def profileOf (store : Store) (chatID : String) (userId : Option String) : UserProfile :=
  match userId with
  | none => UserProfile.empty
  | some u => (store chatID u).getD UserProfile.empty

/-- The commands that loop over the resolved tags with a `try` per tag. -/
def fanOutCommands : List Command :=
  [.war, .leftattack, .attack, .members, .warlog]

/-- The explicit tag a fan-out command finds in its arguments. -/
def explicitTag (c : Command) (args : List String) : Option String :=
  match c with
  | .members => args.find? (fun arg => Js.startsWith arg "#")
  | _ => hashArg args

/-- The user whose profile a fan-out command reads, or the error its statements
before the `try` throw. -/
def lookedUpUser (c : Command) (message : Message) (args : List String) :
    Except String (Option String) :=
  match c with
  | .war => warUser message args.head? (hashArg args)
  | .leftattack => warUser message args.head? (hashArg args)
  | .members =>
    .ok (membersUser message args (args.find? (fun arg => Js.startsWith arg "#"))
      (args.head? == some "table" || args.contains "table"))
  | _ => .ok (attackUser message args (hashArg args))

/-- The upstream calls a fan-out command makes for one tag, as one fallible step:
its error is the message of the first call that fails. -/
def fetches (c : Command) (env : Env) (tag : String) : Except String Unit :=
  match env.getClan tag with
  | .error e => .error e
  | .ok _ =>
    match c with
    | .members => (env.getClanMembers tag).map (fun _ => ())
    | .warlog => (env.getClanWarLog tag).map (fun _ => ())
    | _ => (env.getCurrentWar tag).map (fun _ => ())

/-- The text of the reply sent by the per-tag `catch` of a fan-out command. -/
def tagErrorText (c : Command) (tag error : String) : String :=
  match c with
  | .members => "Error fetching clan members for clan " ++ tag ++ ": " ++ error ++ " \u00e2\u0152"
  | .warlog => "Error: " ++ error ++ " \u00e2\u0152"
  | _ => "Error fetching war information for clan " ++ tag ++ ": " ++ error ++ " \u00e2\u0152"

/-- The guarded per-tag step of a fan-out command: the body of its loop. -/
def tagStep (c : Command) (env : Env) (args : List String) (tag : String) : Act Unit :=
  match c with
  | .war =>
    Act.tryCatch (warForTag env tag) (fun error => reply (tagErrorText .war tag error))
  | .leftattack =>
    Act.tryCatch (leftattackForTag env tag)
      (fun error => reply (tagErrorText .leftattack tag error))
  | .attack =>
    Act.tryCatch (attackForTag env tag) (fun error => reply (tagErrorText .attack tag error))
  | .members =>
    Act.tryCatch
      (membersForTag env (args.head? == some "table" || args.contains "table") tag)
      (fun error => reply (tagErrorText .members tag error))
  | .warlog =>
    Act.tryCatch (warlogForTag env tag) (fun error => reply (tagErrorText .warlog tag error))
  | _ => pure ()

/-- The events of the per-tag step of a fan-out command, run on its own. -/
def tagTrace (c : Command) (env : Env) (args : List String) (tag : String) : List Event :=
  (tagStep c env args tag Store.empty).trace

/-- The commands that fetch one tag: the first argument or the first linked tag. -/
def singleTagCommands : List Command :=
  [.clan, .player, .labels, .compo]

/-- The commands that take an optional tag as first argument. -/
def explicitTagCommands : List Command :=
  [.clan, .player, .labels, .compo, .war, .leftattack, .attack, .warlog, .members]

/-- The commands that resolve tags from the profile when given no argument. -/
def tagCommands : List Command :=
  [.clan, .player, .labels, .compo, .capital, .war, .leftattack, .attack, .warlog, .members]

/-- The tag list of the kind a command works on. -/
def kindTags (c : Command) (profile : UserProfile) : Option (List String) :=
  match c with
  | .player => profile.playerTags
  | _ => profile.clanTags

/-- The instruction a tag command replies with when it resolves no tag. -/
def instruction (c : Command) : String :=
  match c with
  | .player => "Please provide a player tag, e.g., `!player #ABC123`."
  | .clan => "Please provide a clan tag, e.g., `!clan #ABC123`."
  | .labels => "Please provide a clan tag, e.g., `!labels #ABC123`."
  | .compo => "Please provide a clan tag, e.g., `!compo #ABC123`."
  | .capital =>
    "Your profile is not linked to any clan tag. Please provide a clan tag, e.g., `!capital #ABC123`."
  | .members =>
    "Your profile is not linked to any clan tag. Please provide a clan tag, e.g., `!members #ABC123`."
  | .attack => "Invalid or no clan tag provided, and no linked clans found in profile."
  | .warlog => "Invalid or no clan tag provided, and no linked clans found in profile."
  | _ => INVALID_TAG

/-- The fetch-and-format step of a single-tag command for one tag. -/
def fetchStep (c : Command) (env : Env) (tag : String) : Act Unit :=
  match c with
  | .player => playerFetch env tag
  | .labels => labelsFetch env tag
  | .compo => compoFetch env tag
  | _ => clanFetch env tag

/-- The upstream method a single-tag command calls first. -/
def firstMethod (c : Command) : ApiMethod :=
  match c with
  | .player => .getPlayer
  | _ => .getClan

/-- The text of the reply sent by the `catch` of a single-tag command. -/
def catchText (c : Command) (error : String) : String :=
  match c with
  | .player => "Error fetching profile: " ++ error ++ " \u00e2\u0152"
  | .labels => "Error fetching clan labels: " ++ error ++ " \u00e2\u0152"
  | .compo => "Error fetching clan composition: " ++ error ++ " \u00e2\u0152"
  | _ => "Error fetching clan information: " ++ error ++ " \u00e2\u0152"

/-- An action that either sends one reply or throws, without any other effect. -/
def AnswersOrThrows (x : Act Unit) : Prop :=
  (∃ r, ∀ s, x s = ⟨.ok (), s, [.reply r]⟩) ∨ (∃ e, ∀ s, x s = ⟨.error e, s, []⟩)

/-- The shape of a per-tag step: upstream calls for the tag, then one reply, which is
the `catch` reply when a fetch fails. -/
def StepShape (step : Act Unit) (tag : String) (failure : Except String Unit)
    (errText : String → String) : Prop :=
  ∃ calls answer,
    (∀ s, step s = ⟨.ok (), s, calls ++ [.reply answer]⟩) ∧
    calls ≠ [] ∧ (∀ e ∈ calls, ∃ m, e = Event.api m tag) ∧
    (∀ error, failure = .error error → answer = .text (errText error)) ∧
    calls.head? = some (.api .getClan tag)

/-- The shape of the guarded fetch of a single-tag command: upstream calls for the
tag, the first with method `m`, then one reply. -/
def FetchShape (step : Act Unit) (tag : String) (m : ApiMethod) : Prop :=
  ∃ calls answer,
    (∀ s, step s = ⟨.ok (), s, calls ++ [.reply answer]⟩) ∧
    calls ≠ [] ∧ (∀ e ∈ calls, ∃ m, e = Event.api m tag) ∧
    calls.head? = some (.api m tag)

/-- Successive calls `rateLimitCheck(userId)` at the given times: the values returned,
in order, and the map after the last call. -/
def rateLimitChecks (userId : String) : RateLimitMap → List Nat → List Bool × RateLimitMap
  | rateLimitMap, [] => ([], rateLimitMap)
  | rateLimitMap, time :: times =>
    ((rateLimitCheck rateLimitMap time userId).1 ::
        (rateLimitChecks userId (rateLimitCheck rateLimitMap time userId).2 times).1,
      (rateLimitChecks userId (rateLimitCheck rateLimitMap time userId).2 times).2)

/-- The timestamps stored for a user, `[]` without an entry. -/
def RateLimitMap.window (rateLimitMap : RateLimitMap) (userId : String) : List Nat :=
  (rateLimitMap userId).getD []

/-- The times of a request history at which the request was admitted. -/
def admittedTimes : List Nat → List Bool → List Nat
  | time :: times, admitted :: rest =>
    if admitted then time :: admittedTimes times rest else admittedTimes times rest
  | _, _ => []

/-- The stars of an attack that has them. -/
def starsOf (attack : WarAttack) : Nat :=
  attack.stars.getD 0

/-- The destruction percentage of an attack that has one. -/
def destructionOf (attack : WarAttack) : Nat :=
  attack.destruction.getD 0

/-- The two-key order of attacks: `a` has strictly more stars than `b`, or equal stars
and strictly higher destruction. -/
def Better (a b : WarAttack) : Prop :=
  starsOf b < starsOf a ∨ (starsOf a = starsOf b ∧ destructionOf b < destructionOf a)

/-- The number of attacks a war member has used. -/
def attacksUsed (member : WarMember) : Nat :=
  (member.attacks.getD []).length

/-- The operations that change stored link records: the four helpers of the profile
store adapter and the unlink-all branch of `unlinkplayer` and of `unlinkclan`. -/
inductive ProfileOp
  | linkPlayerTag (chatID userId playerTag : String)
  | linkClanTag (chatID userId clanTag : String)
  | unlinkPlayerTag (chatID userId playerTag : String)
  | unlinkClanTag (chatID userId clanTag : String)
  | unlinkAllPlayers (message : Message)
  | unlinkAllClans (message : Message)
  deriving DecidableEq, Repr

/-- The store an operation leaves, in an environment whose store may fail. -/
def ProfileOp.apply (env : Env) (store : Store) : ProfileOp → Store
  | .linkPlayerTag chatID userId playerTag =>
    (Whatsapp.linkPlayerTag env chatID userId playerTag store).store
  | .linkClanTag chatID userId clanTag =>
    (Whatsapp.linkClanTag env chatID userId clanTag store).store
  | .unlinkPlayerTag chatID userId playerTag =>
    (Whatsapp.unlinkPlayerTag env chatID userId playerTag store).store
  | .unlinkClanTag chatID userId clanTag =>
    (Whatsapp.unlinkClanTag env chatID userId clanTag store).store
  | .unlinkAllPlayers message => (unlinkplayer env message [] store).store
  | .unlinkAllClans message => (unlinkclan env message [] store).store

/-- The store after a sequence of operations, each in its own environment. -/
def applyAll (store : Store) (steps : List (Env × ProfileOp)) : Store :=
  steps.foldl (fun s step => step.2.apply step.1 s) store

/-- Neither tag list of the profile of a user in a chat holds a tag twice. -/
def DuplicateFree (store : Store) (chatID userId : String) : Prop :=
  ((profileOf store chatID (some userId)).playerTags.getD []).Nodup ∧
    ((profileOf store chatID (some userId)).clanTags.getD []).Nodup

/-- The text of the reply sent by the outer `catch` of a fan-out command. -/
def profileErrorText (c : Command) (error : String) : String :=
  match c with
  | .attack => "Error fetching attack details: " ++ error ++ " \u00e2\u0152"
  | .members => "Error fetching clan members: " ++ error ++ " \u00e2\u0152"
  | _ => "Error fetching profile: " ++ error ++ " \u00e2\u0152"

/-- The line of the `compo` reply for one entry of `thCounts`. -/
def thLine (entry : Option Nat × Nat) : String :=
  "\u011f\u0178\u00a0 TH " ++ Js.num entry.1 ++ ": " ++ toString entry.2 ++ "\n"

/-- The first line of the `compo` reply. -/
def compoHeader (clan : Clan) : String :=
  "\u011f\u0178\u00b0 **Clan Composition for " ++ Js.str clan.name ++ " (" ++
    Js.str clan.tag ++ ")**:\n\n"

/-- The count recorded for a key in the entries of `thCounts`, `0` without entry. -/
def thCountOf (counts : List (Option Nat × Nat)) (thLevel : Option Nat) : Nat :=
  ((counts.filter (fun entry => decide (entry.1 = thLevel))).map Prod.snd).sum

/-- The entries have ascending keys and positive counts. -/
def ThOrdered (counts : List (Option Nat × Nat)) : Prop :=
  (counts.map Prod.fst).Pairwise (fun a b => thKeyLt a b = true) ∧
    ∀ entry ∈ counts, 0 < entry.2

/-! ## Sample collaborators -/

/-- An environment in which every upstream call fails and the store works. -/
def Env.failing : Env :=
  { getClan := fun _ => .error "notFound"
    getPlayer := fun _ => .error "notFound"
    getClanMembers := fun _ => .error "notFound"
    getCurrentWar := fun _ => .error "notFound"
    getClanWarLog := fun _ => .error "notFound"
    findOneFault := fun _ _ => none
    updateOneFault := fun _ _ => none
    toLocaleString := fun _ => "Invalid Date"
    drawMembers := fun _ => .ok "png"
    drawWarLog := fun _ => .ok "png"
    apiLatency := "0.00"
    botLatency := "0.00" }

/-- A clan record with a name and a tag only. -/
def Clan.sample (tag : String) : Clan :=
  { name := some "Alpha", tag := some tag, level := none, members := none, warWins := none,
    warWinStreak := none, warFrequency := none, clanPoints := none, clanVersusPoints := none,
    requiredTrophies := none, location := none, capital := none, labels := none }

/-- An environment in which the clan `#B` cannot be fetched, every other clan can
and is not at war, and the store works. -/
def Env.failsOnB : Env :=
  { Env.failing with
    getClan := fun tag => if tag = "#B" then .error "notFound" else .ok (Clan.sample tag)
    getCurrentWar := fun _ => .ok none
    getPlayer := fun tag =>
      .ok { name := some "Bob", tag := some tag, townHallLevel := none, expLevel := none,
            trophies := none, bestTrophies := none, warStars := none, attackWins := none,
            defenseWins := none, role := none, clan := none, league := none,
            builderHallLevel := none, versusTrophies := none, bestVersusTrophies := none,
            versusBattleWins := none }
    getClanMembers := fun _ => .ok []
    getClanWarLog := fun _ => .ok [] }

/-- A message of user `alice` in the group chat `chat`. -/
def Message.sample (body : String) : Message :=
  { body := body, sender := "chat", author := some "alice", notifyName := none, mentions := [] }

/-- A store in which `alice` has linked the clans `#A`, `#B`, `#C` in `chat`. -/
def Store.sample : Store :=
  fun c u =>
    if c = "chat" ∧ u = "alice" then
      some { userId := some "alice", playerTags := some ["#P", "#Q"],
             clanTags := some ["#A", "#B", "#C"] }
    else none

/-- An attack with the given stars and destruction, of an attacker and a defender
without further data. -/
def WarAttack.sample (stars destruction : Nat) : WarAttack :=
  { attackerTag := none, defenderTag := none, stars := some stars,
    destruction := some destruction, order := none, duration := none, isFresh := false,
    attacker := none, defender := none }

/-- A war member with the given name who used `used` attacks, each of one star. -/
def WarMember.sample (name : String) (used : Nat) : WarMember :=
  { name := some name, tag := none, mapPosition := none,
    attacks := some (List.replicate used (WarAttack.sample 1 50)),
    bestOpponentAttack := none }

/-- A war member with the given name and best-received-attack record who has not
attacked. -/
def WarMember.attacked (name : String) (record : Option WarAttack) : WarMember :=
  { name := some name, tag := none, mapPosition := none, attacks := some [],
    bestOpponentAttack := record }

/-- An environment in which every upstream call fails and so does every store read. -/
def Env.storeDown : Env :=
  { Env.failing with findOneFault := fun _ _ => some "store down" }

/-- An environment in which the store cannot be read, the clan `#B` cannot be fetched
and every other clan is fetched and is not at war. -/
def Env.lookupDown : Env :=
  { Env.failsOnB with findOneFault := fun _ _ => some "store down" }

/-- A roster member with the given town-hall level and no other field. -/
def ClanMember.sample (thLevel : Option Nat) : ClanMember :=
  { name := none, role := none, expLevel := none, townHallLevel := thLevel, trophies := none,
    donations := none, received := none }

/-- An attack of the war participant `attacker` on `defender`, with the given stars and
destruction. -/
def WarAttack.detailed (attacker defender : String) (stars destruction : Nat) : WarAttack :=
  { attackerTag := some attacker, defenderTag := some defender, stars := some stars,
    destruction := some destruction, order := some 1, duration := some 60, isFresh := true,
    attacker := some { name := some attacker, tag := some attacker, mapPosition := some 1,
                       attacks := some 1 },
    defender := some { name := some defender, tag := some defender, mapPosition := some 2,
                       attacks := some 0 } }

/-- One side of a war of four members who used 0, 1, 2 and 0 attacks, with the three
attacks made. -/
def WarClan.sample : WarClan :=
  { name := some "Alpha", tag := some "#A", stars := some 3, destructionPercentage := some 50,
    attacks := some [WarAttack.detailed "m2" "o1" 1 50, WarAttack.detailed "m3" "o2" 2 80,
      WarAttack.detailed "m3" "o3" 3 100],
    members := some [WarMember.sample "m1" 0, WarMember.sample "m2" 1, WarMember.sample "m3" 2,
      WarMember.sample "m4" 0] }

/-- A running war of team size four with two attacks per member. -/
def ClanWar.sample : ClanWar :=
  { state := some "inWar", clan := some WarClan.sample, opponent := some WarClan.sample,
    teamSize := some 4, attacksPerMember := some 2, isFriendly := false, isCWL := false,
    preparationStartTime := none, startTime := none, endTime := none }

/-- An environment in which every clan but `#B` is fetched and is in the sample war,
and the store works. -/
def Env.atWar : Env :=
  { Env.failsOnB with getCurrentWar := fun _ => .ok (some ClanWar.sample) }

/-! ## Theorems -/

section Basics

variable {α β : Type}

@[simp] theorem bind_eq (x : Act α) (f : α → Act β) : (x >>= f) = Act.bind x f := rfl

@[simp] theorem pure_eq (a : α) : (pure a : Act α) = Act.ret a := rfl

@[simp] theorem replies_append (xs ys : List Event) :
    replies (xs ++ ys) = replies xs ++ replies ys := by
  induction xs with
  | nil => rfl
  | cons e es ih => cases e <;> simp [replies, ih]

@[simp] theorem apiCalls_append (xs ys : List Event) :
    apiCalls (xs ++ ys) = apiCalls xs ++ apiCalls ys := by
  induction xs with
  | nil => rfl
  | cons e es ih => cases e <;> simp [apiCalls, ih]

@[simp] theorem storeOps_append (xs ys : List Event) :
    storeOps (xs ++ ys) = storeOps xs ++ storeOps ys := by
  induction xs with
  | nil => rfl
  | cons e es ih => cases e <;> simp [storeOps, ih]

theorem fetchedTags_append (xs ys : List Event) :
    fetchedTags (xs ++ ys) = fetchedTags xs ++ fetchedTags ys := by
  simp [fetchedTags]

theorem bind_ofExcept_ok {α β : Type} (a : α) (f : α → Act β) (s : Store) :
    Act.bind (Act.ofExcept (.ok a)) f s = f a s := by
  simp only [Act.bind, Act.ofExcept, Act.ret]
  rcases f a s with ⟨o, s2, t2⟩
  simp

theorem bind_ofExcept_error {α β : Type} (e : String) (f : α → Act β) (s : Store) :
    Act.bind (Act.ofExcept (.error e)) f s = ⟨.error e, s, []⟩ := by
  simp [Act.bind, Act.ofExcept, Act.throw]

/-- The module-level `getUserIdFromMention` throws whatever the mention. -/
theorem getUserIdFromMention_throws (mention : String) :
    getUserIdFromMention mention = .error (Js.undefinedRead "parseMentions") :=
  rfl

theorem mentionOrSelf_ok (message : Message) (mention : Option String)
    (h : Js.truthy mention = false) :
    mentionOrSelf message mention = .ok (some message.userId) := by
  simp [mentionOrSelf, h]

theorem mentionOrSelf_error (message : Message) (mention : Option String)
    (h : Js.truthy mention = true) :
    mentionOrSelf message mention = .error (Js.undefinedRead "parseMentions") := by
  simp [mentionOrSelf, h, getUserIdFromMention_throws]

theorem warUser_ok (message : Message) (mention clanTag : Option String)
    (h : (Js.truthy mention && !Js.truthy clanTag) = false) :
    warUser message mention clanTag = .ok (some message.userId) := by
  simp only [warUser, h, Bool.false_eq_true, if_false]

theorem warUser_error (message : Message) (mention clanTag : Option String)
    (h : (Js.truthy mention && !Js.truthy clanTag) = true) :
    warUser message mention clanTag = .error (Js.undefinedRead "parseMentions") := by
  simp only [warUser, h, if_true, getUserIdFromMention_throws]

end Basics

/-- C6. When the first argument is missing or does not start with `#`, `linkplayer`
and `linkclan` each send exactly one reply, the usage instruction, call no upstream
method, do not touch the profile store and return normally. -/
theorem link_validation (env : Env) (message : Message) (args : List String) (store : Store)
    (h : ∀ tag, args.head? = some tag → Js.startsWith tag "#" = false) :
    (linkplayer env message args store).trace =
        [.reply (.text "Please provide a valid player tag, e.g., `!linkplayer #ABC123`.")] ∧
      (linkplayer env message args store).store = store ∧
      (linkplayer env message args store).out = .ok () ∧
      (linkclan env message args store).trace =
        [.reply (.text "Please provide a valid clan tag, e.g., `!linkclan #ABC123`.")] ∧
      (linkclan env message args store).store = store ∧
      (linkclan env message args store).out = .ok () := by
  have hcond : (!Js.truthy args.head? || !Js.startsWith (args.head?.getD "") "#") = true := by
    cases hh : args.head? with
    | none => simp [Js.truthy]
    | some tag => simp [h tag hh]
  simp [linkplayer, linkclan, hcond, reply, Act.emit]

/-- Witness of C6: `!linkplayer ABC123` and `!linkclan ABC123`. -/
theorem link_validation_witness :
    (linkplayer Env.failing ⟨"!linkplayer ABC123", "c", none, none, []⟩ ["ABC123"]
        Store.empty).trace =
      [.reply (.text "Please provide a valid player tag, e.g., `!linkplayer #ABC123`.")] :=
  (link_validation Env.failing ⟨"!linkplayer ABC123", "c", none, none, []⟩ ["ABC123"]
    Store.empty (by decide)).1

section Links

theorem option_orElse_self {α : Type} (x : Option α) : (x <|> x) = x := by
  cases x <;> rfl

/-- Linking a player tag that is not yet linked appends it and saves the profile. -/
theorem linkPlayerTag_absent (env : Env) (chatID userId tag : String) (store : Store)
    (hr : env.findOneFault chatID (some userId) = none)
    (hw : env.updateOneFault chatID userId = none)
    (habs : ¬ tag ∈ ((store chatID userId).getD UserProfile.empty).playerTags.getD []) :
    linkPlayerTag env chatID userId tag store =
      ⟨.ok ("Linked your profile to player tag " ++ tag ++ "."),
        fun c u => if c = chatID ∧ u = userId then
          some { userId := some userId
                 playerTags := some
                   (((store chatID userId).getD UserProfile.empty).playerTags.getD [] ++ [tag])
                 clanTags := ((store chatID userId).getD UserProfile.empty).clanTags }
          else store c u,
        [.storeRead chatID (some userId), .storeWrite chatID userId]⟩ := by
  simp [linkPlayerTag, getUserProfile, findOne, saveUserProfile, updateOne, Act.bind, Act.ret,
    hr, hw, habs, option_orElse_self]

theorem linkPlayerTag_present (env : Env) (chatID userId tag : String) (store : Store)
    (hr : env.findOneFault chatID (some userId) = none)
    (hmem : tag ∈ ((store chatID userId).getD UserProfile.empty).playerTags.getD []) :
    linkPlayerTag env chatID userId tag store =
      ⟨.ok ("Player tag " ++ tag ++ " is already linked to your profile."), store,
        [.storeRead chatID (some userId)]⟩ := by
  simp [linkPlayerTag, getUserProfile, findOne, Act.bind, Act.ret, hr, hmem]

theorem linkClanTag_absent (env : Env) (chatID userId tag : String) (store : Store)
    (hr : env.findOneFault chatID (some userId) = none)
    (hw : env.updateOneFault chatID userId = none)
    (habs : ¬ tag ∈ ((store chatID userId).getD UserProfile.empty).clanTags.getD []) :
    linkClanTag env chatID userId tag store =
      ⟨.ok ("Linked your profile to clan tag " ++ tag ++ "."),
        fun c u => if c = chatID ∧ u = userId then
          some { userId := some userId
                 playerTags := ((store chatID userId).getD UserProfile.empty).playerTags
                 clanTags := some
                   (((store chatID userId).getD UserProfile.empty).clanTags.getD [] ++ [tag]) }
          else store c u,
        [.storeRead chatID (some userId), .storeWrite chatID userId]⟩ := by
  simp [linkClanTag, getUserProfile, findOne, saveUserProfile, updateOne, Act.bind, Act.ret,
    hr, hw, habs, option_orElse_self]

theorem linkClanTag_present (env : Env) (chatID userId tag : String) (store : Store)
    (hr : env.findOneFault chatID (some userId) = none)
    (hmem : tag ∈ ((store chatID userId).getD UserProfile.empty).clanTags.getD []) :
    linkClanTag env chatID userId tag store =
      ⟨.ok ("Clan tag " ++ tag ++ " is already linked to your profile."), store,
        [.storeRead chatID (some userId)]⟩ := by
  simp [linkClanTag, getUserProfile, findOne, Act.bind, Act.ret, hr, hmem]

theorem count_append_singleton_of_not_mem (tag : String) (tags : List String)
    (h : ¬ tag ∈ tags) : (tags ++ [tag]).count tag = 1 := by
  simp [List.count_append, List.count_eq_zero_of_not_mem h]

end Links

/-- C8. With a working store, linking a tag that is not yet linked and then linking it
again: the first call reports the link, the second returns the "already linked"
message, leaves the store as the first call left it and performs one read and no
write, and the stored tag list then holds the tag exactly once. This holds for
`linkPlayerTag` on `playerTags` and for `linkClanTag` on `clanTags`. -/
theorem link_idempotent (env : Env) (chatID userId tag : String) (store : Store)
    (hr : env.findOneFault chatID (some userId) = none)
    (hw : env.updateOneFault chatID userId = none) :
    (¬ tag ∈ ((store chatID userId).getD UserProfile.empty).playerTags.getD [] →
      (linkPlayerTag env chatID userId tag store).out =
          .ok ("Linked your profile to player tag " ++ tag ++ ".") ∧
        (linkPlayerTag env chatID userId tag
            (linkPlayerTag env chatID userId tag store).store).out =
          .ok ("Player tag " ++ tag ++ " is already linked to your profile.") ∧
        (linkPlayerTag env chatID userId tag
            (linkPlayerTag env chatID userId tag store).store).store =
          (linkPlayerTag env chatID userId tag store).store ∧
        (linkPlayerTag env chatID userId tag
            (linkPlayerTag env chatID userId tag store).store).trace =
          [.storeRead chatID (some userId)] ∧
        ∃ profile,
          (linkPlayerTag env chatID userId tag
              (linkPlayerTag env chatID userId tag store).store).store chatID userId =
            some profile ∧
          (profile.playerTags.getD []).count tag = 1) ∧
      (¬ tag ∈ ((store chatID userId).getD UserProfile.empty).clanTags.getD [] →
        (linkClanTag env chatID userId tag store).out =
            .ok ("Linked your profile to clan tag " ++ tag ++ ".") ∧
          (linkClanTag env chatID userId tag
              (linkClanTag env chatID userId tag store).store).out =
            .ok ("Clan tag " ++ tag ++ " is already linked to your profile.") ∧
          (linkClanTag env chatID userId tag
              (linkClanTag env chatID userId tag store).store).store =
            (linkClanTag env chatID userId tag store).store ∧
          (linkClanTag env chatID userId tag
              (linkClanTag env chatID userId tag store).store).trace =
            [.storeRead chatID (some userId)] ∧
          ∃ profile,
            (linkClanTag env chatID userId tag
                (linkClanTag env chatID userId tag store).store).store chatID userId =
              some profile ∧
            (profile.clanTags.getD []).count tag = 1) := by
  constructor
  · intro habs
    have h1 := linkPlayerTag_absent env chatID userId tag store hr hw habs
    have hmem : tag ∈ (((linkPlayerTag env chatID userId tag store).store chatID userId).getD
        UserProfile.empty).playerTags.getD [] := by
      rw [h1]; simp
    have h2 := linkPlayerTag_present env chatID userId tag _ hr hmem
    rw [h2]
    refine ⟨by rw [h1], rfl, rfl, rfl, ?_⟩
    rw [h1]
    refine ⟨⟨some userId,
      some (((store chatID userId).getD UserProfile.empty).playerTags.getD [] ++ [tag]),
      ((store chatID userId).getD UserProfile.empty).clanTags⟩, by simp, ?_⟩
    exact count_append_singleton_of_not_mem tag _ habs
  · intro habs
    have h1 := linkClanTag_absent env chatID userId tag store hr hw habs
    have hmem : tag ∈ (((linkClanTag env chatID userId tag store).store chatID userId).getD
        UserProfile.empty).clanTags.getD [] := by
      rw [h1]; simp
    have h2 := linkClanTag_present env chatID userId tag _ hr hmem
    rw [h2]
    refine ⟨by rw [h1], rfl, rfl, rfl, ?_⟩
    rw [h1]
    refine ⟨⟨some userId, ((store chatID userId).getD UserProfile.empty).playerTags,
      some (((store chatID userId).getD UserProfile.empty).clanTags.getD [] ++ [tag])⟩,
      by simp, ?_⟩
    exact count_append_singleton_of_not_mem tag _ habs

/-- Witness of C8: linking `#A` twice in an empty store. -/
theorem link_idempotent_witness :
    (linkPlayerTag Env.failing "chat" "alice" "#A"
        (linkPlayerTag Env.failing "chat" "alice" "#A" Store.empty).store).out =
      .ok ("Player tag " ++ "#A" ++ " is already linked to your profile.") :=
  ((link_idempotent Env.failing "chat" "alice" "#A" Store.empty rfl rfl).1
    (by simp [Store.empty, UserProfile.empty])).2.1

section FanOut

theorem getUserProfile_ok (env : Env) (chatID : String) (userId : Option String)
    (store : Store) (hread : env.findOneFault chatID userId = none) :
    getUserProfile env chatID userId store =
      ⟨.ok (profileOf store chatID userId), store, [.storeRead chatID userId]⟩ := by
  cases userId <;> simp [getUserProfile, findOne, Act.bind, Act.ret, hread, profileOf]

theorem forEach_steps (step : String → Act Unit) (tr : String → List Event)
    (h : ∀ tag s, step tag s = ⟨.ok (), s, tr tag⟩) :
    ∀ (tags : List String) (s : Store),
      Act.forEach step tags s = ⟨.ok (), s, tags.flatMap tr⟩ := by
  intro tags
  induction tags with
  | nil => intro s; rfl
  | cons tag rest ih =>
    intro s
    simp [Act.forEach, Act.bind, h, ih]

theorem answersOrThrows_reply (text : String) : AnswersOrThrows (reply text) :=
  Or.inl ⟨.text text, fun _ => rfl⟩

theorem answersOrThrows_replyMedia (data filename : String) :
    AnswersOrThrows (replyMedia data filename) :=
  Or.inl ⟨.media filename data, fun _ => rfl⟩

theorem answersOrThrows_ofExcept {X : Type} (v : Except String X) (k : X → Act Unit)
    (hk : ∀ x, AnswersOrThrows (k x)) :
    AnswersOrThrows (Act.bind (Act.ofExcept v) k) := by
  cases v with
  | error e => exact Or.inr ⟨e, fun s => by simp [Act.bind, Act.ofExcept, Act.throw]⟩
  | ok x =>
    rcases hk x with ⟨r, hr⟩ | ⟨e, he⟩
    · exact Or.inl ⟨r, fun s => by simp [Act.bind, Act.ofExcept, Act.ret, hr]⟩
    · exact Or.inr ⟨e, fun s => by simp [Act.bind, Act.ofExcept, Act.ret, he]⟩

/-- The per-tag step of a fan-out command: fetch the clan, fetch a second record with
method `m`, then answer or throw; the `catch` replies with `errText`. -/
theorem guarded_step {X : Type} (env : Env) (tag : String) (m : ApiMethod)
    (second : Except String X) (rest : Clan → X → Act Unit) (errText : String → String)
    (hrest : ∀ clan x, AnswersOrThrows (rest clan x)) :
    StepShape
      (Act.tryCatch
        (Act.bind (getClan env tag) (fun clan =>
          Act.bind (Act.bind (Act.emit (.api m tag)) (fun _ => Act.ofExcept second))
            (fun x => rest clan x)))
        (fun error => reply (errText error)))
      tag
      (match env.getClan tag with
        | .error e => Except.error e
        | .ok _ => second.map (fun _ => ()))
      errText := by
  unfold StepShape
  cases h1 : env.getClan tag with
  | error e =>
    refine ⟨[.api .getClan tag], .text (errText e), ?_, by simp, by simp, ?_, by simp⟩
    · intro s
      simp [getClan, Act.tryCatch, Act.bind, Act.emit, Act.ofExcept, Act.throw, h1, reply]
    · intro error h
      simp at h
      rw [h]
  | ok clan =>
    cases h2 : second with
    | error e =>
      refine ⟨[.api .getClan tag, .api m tag], .text (errText e), ?_, by simp, by simp, ?_, by simp⟩
      · intro s
        simp [getClan, Act.tryCatch, Act.bind, Act.emit, Act.ofExcept, Act.throw, Act.ret,
          h1, h2, reply]
      · intro error h
        simp [Except.map] at h
        rw [h]
    | ok x =>
      rcases hrest clan x with ⟨r, hr⟩ | ⟨e, he⟩
      · refine ⟨[.api .getClan tag, .api m tag], r, ?_, by simp, by simp, ?_, by simp⟩
        · intro s
          simp [getClan, Act.tryCatch, Act.bind, Act.emit, Act.ofExcept, Act.ret, h1, h2, hr]
        · intro error h
          simp [Except.map] at h
      · refine ⟨[.api .getClan tag, .api m tag], .text (errText e), ?_, by simp, by simp, ?_, by simp⟩
        · intro s
          simp [getClan, Act.tryCatch, Act.bind, Act.emit, Act.ofExcept, Act.ret, h1, h2, he,
            reply]
        · intro error h
          simp [Except.map] at h

theorem warAnswer_shape (env : Env) (clan : Clan) (war : Option ClanWar) :
    AnswersOrThrows (warAnswer env clan war) := by
  unfold warAnswer
  split
  · exact answersOrThrows_reply _
  · exact answersOrThrows_ofExcept _ _ (fun text => answersOrThrows_reply text)

theorem leftattackAnswer_shape (clan : Clan) (war : Option ClanWar) :
    AnswersOrThrows (leftattackAnswer clan war) := by
  unfold leftattackAnswer
  split
  · exact answersOrThrows_reply _
  · exact answersOrThrows_ofExcept _ _ (fun text => answersOrThrows_reply text)

theorem attackAnswer_shape (clan : Clan) (war : Option ClanWar) :
    AnswersOrThrows (attackAnswer clan war) := by
  unfold attackAnswer
  split
  · exact answersOrThrows_reply _
  · split
    · exact answersOrThrows_reply _
    · exact answersOrThrows_ofExcept _ _ (fun text => answersOrThrows_reply text)

theorem membersAnswer_shape (env : Env) (isTableFormat : Bool) (clan : Clan)
    (members : List ClanMember) : AnswersOrThrows (membersAnswer env isTableFormat clan members) := by
  unfold membersAnswer
  split
  · exact answersOrThrows_reply _
  · split
    · exact answersOrThrows_ofExcept _ _ (fun buffer => answersOrThrows_replyMedia buffer _)
    · exact answersOrThrows_reply _

theorem warlogAnswer_shape (env : Env) (clan : Clan) (warLog : List WarLogEntry) :
    AnswersOrThrows (warlogAnswer env clan warLog) := by
  unfold warlogAnswer
  split
  · exact answersOrThrows_reply _
  · exact answersOrThrows_ofExcept _ _ (fun wars =>
      answersOrThrows_ofExcept _ _ (fun buffer => answersOrThrows_replyMedia buffer _))

theorem war_step (env : Env) (args : List String) (tag : String) :
    StepShape (tagStep .war env args tag) tag (fetches .war env tag)
      (tagErrorText .war tag) :=
  guarded_step env tag .getCurrentWar (env.getCurrentWar tag) (warAnswer env)
    (tagErrorText .war tag) (warAnswer_shape env)

theorem leftattack_step (env : Env) (args : List String) (tag : String) :
    StepShape (tagStep .leftattack env args tag) tag (fetches .leftattack env tag)
      (tagErrorText .leftattack tag) :=
  guarded_step env tag .getCurrentWar (env.getCurrentWar tag) leftattackAnswer
    (tagErrorText .leftattack tag) leftattackAnswer_shape

theorem attack_step (env : Env) (args : List String) (tag : String) :
    StepShape (tagStep .attack env args tag) tag (fetches .attack env tag)
      (tagErrorText .attack tag) :=
  guarded_step env tag .getCurrentWar (env.getCurrentWar tag) attackAnswer
    (tagErrorText .attack tag) attackAnswer_shape

theorem members_step (env : Env) (args : List String) (tag : String) :
    StepShape (tagStep .members env args tag) tag (fetches .members env tag)
      (tagErrorText .members tag) :=
  guarded_step env tag .getClanMembers (env.getClanMembers tag)
    (membersAnswer env (args.head? == some "table" || args.contains "table"))
    (tagErrorText .members tag) (membersAnswer_shape env _)

theorem warlog_step (env : Env) (args : List String) (tag : String) :
    StepShape (tagStep .warlog env args tag) tag (fetches .warlog env tag)
      (tagErrorText .warlog tag) :=
  guarded_step env tag .getClanWarLog (env.getClanWarLog tag) (warlogAnswer env)
    (tagErrorText .warlog tag) (warlogAnswer_shape env)

/-- Every fan-out command's per-tag step has the step shape. -/
theorem tagStep_shape (c : Command) (hc : c ∈ fanOutCommands) (env : Env)
    (args : List String) (tag : String) :
    StepShape (tagStep c env args tag) tag (fetches c env tag) (tagErrorText c tag) := by
  simp only [fanOutCommands, List.mem_cons, List.mem_singleton, List.not_mem_nil,
    or_false] at hc
  rcases hc with rfl | rfl | rfl | rfl | rfl
  · exact war_step env args tag
  · exact leftattack_step env args tag
  · exact attack_step env args tag
  · exact members_step env args tag
  · exact warlog_step env args tag

end FanOut

section FanOutRun

theorem tagStep_run (c : Command) (hc : c ∈ fanOutCommands) (env : Env) (args : List String)
    (tag : String) (s : Store) :
    tagStep c env args tag s = ⟨.ok (), s, tagTrace c env args tag⟩ := by
  obtain ⟨calls, answer, h, -⟩ := tagStep_shape c hc env args tag
  simp [tagTrace, h]

theorem replies_of_calls (tag : String) (calls : List Event)
    (h : ∀ e ∈ calls, ∃ m, e = Event.api m tag) : replies calls = [] := by
  induction calls with
  | nil => rfl
  | cons e es ih =>
    obtain ⟨m, rfl⟩ := h e (by simp)
    simpa [replies] using ih (fun e he => h e (by simp [he]))

theorem fetchedTags_of_calls (tag : String) (calls : List Event)
    (h : ∀ e ∈ calls, ∃ m, e = Event.api m tag) :
    fetchedTags calls = List.replicate calls.length tag := by
  induction calls with
  | nil => rfl
  | cons e es ih =>
    obtain ⟨m, rfl⟩ := h e (by simp)
    have := ih (fun e he => h e (by simp [he]))
    simp [fetchedTags, apiCalls, List.replicate_succ] at this ⊢
    exact this

theorem replies_tagTrace_length (c : Command) (hc : c ∈ fanOutCommands) (env : Env)
    (args : List String) (tag : String) : (replies (tagTrace c env args tag)).length = 1 := by
  obtain ⟨calls, answer, h, -, hcalls, -⟩ := tagStep_shape c hc env args tag
  simp [tagTrace, h, replies_of_calls tag calls hcalls, replies]

theorem replies_flatMap_length (tr : String → List Event)
    (h : ∀ tag, (replies (tr tag)).length = 1) (tags : List String) :
    (replies (tags.flatMap tr)).length = tags.length := by
  induction tags with
  | nil => rfl
  | cons tag rest ih => simp [h, ih, Nat.add_comm]

/-- The common body of the fan-out commands after the tag and the user are known. -/
theorem fanOut_body (env : Env) (chatID : String) (userId : Option String)
    (clanTag : Option String) (instruction : String) (step : String → Act Unit)
    (handler : String → Act Unit) (tr : String → List Event) (store : Store)
    (hread : env.findOneFault chatID userId = none)
    (hstep : ∀ tag s, step tag s = ⟨.ok (), s, tr tag⟩)
    (hne : resolveClanTags clanTag (profileOf store chatID userId) ≠ []) :
    Act.tryCatch
        (Act.bind (getUserProfile env chatID userId) (fun userProfile =>
          if (resolveClanTags clanTag userProfile).length = 0 then reply instruction
          else Act.forEach step (resolveClanTags clanTag userProfile)))
        handler store =
      ⟨.ok (), store,
        .storeRead chatID userId ::
          (resolveClanTags clanTag (profileOf store chatID userId)).flatMap tr⟩ := by
  have hlen : (resolveClanTags clanTag (profileOf store chatID userId)).length ≠ 0 := by
    simpa using hne
  simp [Act.tryCatch, Act.bind, getUserProfile_ok env chatID userId store hread, hlen,
    forEach_steps step tr hstep]

/-- What a fan-out command does once its tag list is resolved and not empty. -/
theorem fanOut_run (c : Command) (hc : c ∈ fanOutCommands) (env : Env) (message : Message)
    (args : List String) (store : Store) (user : Option String)
    (huser : lookedUpUser c message args = .ok user)
    (hread : env.findOneFault message.sender user = none)
    (hne : resolveClanTags (explicitTag c args)
      (profileOf store message.sender user) ≠ []) :
    c.run env message args store =
      ⟨.ok (), store,
        .storeRead message.sender user ::
          (resolveClanTags (explicitTag c args)
            (profileOf store message.sender user)).flatMap
            (tagTrace c env args)⟩ := by
  have hc' := hc
  simp only [fanOutCommands, List.mem_cons, List.mem_singleton, List.not_mem_nil,
    or_false] at hc'
  rcases hc' with rfl | rfl | rfl | rfl | rfl
  · show Whatsapp.war env message args store = _
    have hu : warUser message args.head? (hashArg args) = .ok user := huser
    unfold Whatsapp.war
    simp only [hu, bind_ofExcept_ok]
    exact fanOut_body env message.sender _ _ _ (tagStep .war env args) _ _ store hread
      (tagStep_run .war hc env args) hne
  · show Whatsapp.leftattack env message args store = _
    have hu : warUser message args.head? (hashArg args) = .ok user := huser
    unfold Whatsapp.leftattack
    simp only [hu, bind_ofExcept_ok]
    exact fanOut_body env message.sender _ _ _ (tagStep .leftattack env args) _ _ store hread
      (tagStep_run .leftattack hc env args) hne
  · show Whatsapp.attack env message args store = _
    obtain rfl : attackUser message args (hashArg args) = user :=
      Except.ok.inj huser
    unfold Whatsapp.attack
    exact fanOut_body env message.sender _ _ _ (tagStep .attack env args) _ _ store hread
      (tagStep_run .attack hc env args) hne
  · show Whatsapp.members env message args store = _
    obtain rfl : membersUser message args (args.find? (fun arg => Js.startsWith arg "#"))
        (args.head? == some "table" || args.contains "table") = user :=
      Except.ok.inj huser
    unfold Whatsapp.members
    exact fanOut_body env message.sender _ _ _ (tagStep .members env args) _ _ store hread
      (tagStep_run .members hc env args) hne
  · show Whatsapp.warlog env message args store = _
    obtain rfl : attackUser message args (hashArg args) = user :=
      Except.ok.inj huser
    unfold Whatsapp.warlog
    exact fanOut_body env message.sender _ _ _ (tagStep .warlog env args) _ _ store hread
      (tagStep_run .warlog hc env args) hne

/-- A fan-out command whose statements before the `try` throw rejects with that error,
without any effect. -/
theorem fanOut_run_throws (c : Command) (hc : c ∈ fanOutCommands) (env : Env)
    (message : Message) (args : List String) (store : Store) (error : String)
    (huser : lookedUpUser c message args = .error error) :
    c.run env message args store = ⟨.error error, store, []⟩ := by
  simp only [fanOutCommands, List.mem_cons, List.mem_singleton, List.not_mem_nil,
    or_false] at hc
  rcases hc with rfl | rfl | rfl | rfl | rfl
  · show Whatsapp.war env message args store = _
    have hu : warUser message args.head? (hashArg args) = .error error := huser
    simp only [Whatsapp.war, hu, bind_ofExcept_error]
  · show Whatsapp.leftattack env message args store = _
    have hu : warUser message args.head? (hashArg args) = .error error := huser
    simp only [Whatsapp.leftattack, hu, bind_ofExcept_error]
  · exact absurd huser (by simp [lookedUpUser])
  · exact absurd huser (by simp [lookedUpUser])
  · exact absurd huser (by simp [lookedUpUser])

/-- The `war` and `leftattack` commands given a first argument that is not a tag call
`getUserIdFromMention` before their `try` and reject with its `TypeError`. -/
theorem war_mention_throws (env : Env) (message : Message) (args : List String)
    (store : Store) (mention : String) (hhead : args.head? = some mention)
    (hne : mention ≠ "") (hnot : Js.startsWith mention "#" = false) :
    war env message args store = ⟨.error (Js.undefinedRead "parseMentions"), store, []⟩ ∧
      leftattack env message args store =
        ⟨.error (Js.undefinedRead "parseMentions"), store, []⟩ := by
  have hu : warUser message args.head? (hashArg args) =
      .error (Js.undefinedRead "parseMentions") := by
    apply warUser_error
    simp [hhead, hashArg, Js.truthy, hne, hnot]
  exact ⟨fanOut_run_throws .war (by simp [fanOutCommands]) env message args store _ hu,
    fanOut_run_throws .leftattack (by simp [fanOutCommands]) env message args store _ hu⟩

end FanOutRun

/-- C1. For `war`, `leftattack`, `attack`, `members` and `warlog`, with no explicit tag
in the arguments, the statements before the `try` yielding the user `user` to look up
(for `war` and `leftattack` this means no first argument: with a first argument that
is not a tag they throw before any tag is resolved) and a working store in which the
profile of `user` holds the clan tags `tags`, not empty, and for every upstream
behaviour: the handler returns normally; its events are the profile read followed,
tag by tag in list order, by the events of the per-tag step run on its own; each
per-tag step consists of upstream calls for that tag followed by exactly one reply,
which is the error reply embedding the upstream message when a fetch for the tag
fails; so there is one reply per tag. -/
theorem fanout_isolation (c : Command) (hc : c ∈ fanOutCommands) (env : Env)
    (message : Message) (args : List String) (store : Store) (user : Option String)
    (tags : List String)
    (hno : explicitTag c args = none)
    (huser : lookedUpUser c message args = .ok user)
    (hread : env.findOneFault message.sender user = none)
    (htags : (profileOf store message.sender user).clanTags = some tags)
    (hne : tags ≠ []) :
    (c.run env message args store).out = .ok () ∧
      (c.run env message args store).trace =
        .storeRead message.sender user :: tags.flatMap (tagTrace c env args) ∧
      (∀ tag, ∃ calls answer,
        tagTrace c env args tag = calls ++ [.reply answer] ∧
        calls ≠ [] ∧ (∀ e ∈ calls, ∃ m, e = Event.api m tag) ∧
        ∀ error, fetches c env tag = .error error →
          answer = .text (tagErrorText c tag error)) ∧
      (replies (c.run env message args store).trace).length = tags.length := by
  have hres : resolveClanTags (explicitTag c args)
      (profileOf store message.sender user) = tags := by
    simp [resolveClanTags, hno, htags]
  have hrun := fanOut_run c hc env message args store user huser hread
    (by rw [hres]; exact hne)
  rw [hres] at hrun
  refine ⟨by rw [hrun], by rw [hrun], ?_, ?_⟩
  · intro tag
    obtain ⟨calls, answer, h, hne', hcalls, herr, -⟩ := tagStep_shape c hc env args tag
    exact ⟨calls, answer, by simp [tagTrace, h], hne', hcalls, herr⟩
  · rw [hrun]
    simpa [replies] using
      replies_flatMap_length (tagTrace c env args) (replies_tagTrace_length c hc env args) tags

/-- Witness of C1: `!war` by a user with clans `#A`, `#B`, `#C` while `#B` cannot be
fetched. -/
theorem fanout_isolation_witness :
    (war Env.failsOnB (Message.sample "!war") [] Store.sample).trace =
      .storeRead "chat" (some "alice") ::
        ["#A", "#B", "#C"].flatMap (tagTrace .war Env.failsOnB []) :=
  (fanout_isolation .war (by decide) Env.failsOnB (Message.sample "!war") [] Store.sample
    (some "alice") ["#A", "#B", "#C"] rfl rfl rfl rfl (by decide)).2.1

section SingleTag

/-- A guarded step that fetches one record, then answers or throws. -/
theorem guarded_one {Y : Type} (tag : String) (m : ApiMethod) (first : Except String Y)
    (rest : Y → Act Unit) (errText : String → String)
    (hrest : ∀ y, AnswersOrThrows (rest y)) :
    FetchShape
      (Act.tryCatch
        (Act.bind (Act.bind (Act.emit (.api m tag)) (fun _ => Act.ofExcept first)) rest)
        (fun error => reply (errText error)))
      tag m := by
  unfold FetchShape
  cases h1 : first with
  | error e =>
    exact ⟨[.api m tag], .text (errText e), fun s => by
      simp [Act.tryCatch, Act.bind, Act.emit, Act.ofExcept, Act.throw, reply],
      by simp, by simp, by simp⟩
  | ok y =>
    rcases hrest y with ⟨r, hr⟩ | ⟨e, he⟩
    · exact ⟨[.api m tag], r, fun s => by
        simp [Act.tryCatch, Act.bind, Act.emit, Act.ofExcept, Act.ret, hr],
        by simp, by simp, by simp⟩
    · exact ⟨[.api m tag], .text (errText e), fun s => by
        simp [Act.tryCatch, Act.bind, Act.emit, Act.ofExcept, Act.ret, he, reply],
        by simp, by simp, by simp⟩

theorem fetchShape_of_stepShape (step : Act Unit) (tag : String)
    (failure : Except String Unit) (errText : String → String)
    (h : StepShape step tag failure errText) : FetchShape step tag .getClan := by
  obtain ⟨calls, answer, h1, h2, h3, -, h5⟩ := h
  exact ⟨calls, answer, h1, h2, h3, h5⟩

/-- The method of the first upstream call of a single-tag command. -/
theorem fetchStep_shape (c : Command) (hc : c ∈ singleTagCommands) (env : Env)
    (tag : String) :
    FetchShape (Act.tryCatch (fetchStep c env tag) (fun error => reply (catchText c error)))
      tag (firstMethod c) := by
  simp only [singleTagCommands, List.mem_cons, List.mem_singleton, List.not_mem_nil,
    or_false] at hc
  rcases hc with rfl | rfl | rfl | rfl
  · exact guarded_one tag .getClan (env.getClan tag)
      (fun clan => Act.bind (Act.ofExcept (CLAN_INFO clan)) (fun info => reply info))
      (catchText .clan)
      (fun clan => answersOrThrows_ofExcept _ _ (fun info => answersOrThrows_reply info))
  · exact guarded_one tag .getPlayer (env.getPlayer tag)
      (fun player => reply (PLAYER_INFO player)) (catchText .player)
      (fun player => answersOrThrows_reply _)
  · exact guarded_one tag .getClan (env.getClan tag)
      (fun clan => reply (labelsMessage clan)) (catchText .labels)
      (fun clan => answersOrThrows_reply _)
  · exact fetchShape_of_stepShape _ tag _ _
      (guarded_step env tag .getClanMembers (env.getClanMembers tag)
        (fun clan members => reply (compoMessage clan members)) (catchText .compo)
        (fun clan members => answersOrThrows_reply _))

theorem tryCatch_bind_ok {α β : Type} (x : Act α) (f : α → Act β)
    (h : String → Act β) (s s1 : Store) (a : α) (t1 : List Event)
    (hx : x s = ⟨.ok a, s1, t1⟩) :
    Act.tryCatch (Act.bind x f) h s =
      ⟨(Act.tryCatch (f a) h s1).out, (Act.tryCatch (f a) h s1).store,
        t1 ++ (Act.tryCatch (f a) h s1).trace⟩ := by
  simp only [Act.tryCatch, Act.bind, hx]
  rcases hf : f a s1 with ⟨o, s2, t2⟩
  cases o with
  | ok b => simp
  | error e =>
    rcases hh : h e s2 with ⟨o3, s3, t3⟩
    simp [hh]

theorem startsWith_hash_ne_empty (tag : String) (h : Js.startsWith tag "#" = true) :
    tag ≠ "" := by
  intro he
  subst he
  simp [Js.startsWith] at h

theorem storeOps_of_calls (tag : String) (calls : List Event)
    (h : ∀ e ∈ calls, ∃ m, e = Event.api m tag) : storeOps calls = [] := by
  induction calls with
  | nil => rfl
  | cons e es ih =>
    obtain ⟨m, rfl⟩ := h e (by simp)
    simpa [storeOps] using ih (fun e he => h e (by simp [he]))

/-- A single-tag command given a non-empty first argument and no second one runs its
guarded fetch on the first argument. -/
theorem single_explicit (c : Command) (hc : c ∈ singleTagCommands) (env : Env)
    (message : Message) (args : List String) (store : Store) (a : String)
    (hhead : args.head? = some a) (ha : a ≠ "") (hmention : Js.truthy args[1]? = false) :
    c.run env message args store =
      Act.tryCatch (fetchStep c env a) (fun error => reply (catchText c error)) store := by
  simp only [singleTagCommands, List.mem_cons, List.mem_singleton, List.not_mem_nil,
    or_false] at hc
  rcases hc with rfl | rfl | rfl | rfl
  · show Whatsapp.clan env message args store = _
    simp only [Whatsapp.clan, mentionOrSelf_ok message _ hmention, bind_ofExcept_ok]
    simp [hhead, Js.truthy, ha, fetchStep, catchText]
  · show Whatsapp.player env message args store = _
    simp only [Whatsapp.player, mentionOrSelf_ok message _ hmention, bind_ofExcept_ok]
    simp [hhead, Js.truthy, ha, fetchStep, catchText]
  · show Whatsapp.labels env message args store = _
    simp only [Whatsapp.labels, mentionOrSelf_ok message _ hmention, bind_ofExcept_ok]
    simp [hhead, Js.truthy, ha, fetchStep, catchText]
  · show Whatsapp.compo env message args store = _
    simp only [Whatsapp.compo, mentionOrSelf_ok message _ hmention, bind_ofExcept_ok]
    simp [hhead, Js.truthy, ha, fetchStep, catchText]

/-- A single-tag command given a second argument throws before its `try`: the call of
`getUserIdFromMention` fails, nothing is fetched or replied and the store is not
touched. -/
theorem single_mention_throws (c : Command) (hc : c ∈ singleTagCommands) (env : Env)
    (message : Message) (args : List String) (store : Store)
    (hmention : Js.truthy args[1]? = true) :
    c.run env message args store =
      ⟨.error (Js.undefinedRead "parseMentions"), store, []⟩ := by
  simp only [singleTagCommands, List.mem_cons, List.mem_singleton, List.not_mem_nil,
    or_false] at hc
  rcases hc with rfl | rfl | rfl | rfl
  · show Whatsapp.clan env message args store = _
    simp only [Whatsapp.clan, mentionOrSelf_error message _ hmention, bind_ofExcept_error]
  · show Whatsapp.player env message args store = _
    simp only [Whatsapp.player, mentionOrSelf_error message _ hmention, bind_ofExcept_error]
  · show Whatsapp.labels env message args store = _
    simp only [Whatsapp.labels, mentionOrSelf_error message _ hmention, bind_ofExcept_error]
  · show Whatsapp.compo env message args store = _
    simp only [Whatsapp.compo, mentionOrSelf_error message _ hmention, bind_ofExcept_error]

/-- A single-tag command without arguments reads the invoker's profile and then
either runs its guarded fetch on the first linked tag or replies with the
instruction. -/
theorem single_profile (c : Command) (hc : c ∈ singleTagCommands) (env : Env)
    (message : Message) (store : Store)
    (hread : env.findOneFault message.sender (some message.userId) = none) :
    c.run env message [] store =
      match firstTag (kindTags c (profileOf store message.sender (some message.userId))) with
      | some tag =>
        ⟨(Act.tryCatch (fetchStep c env tag) (fun error => reply (catchText c error))
            store).out,
          (Act.tryCatch (fetchStep c env tag) (fun error => reply (catchText c error))
            store).store,
          [.storeRead message.sender (some message.userId)] ++
            (Act.tryCatch (fetchStep c env tag) (fun error => reply (catchText c error))
              store).trace⟩
      | none =>
        ⟨.ok (), store,
          [.storeRead message.sender (some message.userId), .reply (.text (instruction c))]⟩ := by
  have hp := getUserProfile_ok env message.sender (some message.userId) store hread
  simp only [singleTagCommands, List.mem_cons, List.mem_singleton, List.not_mem_nil,
    or_false] at hc
  rcases hc with rfl | rfl | rfl | rfl
  · show Whatsapp.clan env message [] store = _
    simp only [Whatsapp.clan, List.getElem?_nil, mentionOrSelf_ok message none rfl,
      bind_ofExcept_ok, Js.truthy, List.head?_nil, Bool.not_false, if_true,
      Bool.false_eq_true, if_false, bind_eq]
    rw [tryCatch_bind_ok _ _ _ store store _ _ hp]
    cases h : firstTag (kindTags .clan (profileOf store message.sender (some message.userId)))
      <;> simp [kindTags] at h <;> simp [h, kindTags, fetchStep, catchText, instruction,
        Act.tryCatch, reply, Act.emit]
  · show Whatsapp.player env message [] store = _
    simp only [Whatsapp.player, List.getElem?_nil, mentionOrSelf_ok message none rfl,
      bind_ofExcept_ok, Js.truthy, List.head?_nil, Bool.not_false, if_true,
      Bool.false_eq_true, if_false, bind_eq]
    rw [tryCatch_bind_ok _ _ _ store store _ _ hp]
    cases h : firstTag (kindTags .player (profileOf store message.sender (some message.userId)))
      <;> simp [kindTags] at h <;> simp [h, kindTags, fetchStep, catchText, instruction,
        Act.tryCatch, reply, Act.emit]
  · show Whatsapp.labels env message [] store = _
    simp only [Whatsapp.labels, List.getElem?_nil, mentionOrSelf_ok message none rfl,
      bind_ofExcept_ok, Js.truthy, List.head?_nil, Bool.not_false, if_true,
      Bool.false_eq_true, if_false, bind_eq]
    rw [tryCatch_bind_ok _ _ _ store store _ _ hp]
    cases h : firstTag (kindTags .labels (profileOf store message.sender (some message.userId)))
      <;> simp [kindTags] at h <;> simp [h, kindTags, fetchStep, catchText, instruction,
        Act.tryCatch, reply, Act.emit]
  · show Whatsapp.compo env message [] store = _
    simp only [Whatsapp.compo, List.getElem?_nil, mentionOrSelf_ok message none rfl,
      bind_ofExcept_ok, Js.truthy, List.head?_nil, Bool.not_false, if_true,
      Bool.false_eq_true, if_false, bind_eq]
    rw [tryCatch_bind_ok _ _ _ store store _ _ hp]
    cases h : firstTag (kindTags .compo (profileOf store message.sender (some message.userId)))
      <;> simp [kindTags] at h <;> simp [h, kindTags, fetchStep, catchText, instruction,
        Act.tryCatch, reply, Act.emit]

end SingleTag

/-- C2 (the code departs from it). `capital` loops over its tags inside one `try`:
with a working store, three tag arguments `a`, `b`, `c`, the clan `a` fetched and the
fetch of `b` failing with `error`, the handler replies for `a`, reports the failure of
`b` and stops; `c` is never fetched and gets no reply. -/
theorem capital_aborts_after_failure (env : Env) (message : Message) (store : Store)
    (a b c : String) (clanA : Clan) (error : String)
    (hread : env.findOneFault message.sender (some message.userId) = none)
    (ha : env.getClan a = .ok clanA) (hb : env.getClan b = .error error) :
    capital env message [a, b, c] store =
      ⟨.ok (), store,
        [.storeRead message.sender (some message.userId),
          .api .getClan a, .reply (.text (capitalMessage clanA)),
          .api .getClan b,
          .reply (.text ("Error fetching clan capital information: " ++ error ++ " \u00e2\u0152"))]⟩ := by
  have hp := getUserProfile_ok env message.sender (some message.userId) store hread
  simp only [capital, bind_eq]
  rw [tryCatch_bind_ok _ _ _ store store _ _ hp]
  simp [Act.tryCatch, Act.forEach, Act.bind, getClan, Act.emit, Act.ofExcept, Act.ret,
    Act.throw, reply, ha, hb]

/-- Failing input of C2: `!capital #A #B #C` while `#B` cannot be fetched. -/
theorem capital_aborts_after_failure_witness :
    fetchedTags (capital Env.failsOnB (Message.sample "!capital #A #B #C") ["#A", "#B", "#C"]
      Store.sample).trace = ["#A", "#B"] := by
  rw [capital_aborts_after_failure Env.failsOnB (Message.sample "!capital #A #B #C")
    Store.sample "#A" "#B" "#C" (Clan.sample "#A") "notFound" rfl rfl rfl]
  rfl

section Resolution

theorem fetchedTags_shape (tag : String) (calls : List Event) (answer : Reply)
    (hne : calls ≠ []) (hcalls : ∀ e ∈ calls, ∃ m, e = Event.api m tag) :
    ∃ n, 0 < n ∧ fetchedTags (calls ++ [.reply answer]) = List.replicate n tag := by
  refine ⟨calls.length, List.length_pos.mpr hne, ?_⟩
  rw [fetchedTags_append, fetchedTags_of_calls tag calls hcalls]
  simp [fetchedTags, apiCalls]

theorem explicitTag_of_head (c : Command) (args : List String) (tag : String)
    (hhead : args.head? = some tag) (hhash : Js.startsWith tag "#" = true) :
    explicitTag c args = some tag := by
  have hne := startsWith_hash_ne_empty tag hhash
  cases args with
  | nil => simp at hhead
  | cons a rest =>
    simp only [List.head?_cons, Option.some.injEq] at hhead
    subst hhead
    cases c <;> simp [explicitTag, hashArg, Js.truthy, hne, hhash]

theorem lookedUpUser_of_head (c : Command) (hc : c ∈ fanOutCommands)
    (message : Message) (args : List String) (tag : String)
    (hhead : args.head? = some tag) (hhash : Js.startsWith tag "#" = true) :
    lookedUpUser c message args = .ok (some message.userId) := by
  have hne := startsWith_hash_ne_empty tag hhash
  cases args with
  | nil => simp at hhead
  | cons a rest =>
    simp only [List.head?_cons, Option.some.injEq] at hhead
    subst hhead
    simp only [fanOutCommands, List.mem_cons, List.mem_singleton, List.not_mem_nil,
      or_false] at hc
    rcases hc with rfl | rfl | rfl | rfl | rfl <;>
      simp [lookedUpUser, warUser, attackUser, membersUser, hashArg, Js.truthy, hne, hhash]

theorem lookedUpUser_nil (c : Command) (message : Message) :
    lookedUpUser c message [] = .ok (some message.userId) := by
  cases c <;> simp [lookedUpUser, warUser, attackUser, membersUser, hashArg, Js.truthy]

theorem explicitTag_nil (c : Command) : explicitTag c [] = none := by
  cases c <;> simp [explicitTag, hashArg, Js.truthy]

theorem firstTag_eq_none (tags : Option (List String)) (h : tags.getD [] = []) :
    firstTag tags = none := by
  cases tags with
  | none => rfl
  | some l =>
    cases l with
    | nil => rfl
    | cons t ts => simp at h

/-- The common body of the fan-out commands when no tag is resolved. -/
theorem fanOut_body_empty (env : Env) (chatID : String) (userId : Option String)
    (clanTag : Option String) (instruction : String) (step : String → Act Unit)
    (handler : String → Act Unit) (store : Store)
    (hread : env.findOneFault chatID userId = none)
    (hempty : resolveClanTags clanTag (profileOf store chatID userId) = []) :
    Act.tryCatch
        (Act.bind (getUserProfile env chatID userId) (fun userProfile =>
          if (resolveClanTags clanTag userProfile).length = 0 then reply instruction
          else Act.forEach step (resolveClanTags clanTag userProfile)))
        handler store =
      ⟨.ok (), store, [.storeRead chatID userId, .reply (.text instruction)]⟩ := by
  simp [Act.tryCatch, Act.bind, getUserProfile_ok env chatID userId store hread, hempty,
    reply, Act.emit]

/-- What a fan-out command does when it resolves no tag. -/
theorem fanOut_run_empty (c : Command) (hc : c ∈ fanOutCommands) (env : Env)
    (message : Message) (args : List String) (store : Store) (user : Option String)
    (huser : lookedUpUser c message args = .ok user)
    (hread : env.findOneFault message.sender user = none)
    (hempty : resolveClanTags (explicitTag c args)
      (profileOf store message.sender user) = []) :
    c.run env message args store =
      ⟨.ok (), store,
        [.storeRead message.sender user,
          .reply (.text (instruction c))]⟩ := by
  simp only [fanOutCommands, List.mem_cons, List.mem_singleton, List.not_mem_nil,
    or_false] at hc
  rcases hc with rfl | rfl | rfl | rfl | rfl
  · show Whatsapp.war env message args store = _
    have hu : warUser message args.head? (hashArg args) = .ok user := huser
    unfold Whatsapp.war
    simp only [hu, bind_ofExcept_ok]
    exact fanOut_body_empty env message.sender _ _ _ (tagStep .war env args) _ store hread
      hempty
  · show Whatsapp.leftattack env message args store = _
    have hu : warUser message args.head? (hashArg args) = .ok user := huser
    unfold Whatsapp.leftattack
    simp only [hu, bind_ofExcept_ok]
    exact fanOut_body_empty env message.sender _ _ _ (tagStep .leftattack env args) _ store
      hread hempty
  · show Whatsapp.attack env message args store = _
    obtain rfl : attackUser message args (hashArg args) = user :=
      Except.ok.inj huser
    unfold Whatsapp.attack
    exact fanOut_body_empty env message.sender _ _ _ (tagStep .attack env args) _ store hread
      hempty
  · show Whatsapp.members env message args store = _
    obtain rfl : membersUser message args (args.find? (fun arg => Js.startsWith arg "#"))
        (args.head? == some "table" || args.contains "table") = user :=
      Except.ok.inj huser
    unfold Whatsapp.members
    exact fanOut_body_empty env message.sender _ _ _ (tagStep .members env args) _ store
      hread hempty
  · show Whatsapp.warlog env message args store = _
    obtain rfl : attackUser message args (hashArg args) = user :=
      Except.ok.inj huser
    unfold Whatsapp.warlog
    exact fanOut_body_empty env message.sender _ _ _ (tagStep .warlog env args) _ store hread
      hempty

end Resolution

/-- C3 (the code departs from it). With a working store of any content and a first
argument that starts with `#`: `war`, `leftattack`, `attack`, `warlog` and `members` in
every case, and `clan`, `player`, `labels` and `compo` when no second argument is
given, call the upstream API at least once and make every call with that argument,
so no linked tag of any profile is fetched. But `clan`, `player`, `labels` and `compo`
given a second argument call `getUserIdFromMention` before their `try`, which throws:
the handler rejects, nothing is fetched, the explicit tag included, and nothing is
replied. -/
theorem explicit_tag_fetch_or_throw (c : Command) (hc : c ∈ explicitTagCommands) (env : Env)
    (message : Message) (args : List String) (store : Store) (tag : String)
    (hhead : args.head? = some tag) (hhash : Js.startsWith tag "#" = true)
    (hread : ∀ chat user, env.findOneFault chat user = none) :
    (c ∈ singleTagCommands ∧ Js.truthy args[1]? = true →
      c.run env message args store =
          ⟨.error (Js.undefinedRead "parseMentions"), store, []⟩ ∧
        fetchedTags (c.run env message args store).trace = []) ∧
      (¬ (c ∈ singleTagCommands ∧ Js.truthy args[1]? = true) →
        ∃ n, 0 < n ∧
          fetchedTags (c.run env message args store).trace = List.replicate n tag) := by
  have hne := startsWith_hash_ne_empty tag hhash
  have hsplit : c ∈ singleTagCommands ∨ c ∈ fanOutCommands := by
    simp only [explicitTagCommands, List.mem_cons, List.mem_singleton, List.not_mem_nil,
      or_false] at hc
    rcases hc with rfl | rfl | rfl | rfl | rfl | rfl | rfl | rfl | rfl <;>
      simp [singleTagCommands, fanOutCommands]
  constructor
  · rintro ⟨hs, hmention⟩
    rw [single_mention_throws c hs env message args store hmention]
    exact ⟨rfl, rfl⟩
  · intro hnot
    rcases hsplit with hs | hf
    · have hmention : Js.truthy args[1]? = false := by
        cases h : Js.truthy args[1]? with
        | false => rfl
        | true => exact absurd ⟨hs, h⟩ hnot
      rw [single_explicit c hs env message args store tag hhead hne hmention]
      obtain ⟨calls, answer, h, hcne, hcalls, -⟩ := fetchStep_shape c hs env tag
      rw [h]
      exact fetchedTags_shape tag calls answer hcne hcalls
    · have hres : resolveClanTags (explicitTag c args)
          (profileOf store message.sender (some message.userId)) = [tag] := by
        simp [explicitTag_of_head c args tag hhead hhash, resolveClanTags, hne]
      rw [fanOut_run c hf env message args store (some message.userId)
        (lookedUpUser_of_head c hf message args tag hhead hhash) (hread _ _)
        (by rw [hres]; simp), hres]
      obtain ⟨calls, answer, h, hcne, hcalls, -⟩ := tagStep_shape c hf env args tag
      obtain ⟨n, hn, hfetched⟩ := fetchedTags_shape tag calls answer hcne hcalls
      refine ⟨n, hn, ?_⟩
      simpa [fetchedTags, apiCalls, tagTrace, h] using hfetched

/-- Witness of C3: `!clan #A @bob` rejects without a fetch, and the listener answers
with its generic failure reply; `!war #X` by a user whose profile links `#A`, `#B`,
`#C` fetches `#X` only. -/
theorem explicit_tag_fetch_or_throw_witness :
    (clan Env.failsOnB (Message.sample "!clan #A @bob") ["#A", "@bob"] Store.sample =
          ⟨.error (Js.undefinedRead "parseMentions"), Store.sample, []⟩ ∧
        fetchedTags
          (clan Env.failsOnB (Message.sample "!clan #A @bob") ["#A", "@bob"]
            Store.sample).trace = []) ∧
      onMessage Env.failsOnB ⟨"chat", true, none⟩ (Message.sample "!clan #A @bob")
          Store.sample =
        ⟨.ok (), Store.sample,
          [.call "clan" ["#A", "@bob"],
            .reply (.text "An error occurred while executing the command.")]⟩ ∧
      ∃ n, 0 < n ∧
        fetchedTags (war Env.failsOnB (Message.sample "!war #X") ["#X"] Store.sample).trace =
          List.replicate n "#X" :=
  ⟨(explicit_tag_fetch_or_throw .clan (by decide) Env.failsOnB
      (Message.sample "!clan #A @bob") ["#A", "@bob"] Store.sample "#A" rfl (by decide)
      (fun _ _ => rfl)).1 ⟨by decide, by decide⟩,
    rfl,
    (explicit_tag_fetch_or_throw .war (by decide) Env.failsOnB (Message.sample "!war #X")
      ["#X"] Store.sample "#X" rfl (by decide) (fun _ _ => rfl)).2 (by decide)⟩

/-- C4. For `clan`, `player`, `labels`, `compo`, `capital`, `war`, `leftattack`,
`attack`, `warlog` and `members` invoked without arguments, with a working store in
which the invoker has no document or no tag of the kind the command works on: the
handler reads the profile, sends exactly one reply, its instruction, calls no upstream
method, leaves the store as it is and returns normally. -/
theorem empty_resolution_terminal (c : Command) (hc : c ∈ tagCommands) (env : Env)
    (message : Message) (store : Store)
    (hread : env.findOneFault message.sender (some message.userId) = none)
    (hempty : (kindTags c (profileOf store message.sender (some message.userId))).getD [] =
      []) :
    c.run env message [] store =
      ⟨.ok (), store,
        [.storeRead message.sender (some message.userId),
          .reply (.text (instruction c))]⟩ := by
  have hsplit : c ∈ singleTagCommands ∨ c = .capital ∨ c ∈ fanOutCommands := by
    simp only [tagCommands, List.mem_cons, List.mem_singleton, List.not_mem_nil,
      or_false] at hc
    rcases hc with rfl | rfl | rfl | rfl | rfl | rfl | rfl | rfl | rfl | rfl <;>
      simp [singleTagCommands, fanOutCommands]
  rcases hsplit with hs | rfl | hf
  · rw [single_profile c hs env message store hread, firstTag_eq_none _ hempty]
  · have hp := getUserProfile_ok env message.sender (some message.userId) store hread
    have hempty' : (profileOf store message.sender (some message.userId)).clanTags.getD [] =
        [] := hempty
    show capital env message [] store = _
    simp only [capital, bind_eq]
    rw [tryCatch_bind_ok _ _ _ store store _ _ hp]
    simp [hempty', Act.tryCatch, reply, Act.emit, instruction]
  · have hk : kindTags c (profileOf store message.sender (some message.userId)) =
        (profileOf store message.sender (some message.userId)).clanTags := by
      simp only [fanOutCommands, List.mem_cons, List.mem_singleton, List.not_mem_nil,
        or_false] at hf
      rcases hf with rfl | rfl | rfl | rfl | rfl <;> rfl
    rw [hk] at hempty
    exact fanOut_run_empty c hf env message [] store (some message.userId)
      (lookedUpUser_nil c message) hread
      (by rw [explicitTag_nil]; simpa [resolveClanTags] using hempty)

/-- Witness of C4: `!clan` by a user without any stored document. -/
theorem empty_resolution_terminal_witness :
    clan Env.failsOnB (Message.sample "!clan") [] Store.empty =
      ⟨.ok (), Store.empty,
        [.storeRead "chat" (some "alice"), .reply (.text (instruction .clan))]⟩ :=
  empty_resolution_terminal .clan (by decide) Env.failsOnB (Message.sample "!clan")
    Store.empty rfl rfl

/-- C5 (the code departs from it). `clan`, `player`, `labels` and `compo` do not
validate their first argument: whenever it is a non-empty string, with or without the
tag marker, and no second argument is given, the handler passes it to the upstream
API; its first event is the call of `getClan` (`getPlayer` for `player`) with that
argument, every upstream call is made with that argument, and it neither reads nor
writes the profile store. -/
theorem first_argument_is_fetched (c : Command) (hc : c ∈ singleTagCommands) (env : Env)
    (message : Message) (args : List String) (store : Store) (a : String)
    (hhead : args.head? = some a) (ha : a ≠ "") (hmention : Js.truthy args[1]? = false) :
    (c.run env message args store).trace.head? = some (.api (firstMethod c) a) ∧
      (∃ n, 0 < n ∧ fetchedTags (c.run env message args store).trace = List.replicate n a) ∧
      storeOps (c.run env message args store).trace = [] := by
  rw [single_explicit c hc env message args store a hhead ha hmention]
  obtain ⟨calls, answer, h, hcne, hcalls, hfirst⟩ := fetchStep_shape c hc env a
  rw [h]
  refine ⟨?_, fetchedTags_shape a calls answer hcne hcalls, ?_⟩
  · cases calls with
    | nil => exact absurd rfl hcne
    | cons e es => simpa using hfirst
  · simp [storeOps_of_calls a calls hcalls, storeOps]

/-- Witness of C5: `!clan ABC`. The argument lacks the tag marker, yet the first thing
`clan` does is to call `getClan` with it; the only reply is the answer to that call,
here the error reply, and no instruction is sent. -/
theorem first_argument_is_fetched_witness :
    (clan Env.failing (Message.sample "!clan ABC") ["ABC"] Store.empty).trace.head? =
        some (.api .getClan "ABC") ∧
      apiCalls (clan Env.failing (Message.sample "!clan ABC") ["ABC"] Store.empty).trace =
        [(.getClan, "ABC")] ∧
      replies (clan Env.failing (Message.sample "!clan ABC") ["ABC"] Store.empty).trace =
        [.text "Error fetching clan information: notFound \u00e2\u0152"] :=
  ⟨(first_argument_is_fetched .clan (by decide) Env.failing (Message.sample "!clan ABC")
      ["ABC"] Store.empty "ABC" rfl (by decide) (by decide)).1,
    rfl, rfl⟩

/-- Counterexample to C7: `!clan` by a user who linked the clans `#A`, `#B`, `#C`.
Only `#A` is fetched and only one reply is sent. -/
theorem only_first_linked_tag_is_fetched :
    fetchedTags (clan Env.failsOnB (Message.sample "!clan") [] Store.sample).trace = ["#A"] ∧
      (replies (clan Env.failsOnB (Message.sample "!clan") [] Store.sample).trace).length =
        1 := by
  constructor <;> rfl

/-- C7, amended. For `clan`, `player`, `labels` and `compo` invoked without arguments,
with a working store in which the invoker's tag list of the command's kind is
`tag :: others`: the fetch-and-format step runs once, for the first linked tag only.
The handler reads the profile, then every upstream call is made with `tag`, and
exactly one reply is sent. -/
theorem self_profile_uses_first_tag (c : Command) (hc : c ∈ singleTagCommands) (env : Env)
    (message : Message) (store : Store) (tag : String) (others : List String)
    (hread : env.findOneFault message.sender (some message.userId) = none)
    (htags : kindTags c (profileOf store message.sender (some message.userId)) =
      some (tag :: others)) :
    (c.run env message [] store).out = .ok () ∧
      (∃ n, 0 < n ∧ fetchedTags (c.run env message [] store).trace = List.replicate n tag) ∧
      (replies (c.run env message [] store).trace).length = 1 := by
  rw [single_profile c hc env message store hread, htags]
  obtain ⟨calls, answer, h, hcne, hcalls, -⟩ := fetchStep_shape c hc env tag
  simp only [firstTag, h]
  refine ⟨trivial, ?_, ?_⟩
  · obtain ⟨n, hn, hfetched⟩ := fetchedTags_shape tag calls answer hcne hcalls
    exact ⟨n, hn, by simpa [fetchedTags, apiCalls] using hfetched⟩
  · simp [replies, replies_of_calls tag calls hcalls]

/-- Witness of C7 as amended: `!player` by a user who linked `#P` and `#Q`. -/
theorem self_profile_uses_first_tag_witness :
    ∃ n, 0 < n ∧
      fetchedTags (player Env.failsOnB (Message.sample "!player") [] Store.sample).trace =
        List.replicate n "#P" :=
  (self_profile_uses_first_tag .player (by decide) Env.failsOnB (Message.sample "!player")
    Store.sample "#P" ["#Q"] rfl rfl).2.1

section Dispatch

theorem onMessage_command (env : Env) (chat : Chat) (message : Message) (store : Store)
    (hadmin : chat.id ≠ adminChatId)
    (hinfo : (Js.toLowerCase message.body == "!info") = false)
    (hhelp : (Js.toLowerCase message.body == "!help") = false)
    (hbang : Js.startsWith message.body "!" = true) :
    onMessage env chat message store =
      match lookup (Js.substring1 (Js.str (Js.split message.body (Char.ofNat 32)).head?)) with
      | some property =>
        Act.tryCatch
          (callProperty env
            (Js.substring1 (Js.str (Js.split message.body (Char.ofNat 32)).head?)) message
            ((Js.split message.body (Char.ofNat 32)).drop 1) property)
          (fun _ => reply "An error occurred while executing the command.") store
      | none => ⟨.ok (), store, []⟩ := by
  have hadmin' : (chat.id == adminChatId) = false := by simpa using hadmin
  simp only [onMessage, hinfo, hadmin', hhelp, hbang, Bool.false_eq_true, if_false, if_true]
  generalize lookup (Js.substring1 (Js.str (Js.split message.body (Char.ofNat 32)).head?)) = l
  cases l <;> rfl

theorem tryCatch_emit_head (e : Event) (k : Unit → Act Unit) (h : String → Act Unit)
    (s : Store) : (Act.tryCatch (Act.bind (Act.emit e) k) h s).trace.head? = some e := by
  simp only [Act.tryCatch, Act.bind, Act.emit]
  rcases hk : k () s with ⟨o, s2, t2⟩
  cases o with
  | ok u => simp
  | error err =>
    rcases hh : h err s2 with ⟨o3, s3, t3⟩
    simp [hh]

end Dispatch

/-- C9 (the code departs from it). In a chat other than the admin chat the listener
looks the command word up as written: `!CLAN #2PP` reaches no handler and has no
effect at all, while `!clan #2PP` calls the `clan` handler with `#2PP`. -/
theorem dispatch_is_case_sensitive (env : Env) (chat : Chat) (store : Store)
    (sender : String) (author notifyName : Option String) (mentions : List String)
    (hadmin : chat.id ≠ adminChatId) :
    onMessage env chat ⟨"!CLAN #2PP", sender, author, notifyName, mentions⟩ store =
        ⟨.ok (), store, []⟩ ∧
      (onMessage env chat ⟨"!clan #2PP", sender, author, notifyName, mentions⟩ store).trace.head? =
        some (.call "clan" ["#2PP"]) := by
  constructor
  · rw [onMessage_command env chat _ store hadmin
      (show (Js.toLowerCase "!CLAN #2PP" == "!info") = false by decide)
      (show (Js.toLowerCase "!CLAN #2PP" == "!help") = false by decide)
      (show Js.startsWith "!CLAN #2PP" "!" = true by decide)]
    have hl : lookup (Js.substring1 (Js.str (Js.split "!CLAN #2PP" (Char.ofNat 32)).head?)) =
        none := by decide
    simp only [hl]
  · rw [onMessage_command env chat _ store hadmin
      (show (Js.toLowerCase "!clan #2PP" == "!info") = false by decide)
      (show (Js.toLowerCase "!clan #2PP" == "!help") = false by decide)
      (show Js.startsWith "!clan #2PP" "!" = true by decide)]
    have hl : lookup (Js.substring1 (Js.str (Js.split "!clan #2PP" (Char.ofNat 32)).head?)) =
        some (.own .clan) := by decide
    have ha : (Js.split "!clan #2PP" (Char.ofNat 32)).drop 1 = ["#2PP"] := by decide
    simp only [hl, ha, callProperty]
    exact tryCatch_emit_head _ _ _ _

/-- Failing input of C9: `!CLAN #2PP` in an ordinary group chat. -/
theorem dispatch_is_case_sensitive_witness :
    onMessage Env.failsOnB ⟨"chat", true, none⟩ ⟨"!CLAN #2PP", "chat", some "alice", none, []⟩
        Store.sample =
      ⟨.ok (), Store.sample, []⟩ :=
  (dispatch_is_case_sensitive Env.failsOnB ⟨"chat", true, none⟩ Store.sample "chat"
    (some "alice") none [] (by decide)).1

/-- C10 (the code departs from it). In a chat other than the admin chat the message
`!__proto__` names no command of `commands.js`, yet the lookup finds the prototype
object, the call of it throws, and the listener sends the generic failure reply. -/
theorem proto_word_gets_a_reply (env : Env) (chat : Chat) (message : Message) (store : Store)
    (hadmin : chat.id ≠ adminChatId) (hbody : message.body = "!__proto__") :
    (Command.all.all (fun c => c.name != "__proto__")) = true ∧
      onMessage env chat message store =
        ⟨.ok (), store,
          [.reply (.text "An error occurred while executing the command.")]⟩ := by
  refine ⟨by decide, ?_⟩
  rw [onMessage_command env chat message store hadmin (by rw [hbody]; decide)
    (by rw [hbody]; decide) (by rw [hbody]; decide), hbody]
  have hl : lookup (Js.substring1 (Js.str (Js.split "!__proto__" (Char.ofNat 32)).head?)) =
      some .inheritedObject := by decide
  simp only [hl, callProperty, Act.tryCatch, Act.throw, reply, Act.emit, List.nil_append]

/-- Failing input of C10: `!__proto__` in an ordinary group chat. -/
theorem proto_word_gets_a_reply_witness :
    onMessage Env.failsOnB ⟨"chat", true, none⟩ (Message.sample "!__proto__") Store.sample =
      ⟨.ok (), Store.sample,
        [.reply (.text "An error occurred while executing the command.")]⟩ :=
  (proto_word_gets_a_reply Env.failsOnB ⟨"chat", true, none⟩ (Message.sample "!__proto__")
    Store.sample (by decide) rfl).2

section RateLimiter

theorem rateLimitCheck_window (rateLimitMap : RateLimitMap) (currentTime : Nat)
    (userId : String) :
    (rateLimitCheck rateLimitMap currentTime userId).2.window userId =
      (rateLimitMap.window userId).filter
          (fun (timestamp : Nat) => decide ((currentTime : Int) - (timestamp : Int) < 3000)) ++
        [currentTime] := by
  simp [rateLimitCheck, RateLimitMap.window, RATE_LIMIT_WINDOW_MS]

theorem rateLimitCheck_result (rateLimitMap : RateLimitMap) (currentTime : Nat)
    (userId : String) :
    (rateLimitCheck rateLimitMap currentTime userId).1 =
      decide (((rateLimitMap.window userId).filter
        (fun (timestamp : Nat) => decide ((currentTime : Int) - (timestamp : Int) < 3000))).length <
          5) := by
  simp [rateLimitCheck, RateLimitMap.window, RATE_LIMIT_WINDOW_MS, MAX_REQUESTS_PER_WINDOW]

end RateLimiter

/-- Counterexample to C13: a sender with five stored timestamps `0` asks at time `0`.
The call returns `false`, and the stored window afterwards holds six timestamps, the
current time among them. -/
theorem rejected_request_is_recorded :
    (rateLimitCheck (fun _ => some [0, 0, 0, 0, 0]) 0 "alice").1 = false ∧
      (rateLimitCheck (fun _ => some [0, 0, 0, 0, 0]) 0 "alice").2 "alice" =
        some [0, 0, 0, 0, 0, 0] := by
  decide

/-- C13, amended. Every request is recorded, rejected or not: for every sender, stored
window and current time, after `rateLimitCheck` the sender's stored window is the
retained timestamps (those `t` with `now - t < 3000`, in order) followed by the
current time, whatever the call returns; the entries of the other users are
unchanged. -/
theorem every_request_is_recorded (rateLimitMap : RateLimitMap) (currentTime : Nat)
    (userId : String) :
    (rateLimitCheck rateLimitMap currentTime userId).2 userId =
        some (((rateLimitMap userId).getD []).filter
            (fun (timestamp : Nat) => decide ((currentTime : Int) - (timestamp : Int) < 3000)) ++
          [currentTime]) ∧
      currentTime ∈ (rateLimitCheck rateLimitMap currentTime userId).2.window userId ∧
      ∀ other, other ≠ userId →
        (rateLimitCheck rateLimitMap currentTime userId).2 other = rateLimitMap other := by
  refine ⟨by simp [rateLimitCheck, RATE_LIMIT_WINDOW_MS], ?_, ?_⟩
  · rw [rateLimitCheck_window]
    simp
  · intro other hother
    simp [rateLimitCheck, hother]

/-- C14. For every sender, stored window and current time, `rateLimitCheck` returns
`true` exactly when fewer than 5 of the sender's stored timestamps `t` satisfy
`now - t < 3000`; so with five or more such timestamps it returns `false`. -/
theorem admission_rule (rateLimitMap : RateLimitMap) (currentTime : Nat) (userId : String) :
    ((rateLimitCheck rateLimitMap currentTime userId).1 = true ↔
        ((rateLimitMap userId).getD []).countP
          (fun (timestamp : Nat) => decide ((currentTime : Int) - (timestamp : Int) < 3000)) < 5) ∧
      (5 ≤ ((rateLimitMap userId).getD []).countP
          (fun (timestamp : Nat) => decide ((currentTime : Int) - (timestamp : Int) < 3000)) →
        (rateLimitCheck rateLimitMap currentTime userId).1 = false) := by
  have h := rateLimitCheck_result rateLimitMap currentTime userId
  rw [← List.countP_eq_length_filter] at h
  simp only [RateLimitMap.window] at h
  constructor
  · rw [h]
    simp
  · intro h5
    rw [h]
    simp
    omega

/-- C17. If no timestamp stored for the sender is later than the current time, then
after `rateLimitCheck` every timestamp `t` stored for the sender satisfies
`0 ≤ now - t < 3000`. -/
theorem window_retention (rateLimitMap : RateLimitMap) (currentTime : Nat) (userId : String)
    (hpast : ∀ t ∈ rateLimitMap.window userId, t ≤ currentTime) :
    ∀ t ∈ (rateLimitCheck rateLimitMap currentTime userId).2.window userId,
      (0 : Int) ≤ (currentTime : Int) - (t : Int) ∧
        (currentTime : Int) - (t : Int) < 3000 := by
  intro t ht
  rw [rateLimitCheck_window] at ht
  simp only [List.mem_append, List.mem_filter, decide_eq_true_eq, List.mem_singleton] at ht
  rcases ht with ⟨hmem, hlt⟩ | rfl
  · have := hpast t hmem
    omega
  · omega

/-- Witness of C17: a sender with the stored timestamps `1000`, `4500`, `5000` asks at
time `5000`; the timestamp `1000` is dropped and `4500`, which is kept, is 500 ms
old. -/
theorem window_retention_witness :
    (rateLimitCheck (fun _ => some [1000, 4500, 5000]) 5000 "alice").2.window "alice" =
        [4500, 5000, 5000] ∧
      (0 : Int) ≤ ((5000 : Nat) : Int) - ((4500 : Nat) : Int) ∧
      ((5000 : Nat) : Int) - ((4500 : Nat) : Int) < 3000 :=
  ⟨by decide,
    window_retention (fun _ => some [1000, 4500, 5000]) 5000 "alice" (by decide) 4500
      (by decide)⟩

section RateLimiterRuns

/-- What the stored window retains of a history of request times: for every later
time, the stored window and the history keep the same timestamps. -/
theorem window_tracks_history_step (history window : List Nat) (time : Nat)
    (hinv : ∀ t, (∀ x ∈ history, x ≤ t) →
      window.filter (fun (x : Nat) => decide ((t : Int) - (x : Int) < 3000)) =
        history.filter (fun (x : Nat) => decide ((t : Int) - (x : Int) < 3000)))
    (hle : ∀ x ∈ history, x ≤ time) :
    ∀ t, (∀ x ∈ history ++ [time], x ≤ t) →
      (window.filter (fun (x : Nat) => decide ((time : Int) - (x : Int) < 3000)) ++
          [time]).filter (fun (x : Nat) => decide ((t : Int) - (x : Int) < 3000)) =
        (history ++ [time]).filter
          (fun (x : Nat) => decide ((t : Int) - (x : Int) < 3000)) := by
  intro t ht
  have htime : time ≤ t := ht time (by simp)
  rw [hinv time hle, List.filter_append, List.filter_append, List.filter_filter]
  congr 1
  apply List.filter_congr
  intro x _
  by_cases h : (t : Int) - (x : Int) < 3000
  · have : (time : Int) - (x : Int) < 3000 := by omega
    simp [h, this]
  · simp [h]

/-- A run of requests from a state whose stored window tracks the earlier history. -/
theorem checks_within_limit (userId : String) :
    ∀ (times history : List Nat) (rateLimitMap : RateLimitMap),
      (∀ t, (∀ x ∈ history, x ≤ t) →
        (rateLimitMap.window userId).filter
            (fun (x : Nat) => decide ((t : Int) - (x : Int) < 3000)) =
          history.filter (fun (x : Nat) => decide ((t : Int) - (x : Int) < 3000))) →
      (history ++ times).Pairwise (fun a b => a ≤ b) →
      (∀ (pre : List Nat) (time : Nat) (post : List Nat), times = pre ++ time :: post →
        (history ++ pre).countP
          (fun (x : Nat) => decide ((time : Int) - (x : Int) < 3000)) ≤ 4) →
      (rateLimitChecks userId rateLimitMap times).1 = List.replicate times.length true := by
  intro times
  induction times with
  | nil => intro history rateLimitMap _ _ _; rfl
  | cons time rest ih =>
    intro history rateLimitMap hinv hsorted hlimit
    have hle : ∀ x ∈ history, x ≤ time := by
      intro x hx
      exact (List.pairwise_append.mp hsorted).2.2 x hx time (by simp)
    have hfirst : (rateLimitCheck rateLimitMap time userId).1 = true := by
      rw [rateLimitCheck_result, hinv time hle, ← List.countP_eq_length_filter]
      have := hlimit [] time rest rfl
      simp only [List.append_nil] at this
      simp
      omega
    have hrest := ih (history ++ [time]) (rateLimitCheck rateLimitMap time userId).2
      (by
        rw [rateLimitCheck_window]
        exact window_tracks_history_step history _ time hinv hle)
      (by simpa using hsorted)
      (by
        intro pre t post hsplit
        have := hlimit (time :: pre) t post (by simp [hsplit])
        simpa using this)
    simp [rateLimitChecks, hfirst, hrest, List.replicate_succ]

/-- Every timestamp stored after a run of requests was stored before or is one of the
request times. -/
theorem checks_window_subset (userId : String) :
    ∀ (times : List Nat) (rateLimitMap : RateLimitMap),
      ∀ t ∈ (rateLimitChecks userId rateLimitMap times).2.window userId,
        t ∈ rateLimitMap.window userId ∨ t ∈ times := by
  intro times
  induction times with
  | nil => intro rateLimitMap t ht; exact Or.inl ht
  | cons time rest ih =>
    intro rateLimitMap t ht
    rcases ih (rateLimitCheck rateLimitMap time userId).2 t ht with h | h
    · rw [rateLimitCheck_window] at h
      simp only [List.mem_append, List.mem_filter, List.mem_singleton] at h
      rcases h with ⟨hmem, _⟩ | rfl
      · exact Or.inl hmem
      · exact Or.inr (by simp)
    · exact Or.inr (by simp [h])

end RateLimiterRuns

/-- C15. Starting from the empty map, for every sequence of requests of one sender at
non-decreasing times in which each request has at most four earlier requests made
less than 3000 ms before it, `rateLimitCheck` returns `true` for every request. -/
theorem within_limit_always_admitted (userId : String) (times : List Nat)
    (hsorted : times.Pairwise (fun a b => a ≤ b))
    (hlimit : ∀ (i : Nat) (h : i < times.length),
      (times.take i).countP
        (fun (x : Nat) => decide (((times.get ⟨i, h⟩ : Nat) : Int) - (x : Int) < 3000)) ≤ 4) :
    (rateLimitChecks userId RateLimitMap.empty times).1 =
      List.replicate times.length true := by
  refine checks_within_limit userId times [] RateLimitMap.empty ?_ (by simpa using hsorted) ?_
  · intro t _
    simp [RateLimitMap.window, RateLimitMap.empty]
  · intro pre time post hsplit
    subst hsplit
    have := hlimit pre.length (by simp)
    simpa [List.getElem_append_right] using this

/-- Witness of C15: five requests within one second, then a sixth after the first two
have left the window. -/
theorem within_limit_always_admitted_witness :
    (rateLimitChecks "alice" RateLimitMap.empty [0, 100, 200, 300, 400, 3100]).1 =
      List.replicate 6 true :=
  within_limit_always_admitted "alice" [0, 100, 200, 300, 400, 3100] (by decide) (by decide)

/-- Counterexample to C16: five requests at time `0`, all admitted, then five rejected
attempts at times `1000` to `1004`. At time `3000` every admitted request is 3000 ms
old, yet `rateLimitCheck` returns `false`, because the rejected attempts were stored
and are still within the window. -/
theorem rejected_attempts_block_reset :
    [0, 0, 0, 0, 0, 1000, 1001, 1002, 1003, 1004].Pairwise (fun a b => a ≤ b) ∧
      (rateLimitChecks "alice" RateLimitMap.empty
          [0, 0, 0, 0, 0, 1000, 1001, 1002, 1003, 1004]).1 =
        [true, true, true, true, true, false, false, false, false, false] ∧
      (∀ t ∈ admittedTimes [0, 0, 0, 0, 0, 1000, 1001, 1002, 1003, 1004]
          (rateLimitChecks "alice" RateLimitMap.empty
            [0, 0, 0, 0, 0, 1000, 1001, 1002, 1003, 1004]).1,
        (3000 : Int) ≤ ((3000 : Nat) : Int) - (t : Int)) ∧
      (rateLimitCheck
          (rateLimitChecks "alice" RateLimitMap.empty
            [0, 0, 0, 0, 0, 1000, 1001, 1002, 1003, 1004]).2
          3000 "alice").1 = false := by
  decide

/-- C16, amended. Starting from the empty map, for every request history of one sender
and every time `now`: if every request of the sender, admitted or rejected, was made
at least 3000 ms before `now`, then `rateLimitCheck` at `now` returns `true`. -/
theorem admission_resets_after_silence (userId : String) (times : List Nat) (now : Nat)
    (helapsed : ∀ t ∈ times, (3000 : Int) ≤ (now : Int) - (t : Int)) :
    (rateLimitCheck (rateLimitChecks userId RateLimitMap.empty times).2 now userId).1 =
      true := by
  rw [rateLimitCheck_result]
  have hnone : ((rateLimitChecks userId RateLimitMap.empty times).2.window userId).filter
      (fun (x : Nat) => decide ((now : Int) - (x : Int) < 3000)) = [] := by
    rw [List.filter_eq_nil_iff]
    intro t ht
    rcases checks_window_subset userId times RateLimitMap.empty t ht with h | h
    · simp [RateLimitMap.window, RateLimitMap.empty] at h
    · have := helapsed t h
      simp
      omega
  rw [hnone]
  rfl

/-- Witness of C16 as amended: ten requests in the first two seconds, five of them
rejected, and a request at time `5000`. -/
theorem admission_resets_after_silence_witness :
    (rateLimitCheck
        (rateLimitChecks "alice" RateLimitMap.empty
          [0, 0, 0, 0, 0, 1000, 1001, 1002, 1003, 2000]).2
        5000 "alice").1 = true :=
  admission_resets_after_silence "alice" [0, 0, 0, 0, 0, 1000, 1001, 1002, 1003, 2000] 5000
    (by decide)

section BestAttack

/-- One step of the `reduce` that selects the best attack. -/
theorem bestAttack_snoc (attacks : List WarAttack) (attack : WarAttack) :
    bestAttack (attacks ++ [attack]) =
      match bestAttack attacks with
      | none => some attack
      | some b =>
        if Js.gt attack.stars b.stars ||
            (attack.stars == b.stars && Js.gt attack.destruction b.destruction) then
          some attack
        else some b := by
  simp only [bestAttack, List.foldl_append, List.foldl_cons, List.foldl_nil]
  split <;> rename_i h <;> first | rfl | rw [h]

/-- On attacks that have stars and destruction, the comparison of the `reduce` is the
two-key order. -/
theorem beats_iff_better (a b : WarAttack) (ha : a.stars.isSome ∧ a.destruction.isSome)
    (hb : b.stars.isSome ∧ b.destruction.isSome) :
    (Js.gt a.stars b.stars || (a.stars == b.stars && Js.gt a.destruction b.destruction)) =
        true ↔ Better a b := by
  obtain ⟨sa, hsa⟩ := Option.isSome_iff_exists.mp ha.1
  obtain ⟨da, hda⟩ := Option.isSome_iff_exists.mp ha.2
  obtain ⟨sb, hsb⟩ := Option.isSome_iff_exists.mp hb.1
  obtain ⟨db, hdb⟩ := Option.isSome_iff_exists.mp hb.2
  simp [Better, starsOf, destructionOf, hsa, hda, hsb, hdb, Js.gt]

theorem bestAttack_nil : bestAttack [] = none := rfl

/-- The selection, by induction from the end of the list. -/
theorem bestAttack_split (attacks : List WarAttack)
    (hdefined : ∀ a ∈ attacks, a.stars.isSome ∧ a.destruction.isSome) (hne : attacks ≠ []) :
    ∃ pre best post,
      attacks = pre ++ best :: post ∧ bestAttack attacks = some best ∧
        (∀ a ∈ pre, Better best a) ∧ (∀ a ∈ attacks, ¬ Better a best) := by
  induction attacks using List.reverseRecOn with
  | nil => exact absurd rfl hne
  | append_singleton init x ih =>
    have hx : x.stars.isSome ∧ x.destruction.isSome := hdefined x (by simp)
    have hinit : ∀ a ∈ init, a.stars.isSome ∧ a.destruction.isSome :=
      fun a ha => hdefined a (by simp [ha])
    by_cases hempty : init = []
    · subst hempty
      refine ⟨[], x, [], by simp, by simp [bestAttack], by simp, ?_⟩
      intro a ha
      simp only [List.nil_append, List.mem_singleton] at ha
      subst ha
      simp [Better]
    · obtain ⟨pre, best, post, hsplit, hbest, hpre, hmax⟩ := ih hinit hempty
      have hbestDefined : best.stars.isSome ∧ best.destruction.isSome :=
        hinit best (by rw [hsplit]; simp)
      rw [bestAttack_snoc, hbest]
      by_cases hbetter : Better x best
      · refine ⟨init, x, [], rfl, ?_, ?_, ?_⟩
        · simp [(beats_iff_better x best hx hbestDefined).mpr hbetter]
        · intro a ha
          have := hmax a ha
          simp only [Better] at this hbetter ⊢
          omega
        · intro a ha
          simp only [List.mem_append, List.mem_singleton] at ha
          rcases ha with ha | rfl
          · have := hmax a ha
            simp only [Better] at this hbetter ⊢
            omega
          · simp [Better]
      · refine ⟨pre, best, post ++ [x], by simp [hsplit], ?_, hpre, ?_⟩
        · have : (Js.gt x.stars best.stars ||
              (x.stars == best.stars && Js.gt x.destruction best.destruction)) = false := by
            rw [Bool.eq_false_iff]
            exact fun h => hbetter ((beats_iff_better x best hx hbestDefined).mp h)
          simp [this]
        · intro a ha
          simp only [List.mem_append, List.mem_singleton] at ha
          rcases ha with ha | rfl
          · exact hmax a ha
          · exact hbetter

end BestAttack

/-- C18. For every non-empty list of attacks that have stars and destruction, the
`reduce` of `attack` selects an element of the list such that no attack of the list
is better in the two-key order (more stars, or equal stars and higher destruction)
and every attack before it in the list is strictly worse; so among the attacks that
are maximal the earliest is selected. -/
theorem best_attack_selection (attacks : List WarAttack)
    (hdefined : ∀ a ∈ attacks, a.stars.isSome ∧ a.destruction.isSome) (hne : attacks ≠ []) :
    ∃ pre best post,
      attacks = pre ++ best :: post ∧ bestAttack attacks = some best ∧
        (∀ a ∈ attacks, ¬ Better a best) ∧ (∀ a ∈ pre, Better best a) := by
  obtain ⟨pre, best, post, h1, h2, h3, h4⟩ := bestAttack_split attacks hdefined hne
  exact ⟨pre, best, post, h1, h2, h4, h3⟩

/-- Witness of C18: three stars with 50 % are selected over two stars with 80 %. -/
theorem best_attack_selection_witness :
    ∃ pre best post,
      [WarAttack.sample 2 80, WarAttack.sample 3 50] = pre ++ best :: post ∧
        bestAttack [WarAttack.sample 2 80, WarAttack.sample 3 50] = some best ∧
        (∀ a ∈ [WarAttack.sample 2 80, WarAttack.sample 3 50], ¬ Better a best) ∧
        (∀ a ∈ pre, Better best a) :=
  best_attack_selection [WarAttack.sample 2 80, WarAttack.sample 3 50] (by decide) (by decide)

/-- The two examples of the best-attack selection: three stars with 50 % beat two
stars with 80 %, and at two stars each 90 % beat 80 %. -/
theorem bestAttack_examples :
    bestAttack [WarAttack.sample 2 80, WarAttack.sample 3 50] = some (WarAttack.sample 3 50) ∧
      bestAttack [WarAttack.sample 2 80, WarAttack.sample 2 90] =
        some (WarAttack.sample 2 90) := by
  decide

section BestDefense

/-- One step of the `reduce` that selects the best defense. -/
theorem bestDefense_snoc (members : List WarMember) (member : WarMember) :
    bestDefense (members ++ [member]) =
      match member.bestOpponentAttack with
      | none => bestDefense members
      | some d =>
        match bestDefense members with
        | none => some d
        | some b => if Js.gt d.destruction b.destruction then some d else some b := by
  simp only [bestDefense, List.foldl_append, List.foldl_cons, List.foldl_nil]
  split
  · rfl
  · split <;> rename_i h <;> first | rfl | rw [h]

/-- The result is `null` exactly when no member has a record. -/
theorem bestDefense_eq_none (members : List WarMember) :
    bestDefense members = none ↔ ∀ m ∈ members, m.bestOpponentAttack = none := by
  induction members using List.reverseRecOn with
  | nil => simp [bestDefense]
  | append_singleton init x ih =>
    rw [bestDefense_snoc]
    cases hx : x.bestOpponentAttack with
    | none =>
      simp only [ih]
      constructor
      · intro h m hm
        simp only [List.mem_append, List.mem_singleton] at hm
        rcases hm with hm | rfl
        · exact h m hm
        · exact hx
      · intro h m hm
        exact h m (by simp [hm])
    | some d =>
      constructor
      · intro h
        cases hb : bestDefense init with
        | none => simp [hb] at h
        | some b =>
          simp only [hb] at h
          split at h <;> simp at h
      · intro h
        have := h x (by simp)
        rw [hx] at this
        exact absurd this (by simp)

/-- The selection, by induction from the end of the list. -/
theorem bestDefense_split (members : List WarMember)
    (hdefined : ∀ m ∈ members, ∀ d, m.bestOpponentAttack = some d → d.destruction.isSome)
    (best : WarAttack) (hbest : bestDefense members = some best) :
    ∃ pre member post,
      members = pre ++ member :: post ∧ member.bestOpponentAttack = some best ∧
        (∀ m ∈ pre, ∀ d, m.bestOpponentAttack = some d →
          destructionOf d < destructionOf best) ∧
        (∀ m ∈ members, ∀ d, m.bestOpponentAttack = some d →
          destructionOf d ≤ destructionOf best) := by
  induction members using List.reverseRecOn generalizing best with
  | nil => simp [bestDefense] at hbest
  | append_singleton init x ih =>
    have hinit : ∀ m ∈ init, ∀ d, m.bestOpponentAttack = some d → d.destruction.isSome :=
      fun m hm => hdefined m (by simp [hm])
    rw [bestDefense_snoc] at hbest
    cases hx : x.bestOpponentAttack with
    | none =>
      simp only [hx] at hbest
      obtain ⟨pre, member, post, hsplit, hmember, hpre, hmax⟩ := ih hinit best hbest
      refine ⟨pre, member, post ++ [x], by simp [hsplit], hmember, hpre, ?_⟩
      intro m hm d hd
      simp only [List.mem_append, List.mem_singleton] at hm
      rcases hm with hm | rfl
      · exact hmax m hm d hd
      · rw [hx] at hd
        exact absurd hd (by simp)
    | some d =>
      simp only [hx] at hbest
      obtain ⟨vd, hvd⟩ := Option.isSome_iff_exists.mp (hdefined x (by simp) d hx)
      cases hb : bestDefense init with
      | none =>
        simp only [hb, Option.some.injEq] at hbest
        subst hbest
        have hnone := (bestDefense_eq_none init).mp hb
        refine ⟨init, x, [], rfl, hx, ?_, ?_⟩
        · intro m hm d' hd'
          rw [hnone m hm] at hd'
          exact absurd hd' (by simp)
        · intro m hm d' hd'
          simp only [List.mem_append, List.mem_singleton] at hm
          rcases hm with hm | rfl
          · rw [hnone m hm] at hd'
            exact absurd hd' (by simp)
          · rw [hx] at hd'
            simp only [Option.some.injEq] at hd'
            subst hd'
            exact Nat.le_refl _
      | some b =>
        simp only [hb] at hbest
        obtain ⟨pre, member, post, hsplit, hmember, hpre, hmax⟩ := ih hinit b hb
        obtain ⟨vb, hvb⟩ := Option.isSome_iff_exists.mp
          (hinit member (by rw [hsplit]; simp) b hmember)
        by_cases hgt : vb < vd
        · have hsel : Js.gt d.destruction b.destruction = true := by simp [Js.gt, hvd, hvb, hgt]
          simp only [hsel, if_true, Option.some.injEq] at hbest
          subst hbest
          refine ⟨init, x, [], rfl, hx, ?_, ?_⟩
          · intro m hm d' hd'
            have := hmax m hm d' hd'
            simp only [destructionOf, hvd, hvb, Option.getD_some] at this ⊢
            omega
          · intro m hm d' hd'
            simp only [List.mem_append, List.mem_singleton] at hm
            rcases hm with hm | rfl
            · have := hmax m hm d' hd'
              simp only [destructionOf, hvd, hvb, Option.getD_some] at this ⊢
              omega
            · rw [hx] at hd'
              simp only [Option.some.injEq] at hd'
              subst hd'
              exact Nat.le_refl _
        · have hsel : Js.gt d.destruction b.destruction = false := by
            simp [Js.gt, hvd, hvb]
            omega
          simp only [hsel, Bool.false_eq_true, if_false, Option.some.injEq] at hbest
          subst hbest
          refine ⟨pre, member, post ++ [x], by simp [hsplit], hmember, hpre, ?_⟩
          intro m hm d' hd'
          simp only [List.mem_append, List.mem_singleton] at hm
          rcases hm with hm | rfl
          · exact hmax m hm d' hd'
          · rw [hx] at hd'
            simp only [Option.some.injEq] at hd'
            subst hd'
            simp only [destructionOf, hvd, hvb, Option.getD_some]
            omega

end BestDefense

/-- C19. For every list of war members, the `reduce` of `attack` yields `null` exactly
when no member has a best-received-attack record. Otherwise, the records having a
destruction percentage, it yields the record of a member such that no record of any
member has a higher destruction and every record of an earlier member has a strictly
lower one; so among the records with the highest destruction it is the one of the
earliest member. -/
theorem best_defense_selection (members : List WarMember)
    (hdefined : ∀ m ∈ members, ∀ d, m.bestOpponentAttack = some d → d.destruction.isSome) :
    (bestDefense members = none ↔ ∀ m ∈ members, m.bestOpponentAttack = none) ∧
      ∀ best, bestDefense members = some best →
        ∃ pre member post,
          members = pre ++ member :: post ∧ member.bestOpponentAttack = some best ∧
            (∀ m ∈ members, ∀ d, m.bestOpponentAttack = some d →
              destructionOf d ≤ destructionOf best) ∧
            (∀ m ∈ pre, ∀ d, m.bestOpponentAttack = some d →
              destructionOf d < destructionOf best) := by
  refine ⟨bestDefense_eq_none members, ?_⟩
  intro best hbest
  obtain ⟨pre, member, post, h1, h2, h3, h4⟩ := bestDefense_split members hdefined best hbest
  exact ⟨pre, member, post, h1, h2, h4, h3⟩

/-- Witness of C19: of the records with 70 %, 90 % and 90 % destruction the first one
with 90 % is selected. -/
theorem best_defense_selection_witness :
    bestDefense
        [WarMember.attacked "m1" none, WarMember.attacked "m2" (some (WarAttack.sample 2 70)),
          WarMember.attacked "m3" (some (WarAttack.sample 3 90)),
          WarMember.attacked "m4" (some (WarAttack.sample 1 90))] =
      some (WarAttack.sample 3 90) ∧
    ((bestDefense
        [WarMember.attacked "m1" none, WarMember.attacked "m2" (some (WarAttack.sample 2 70)),
          WarMember.attacked "m3" (some (WarAttack.sample 3 90)),
          WarMember.attacked "m4" (some (WarAttack.sample 1 90))] = none) ↔
      ∀ m ∈ [WarMember.attacked "m1" none,
          WarMember.attacked "m2" (some (WarAttack.sample 2 70)),
          WarMember.attacked "m3" (some (WarAttack.sample 3 90)),
          WarMember.attacked "m4" (some (WarAttack.sample 1 90))],
        m.bestOpponentAttack = none) :=
  ⟨by decide,
    (best_defense_selection
      [WarMember.attacked "m1" none, WarMember.attacked "m2" (some (WarAttack.sample 2 70)),
        WarMember.attacked "m3" (some (WarAttack.sample 3 90)),
        WarMember.attacked "m4" (some (WarAttack.sample 1 90))]
      (by decide)).1⟩

section AttacksLeft

/-- With every attack list present, the filter of `leftattack` is the list filter on
the number of attacks used. -/
theorem membersWithAttacks_eq_filter (used : Nat) (members : List WarMember)
    (hdefined : ∀ m ∈ members, m.attacks.isSome) :
    membersWithAttacks used members =
      .ok (members.filter (fun m => decide (attacksUsed m = used))) := by
  induction members with
  | nil => rfl
  | cons member rest ih =>
    obtain ⟨attacks, hattacks⟩ := Option.isSome_iff_exists.mp (hdefined member (by simp))
    have hrest := ih (fun m hm => hdefined m (by simp [hm]))
    simp only [membersWithAttacks, hattacks, Js.orThrow, hrest]
    by_cases h : attacks.length = used
    · simp [List.filter_cons, attacksUsed, hattacks, h, bind, Except.bind, pure, Except.pure]
    · simp [List.filter_cons, attacksUsed, hattacks, h, bind, Except.bind, pure, Except.pure]

/-- The total of `leftattack` is the number of attacks the members still have in a
war of two attacks per member. -/
theorem total_eq_sum (members : List WarMember) :
    2 * (members.filter (fun m => decide (attacksUsed m = 0))).length +
        (members.filter (fun m => decide (attacksUsed m = 1))).length =
      (members.map (fun m => 2 - attacksUsed m)).sum := by
  induction members with
  | nil => rfl
  | cons member rest ih =>
    simp only [List.filter_cons, List.map_cons, List.sum_cons]
    by_cases h0 : attacksUsed member = 0
    · simp [h0]
      omega
    · by_cases h1 : attacksUsed member = 1
      · simp [h1]
        omega
      · simp [h0, h1]
        omega

end AttacksLeft

/-- C20. For every war member list in which each member has an attack list: the "both
attacks left" group of `leftattack` is the members with zero attacks used and the
"one attack left" group the members with one attack used, each in member-list order;
no member is in both; a member with two or more attacks is in neither; and the total
the reply reports is twice the size of the first group plus the size of the second,
which is the sum over the members of `max(0, 2 - attacks used)`. -/
theorem attacks_left_classification (clan : Clan) (warClan : WarClan)
    (members : List WarMember) (hmembers : warClan.members = some members)
    (hdefined : ∀ m ∈ members, m.attacks.isSome) :
    membersWithAttacks 0 members =
        .ok (members.filter (fun m => decide (attacksUsed m = 0))) ∧
      membersWithAttacks 1 members =
        .ok (members.filter (fun m => decide (attacksUsed m = 1))) ∧
      (∀ m, ¬ (m ∈ members.filter (fun m => decide (attacksUsed m = 0)) ∧
        m ∈ members.filter (fun m => decide (attacksUsed m = 1)))) ∧
      (∀ m ∈ members, 2 ≤ attacksUsed m →
        ¬ m ∈ members.filter (fun m => decide (attacksUsed m = 0)) ∧
          ¬ m ∈ members.filter (fun m => decide (attacksUsed m = 1))) ∧
      totalAttacksLeft (members.filter (fun m => decide (attacksUsed m = 0)))
          (members.filter (fun m => decide (attacksUsed m = 1))) =
        (members.map (fun m => 2 - attacksUsed m)).sum ∧
      ∃ body, leftAttackMessage clan warClan =
        .ok (body ++ "\n\n*Total Attacks Left*: " ++
          toString (2 * (members.filter (fun m => decide (attacksUsed m = 0))).length +
            (members.filter (fun m => decide (attacksUsed m = 1))).length)) := by
  have h0 := membersWithAttacks_eq_filter 0 members hdefined
  have h1 := membersWithAttacks_eq_filter 1 members hdefined
  refine ⟨h0, h1, ?_, ?_, ?_, ?_⟩
  · intro m hm
    simp only [List.mem_filter, decide_eq_true_eq] at hm
    omega
  · intro m _ h2
    simp only [List.mem_filter, decide_eq_true_eq]
    omega
  · rw [← total_eq_sum members, totalAttacksLeft]
    omega
  · simp only [leftAttackMessage, hmembers, Js.orThrow, h0, h1, totalAttacksLeft, bind,
      Except.bind, pure, Except.pure]
    rw [Nat.mul_comm (List.length _) 2]
    exact ⟨_, rfl⟩

/-- Witness of C20: the attack counts `[0, 1, 2, 0]` give the groups of members 1, 4
and of member 2, and the total 5. -/
theorem attacks_left_classification_witness :
    membersWithAttacks 0
        [WarMember.sample "m1" 0, WarMember.sample "m2" 1, WarMember.sample "m3" 2,
          WarMember.sample "m4" 0] =
      .ok [WarMember.sample "m1" 0, WarMember.sample "m4" 0] ∧
    membersWithAttacks 1
        [WarMember.sample "m1" 0, WarMember.sample "m2" 1, WarMember.sample "m3" 2,
          WarMember.sample "m4" 0] =
      .ok [WarMember.sample "m2" 1] ∧
    totalAttacksLeft [WarMember.sample "m1" 0, WarMember.sample "m4" 0]
        [WarMember.sample "m2" 1] = 5 ∧
    totalAttacksLeft
        ([WarMember.sample "m1" 0, WarMember.sample "m2" 1, WarMember.sample "m3" 2,
          WarMember.sample "m4" 0].filter (fun m => decide (attacksUsed m = 0)))
        ([WarMember.sample "m1" 0, WarMember.sample "m2" 1, WarMember.sample "m3" 2,
          WarMember.sample "m4" 0].filter (fun m => decide (attacksUsed m = 1))) =
      ([WarMember.sample "m1" 0, WarMember.sample "m2" 1, WarMember.sample "m3" 2,
        WarMember.sample "m4" 0].map (fun m => 2 - attacksUsed m)).sum :=
  ⟨rfl, rfl, by decide,
    (attacks_left_classification (Clan.sample "#A")
      { name := none, tag := none, stars := none, destructionPercentage := none,
        attacks := none,
        members := some [WarMember.sample "m1" 0, WarMember.sample "m2" 1,
          WarMember.sample "m3" 2, WarMember.sample "m4" 0] }
      [WarMember.sample "m1" 0, WarMember.sample "m2" 1, WarMember.sample "m3" 2,
        WarMember.sample "m4" 0] rfl (by decide)).2.2.2.2.1⟩

section Parsing

theorem string_mk_data (s : String) : String.mk s.data = s := rfl

theorem splitAux_no_sep (sep : Char) (xs cur : List Char) (h : ¬ sep ∈ xs) :
    Js.splitAux sep xs cur = [String.mk (cur.reverse ++ xs)] := by
  induction xs generalizing cur with
  | nil => simp [Js.splitAux]
  | cons x rest ih =>
    have hx : x ≠ sep := fun hx => h (by simp [hx])
    have hrest : ¬ sep ∈ rest := fun hr => h (by simp [hr])
    simp [Js.splitAux, hx, ih (x :: cur) hrest]

theorem splitAux_sep (sep : Char) (xs ys cur : List Char) (h : ¬ sep ∈ xs) :
    Js.splitAux sep (xs ++ sep :: ys) cur =
      String.mk (cur.reverse ++ xs) :: Js.splitAux sep ys [] := by
  induction xs generalizing cur with
  | nil => simp [Js.splitAux]
  | cons x rest ih =>
    have hx : x ≠ sep := fun hx => h (by simp [hx])
    have hrest : ¬ sep ∈ rest := fun hr => h (by simp [hr])
    simp [Js.splitAux, hx, ih (x :: cur) hrest]

/-- Splitting at spaces undoes joining with spaces, for words without a space. -/
theorem split_join (word : String) (words : List String)
    (h : ∀ w ∈ word :: words, ¬ Char.ofNat 32 ∈ w.data) :
    Js.split (Js.join " " (word :: words)) (Char.ofNat 32) = word :: words := by
  induction words generalizing word with
  | nil =>
    simp only [Js.join, Js.split]
    rw [splitAux_no_sep _ _ _ (h word (by simp))]
    simp [string_mk_data]
  | cons next rest ih =>
    have hword := h word (by simp)
    have hrest := ih next (fun w hw => h w (by simp [List.mem_cons] at hw ⊢; right; exact hw))
    simp only [Js.join, Js.split] at hrest ⊢
    have hdata : (word ++ " " ++ Js.join " " (next :: rest)).data =
        word.data ++ Char.ofNat 32 :: (Js.join " " (next :: rest)).data := by
      simp [String.data_append]
    rw [hdata, splitAux_sep _ _ _ _ hword, hrest]
    simp [string_mk_data]

theorem join_data (word : String) (words : List String) :
    ∃ rest, (Js.join " " (word :: words)).data = word.data ++ rest := by
  cases words with
  | nil => exact ⟨[], by simp [Js.join]⟩
  | cons next rest => exact ⟨(" " ++ Js.join " " (next :: rest)).data, by
      simp [Js.join, String.data_append]⟩

theorem ne_of_take_ne (l rest target : List Char) (n : Nat) (hlen : n ≤ l.length)
    (h : l.take n ≠ target.take n) : l ++ rest ≠ target := by
  intro heq
  apply h
  rw [← heq, List.take_append_of_le_length hlen]

/-- No command word is spelled like `info` or `help`, whatever the case and whatever
follows it. -/
theorem command_word_not_builtin (c : Command) (rest : List Char) :
    (("!" ++ c.name).data ++ rest).map Char.toLower ≠ "!info".data ∧
      (("!" ++ c.name).data ++ rest).map Char.toLower ≠ "!help".data := by
  rw [List.map_append]
  constructor
  · apply ne_of_take_ne _ _ _ 3 <;> cases c <;> decide
  · apply ne_of_take_ne _ _ _ 3 <;> cases c <;> decide

theorem command_word_no_space (c : Command) : ¬ Char.ofNat 32 ∈ ("!" ++ c.name).data := by
  cases c <;> decide

theorem lookup_name (c : Command) : lookup c.name = some (.own c) := by
  cases c <;> decide

theorem substring1_bang (name : String) : Js.substring1 ("!" ++ name) = name := by
  simp [Js.substring1, String.data_append]

/-- How the listener reads a message made of a command word and arguments. -/
theorem onMessage_registered (c : Command) (env : Env) (chat : Chat) (message : Message)
    (args : List String) (store : Store) (hadmin : chat.id ≠ adminChatId)
    (hbody : message.body = Js.join " " (("!" ++ c.name) :: args))
    (hargs : ∀ a ∈ args, ¬ Char.ofNat 32 ∈ a.data) :
    onMessage env chat message store =
      Act.tryCatch
        (Act.bind (Act.emit (.call c.name args)) (fun _ => c.run env message args))
        (fun _ => reply "An error occurred while executing the command.") store := by
  have hsplit : Js.split message.body (Char.ofNat 32) = ("!" ++ c.name) :: args := by
    rw [hbody]
    refine split_join _ _ ?_
    intro w hw
    simp only [List.mem_cons] at hw
    rcases hw with rfl | hw
    · exact command_word_no_space c
    · exact hargs w hw
  obtain ⟨rest, hdata⟩ := join_data ("!" ++ c.name) args
  have hlower := command_word_not_builtin c rest
  have hinfo : (Js.toLowerCase message.body == "!info") = false := by
    rw [beq_eq_false_iff_ne, hbody]
    intro h
    apply hlower.1
    have := congrArg String.data h
    simpa [Js.toLowerCase, hdata] using this
  have hhelp : (Js.toLowerCase message.body == "!help") = false := by
    rw [beq_eq_false_iff_ne, hbody]
    intro h
    apply hlower.2
    have := congrArg String.data h
    simpa [Js.toLowerCase, hdata] using this
  have hbang : Js.startsWith message.body "!" = true := by
    rw [hbody]
    simp [Js.startsWith, hdata, String.data_append]
  rw [onMessage_command env chat message store hadmin hinfo hhelp hbang, hsplit]
  simp only [List.head?_cons, Js.str, substring1_bang, lookup_name, List.drop_succ_cons,
    List.drop_zero, callProperty]

end Parsing


/-- C11. In a chat other than the admin chat, for every command of `commands.js`, every
message made of `!`, the command word and space-separated arguments, and every error
the handler throws: the listener catches it, sends the generic failure reply after
whatever the handler did, and returns normally. -/
theorem dispatch_catch_all (c : Command) (env : Env) (chat : Chat) (message : Message)
    (args : List String) (store : Store) (error : String)
    (hadmin : chat.id ≠ adminChatId)
    (hbody : message.body = Js.join " " (("!" ++ c.name) :: args))
    (hargs : ∀ a ∈ args, ¬ Char.ofNat 32 ∈ a.data)
    (hthrow : (c.run env message args store).out = .error error) :
    onMessage env chat message store =
      ⟨.ok (), (c.run env message args store).store,
        .call c.name args :: (c.run env message args store).trace ++
          [.reply (.text "An error occurred while executing the command.")]⟩ := by
  rw [onMessage_registered c env chat message args store hadmin hbody hargs]
  simp only [Act.tryCatch, Act.bind, Act.emit]
  rcases hrun : c.run env message args store with ⟨o, s1, t1⟩
  rw [hrun] at hthrow
  simp only at hthrow
  subst hthrow
  simp [reply, Act.emit]

/-- Witness of C11: `!unlinkplayer #A` while the store cannot be read. -/
theorem dispatch_catch_all_witness :
    onMessage Env.storeDown ⟨"chat", true, none⟩ (Message.sample "!unlinkplayer #A")
        Store.sample =
      ⟨.ok (), Store.sample,
        [.call "unlinkplayer" ["#A"], .storeRead "chat" (some "alice"),
          .reply (.text "An error occurred while executing the command.")]⟩ :=
  dispatch_catch_all .unlinkplayer Env.storeDown ⟨"chat", true, none⟩
    (Message.sample "!unlinkplayer #A") ["#A"] Store.sample "store down" (by decide)
    (by decide) (by decide) rfl

section Pipeline

theorem forEach_snoc {α : Type} (body : α → Act Unit) (xs : List α) (x : α) (s : Store)
    (h : (Act.forEach body xs s).out = .ok ()) :
    Act.forEach body (xs ++ [x]) s =
      ⟨(body x (Act.forEach body xs s).store).out, (body x (Act.forEach body xs s).store).store,
        (Act.forEach body xs s).trace ++ (body x (Act.forEach body xs s).store).trace⟩ := by
  induction xs generalizing s with
  | nil =>
    simp only [List.nil_append, Act.forEach, Act.bind, Act.ret]
    rcases body x s with ⟨o, s1, t1⟩
    cases o <;> simp
  | cons y ys ih =>
    simp only [List.cons_append, Act.forEach, Act.bind] at h ⊢
    rcases hy : body y s with ⟨o, s1, t1⟩
    rw [hy] at h
    cases o with
    | error e => simp at h
    | ok u =>
      simp only at h ⊢
      have hys : (Act.forEach body ys s1).out = .ok () := by
        rcases hf : Act.forEach body ys s1 with ⟨o2, s2, t2⟩
        rw [hf] at h
        exact h
      rw [show ys.append [x] = ys ++ [x] from rfl, ih s1 hys]
      simp

theorem onMessage_invokes (c : Command) (env : Env) (chat : Chat) (message : Message)
    (args : List String) (store : Store) (hadmin : chat.id ≠ adminChatId)
    (hbody : message.body = Js.join " " (("!" ++ c.name) :: args))
    (hargs : ∀ a ∈ args, ¬ Char.ofNat 32 ∈ a.data) :
    (onMessage env chat message store).out = .ok () ∧
      ∃ rest, (onMessage env chat message store).trace = .call c.name args :: rest := by
  rw [onMessage_registered c env chat message args store hadmin hbody hargs]
  simp only [Act.tryCatch, Act.bind, Act.emit]
  rcases c.run env message args store with ⟨o, s1, t1⟩
  cases o <;> simp [reply, Act.emit]

theorem onMessages_registered_ok (c : Command) (env : Env) (chat : Chat) (message : Message)
    (args : List String) (hadmin : chat.id ≠ adminChatId)
    (hbody : message.body = Js.join " " (("!" ++ c.name) :: args))
    (hargs : ∀ a ∈ args, ¬ Char.ofNat 32 ∈ a.data) (n : Nat) (store : Store) :
    (onMessages env chat (List.replicate n message) store).out = .ok () := by
  induction n generalizing store with
  | zero => rfl
  | succ n ih =>
    simp only [onMessages, List.replicate_succ, Act.forEach, Act.bind]
    have h := (onMessage_invokes c env chat message args store hadmin hbody hargs).1
    rcases hm : onMessage env chat message store with ⟨o, s1, t1⟩
    rw [hm] at h
    simp only at h
    subst h
    exact ih s1

end Pipeline

/-- C12 (the code departs from it). The listener never consults `rateLimitCheck`: when a
sender issues a registered command six times at one instant in a chat other than the
admin chat, `rateLimitCheck` would return `false` for the sixth request, and still the
listener, after all it did for the first five messages, invokes the handler for the
sixth. -/
theorem sixth_command_is_invoked (c : Command) (env : Env) (chat : Chat) (message : Message)
    (args : List String) (store : Store) (now : Nat)
    (hadmin : chat.id ≠ adminChatId)
    (hbody : message.body = Js.join " " (("!" ++ c.name) :: args))
    (hargs : ∀ a ∈ args, ¬ Char.ofNat 32 ∈ a.data) :
    (rateLimitChecks message.sender RateLimitMap.empty (List.replicate 6 now)).1 =
        [true, true, true, true, true, false] ∧
      ∃ rest, (onMessages env chat (List.replicate 6 message) store).trace =
        (onMessages env chat (List.replicate 5 message) store).trace ++
          .call c.name args :: rest := by
  constructor
  · simp [rateLimitChecks, rateLimitCheck, RateLimitMap.empty, List.replicate,
      RATE_LIMIT_WINDOW_MS, MAX_REQUESTS_PER_WINDOW]
  · have hok := onMessages_registered_ok c env chat message args hadmin hbody hargs 5 store
    have hsplit : List.replicate 6 message = List.replicate 5 message ++ [message] := rfl
    obtain ⟨rest, hrest⟩ := (onMessage_invokes c env chat message args
      (onMessages env chat (List.replicate 5 message) store).store hadmin hbody hargs).2
    refine ⟨rest, ?_⟩
    simp only [onMessages] at hok hrest ⊢
    rw [hsplit, forEach_snoc _ _ _ _ hok, hrest]

/-- Witness of C12: six `!coc` messages of one sender; each gets the help text. -/
theorem sixth_command_is_invoked_witness :
    (rateLimitChecks "chat" RateLimitMap.empty [7, 7, 7, 7, 7, 7]).1 =
        [true, true, true, true, true, false] ∧
      (onMessages Env.failing ⟨"chat", true, none⟩
          (List.replicate 6 (Message.sample "!coc")) Store.empty).trace =
        (List.replicate 6 [Event.call "coc" [], Event.reply (.text HELP)]).flatten := by
  refine ⟨(sixth_command_is_invoked .coc Env.failing ⟨"chat", true, none⟩
    (Message.sample "!coc") [] Store.empty 7 (by decide) (by decide) (by decide)).1, ?_⟩
  rfl

section Formatters

/-- With a member list, `CLAN_INFO` returns a text whatever other fields are absent. -/
theorem CLAN_INFO_with_members (clan : Clan) (members : List ClanMember)
    (h : clan.members = some members) : ∃ text, CLAN_INFO clan = .ok text := by
  simp only [CLAN_INFO, h]
  exact ⟨_, rfl⟩

/-- The summary of a clan record that has an empty member list and no other field:
every line shows the placeholder. -/
theorem CLAN_INFO_bare :
    CLAN_INFO
        { name := none, tag := none, level := none, members := some [], warWins := none,
          warWinStreak := none, warFrequency := none, clanPoints := none,
          clanVersusPoints := none, requiredTrophies := none, location := none,
          capital := none, labels := none } =
      .ok ("\n\u011f\u0178\u00b0 **Clan Name**: " ++ "N/A" ++
      "\n\u011f\u0178\u00b7\u00ef\u00b8 **Clan Tag**: " ++ "N/A" ++
      "\n\u011f\u0178\u201c\u02c6 **Clan Level**: " ++ "N/A" ++
      "\n\u011f\u0178\u2018\u00a5 **Members**: " ++ "N/A" ++
      "/50\n\u011f\u0178\u2020 **War Wins**: " ++ "N/A" ++
      "\n\u011f\u0178\u201d\u00a5 **War Win Streak**: " ++ "N/A" ++
      "\n\u011f\u0178\u2014\u201c\u00ef\u00b8 **War Frequency**: " ++ "N/A" ++
      "\n\u011f\u0178\u2019\u00af **Clan Points**: " ++ "N/A" ++
      "\n\u011f\u0178\u2019\u00aa **Clan Versus Points**: " ++ "N/A" ++
      "\n\u011f\u0178\u2026 **Required Trophies**: " ++ "N/A" ++
      "\n\u011f\u0178\u201c **Location**: " ++ "N/A" ++
      "\n    ") := by
  rfl

end Formatters

/-- C21 (the code departs from it). `CLAN_INFO` reads `clan.members.length` and only
then applies `|| "N/A"`: for every clan record without a member list, whatever its
other fields, the formatter throws the `TypeError` of reading `length` of
`undefined`, and the `clan` command given the tag of such a clan answers with its
error reply instead of the summary. -/
theorem clan_info_throws_without_members (clan : Clan) (env : Env) (message : Message)
    (tag : String) (store : Store) (hmembers : clan.members = none) (htag : tag ≠ "")
    (hfetch : env.getClan tag = .ok clan) :
    CLAN_INFO clan = .error (Js.undefinedRead "length") ∧
      Whatsapp.clan env message [tag] store =
        ⟨.ok (), store,
          [.api .getClan tag,
            .reply (.text ("Error fetching clan information: " ++ Js.undefinedRead "length" ++
              " \u00e2\u0152"))]⟩ := by
  have hinfo : CLAN_INFO clan = .error (Js.undefinedRead "length") := by
    simp only [CLAN_INFO, hmembers]
  refine ⟨hinfo, ?_⟩
  simp [Whatsapp.clan, mentionOrSelf, Js.truthy, htag, clanFetch, getClan, hfetch, hinfo,
    Act.tryCatch, Act.bind, Act.emit, Act.ofExcept, Act.ret, Act.throw, reply]

/-- Witness of C21: `!clan #A` when the clan `#A` is fetched without a member list. -/
theorem clan_info_throws_without_members_witness :
    CLAN_INFO (Clan.sample "#A") = .error (Js.undefinedRead "length") ∧
      Whatsapp.clan Env.failsOnB (Message.sample "!clan #A") ["#A"] Store.empty =
        ⟨.ok (), Store.empty,
          [.api .getClan "#A",
            .reply (.text ("Error fetching clan information: " ++ Js.undefinedRead "length" ++
              " \u00e2\u0152"))]⟩ :=
  clan_info_throws_without_members (Clan.sample "#A") Env.failsOnB (Message.sample "!clan #A")
    "#A" Store.empty rfl (by decide) rfl

/-- C22 (the code departs from it). The formatters render a count with `x || "N/A"`,
and `0` is falsy: for every clan record `CLAN_INFO` renders `warWins = 0` exactly as
it renders an absent `warWins`, and `TEAM_INFO` renders the attacks-left count of a
war in which every attack is used exactly as it renders an unknown total; the figure
shown is `N/A`, not `0`. Only a count other than `0` is rendered by its digits. -/
theorem zero_count_renders_as_absent (clan : Clan) (teamSize : Option Nat) (attacks : Nat) :
    CLAN_INFO { clan with warWins := some 0 } = CLAN_INFO { clan with warWins := none } ∧
      TEAM_INFO teamSize attacks (some attacks) = TEAM_INFO teamSize attacks none ∧
      Js.numOrNA (some 0) = "N/A" ∧
      (∀ n : Nat, n ≠ 0 → Js.numOrNA (some n) = toString n) ∧
      TEAM_INFO (some 5) 10 (some 10) =
        "\n      \u011f\u0178\u00b0 **Team Size**: " ++ "5" ++
          "\n      \u00e2\u0153\u2026 **Total Completed Attacks**: " ++ "10" ++
          "\n      \u00e2\u0152 **Total Attacks Left**: " ++ "N/A" ++ "\n    " := by
  refine ⟨rfl, ?_, rfl, ?_, rfl⟩
  · simp [TEAM_INFO, Js.intOrNA]
  · intro n hn
    cases n with
    | zero => exact absurd rfl hn
    | succ k => rfl

section StoreOps

/-- What `saveUserProfile` does to the store when the write succeeds. -/
theorem saveUserProfile_ok (env : Env) (chatID userId : String) (userProfile : UserProfile)
    (store : Store) (hw : env.updateOneFault chatID userId = none) :
    saveUserProfile env chatID userProfile userId store =
      ⟨.ok (),
        fun c u => if c = chatID ∧ u = userId then
          some { userId := some userId
                 playerTags := userProfile.playerTags <|>
                   ((store chatID userId).getD UserProfile.empty).playerTags
                 clanTags := userProfile.clanTags <|>
                   ((store chatID userId).getD UserProfile.empty).clanTags }
          else store c u,
        [.storeWrite chatID userId]⟩ := by
  simp [saveUserProfile, updateOne, hw]

/-- A failing write leaves the store as it is. -/
theorem saveUserProfile_fault (env : Env) (chatID userId : String) (userProfile : UserProfile)
    (store : Store) (error : String) (hw : env.updateOneFault chatID userId = some error) :
    saveUserProfile env chatID userProfile userId store =
      ⟨.error error, store, [.storeWrite chatID userId]⟩ := by
  simp [saveUserProfile, updateOne, hw]

/-- A failing read leaves the store as it is. -/
theorem getUserProfile_fault (env : Env) (chatID : String) (userId : Option String)
    (store : Store) (error : String) (hr : env.findOneFault chatID userId = some error) :
    getUserProfile env chatID userId store =
      ⟨.error error, store, [.storeRead chatID userId]⟩ := by
  simp [getUserProfile, findOne, Act.bind, hr]

/-- The store after `linkPlayerTag`: unchanged, or the record with the tag appended
to a list that did not hold it. -/
theorem linkPlayerTag_effect (env : Env) (chatID userId tag : String) (store : Store) :
    (linkPlayerTag env chatID userId tag store).store = store ∨
      (¬ tag ∈ (profileOf store chatID (some userId)).playerTags.getD [] ∧
        (linkPlayerTag env chatID userId tag store).store =
          fun c u => if c = chatID ∧ u = userId then
            some { userId := some userId
                   playerTags := some
                     ((profileOf store chatID (some userId)).playerTags.getD [] ++ [tag])
                   clanTags := (profileOf store chatID (some userId)).clanTags }
            else store c u) := by
  cases hr : env.findOneFault chatID (some userId) with
  | some e =>
    left
    simp [linkPlayerTag, getUserProfile_fault env chatID (some userId) store e hr, Act.bind]
  | none =>
    by_cases hmem : tag ∈ (profileOf store chatID (some userId)).playerTags.getD []
    · left
      rw [linkPlayerTag_present env chatID userId tag store hr (by simpa [profileOf] using hmem)]
    · cases hw : env.updateOneFault chatID userId with
      | some e =>
        left
        have hmem2 : ¬ tag ∈ ((store chatID userId).getD UserProfile.empty).playerTags.getD [] := by
          simpa [profileOf] using hmem
        simp [linkPlayerTag, getUserProfile, findOne, saveUserProfile, updateOne, Act.bind,
          Act.ret, hr, hw, hmem2]
      | none =>
        right
        refine ⟨hmem, ?_⟩
        rw [linkPlayerTag_absent env chatID userId tag store hr hw
          (by simpa [profileOf] using hmem)]
        simp [profileOf]

/-- The store after `linkClanTag`: unchanged, or the record with the tag appended to
a list that did not hold it. -/
theorem linkClanTag_effect (env : Env) (chatID userId tag : String) (store : Store) :
    (linkClanTag env chatID userId tag store).store = store ∨
      (¬ tag ∈ (profileOf store chatID (some userId)).clanTags.getD [] ∧
        (linkClanTag env chatID userId tag store).store =
          fun c u => if c = chatID ∧ u = userId then
            some { userId := some userId
                   playerTags := (profileOf store chatID (some userId)).playerTags
                   clanTags := some
                     ((profileOf store chatID (some userId)).clanTags.getD [] ++ [tag]) }
            else store c u) := by
  cases hr : env.findOneFault chatID (some userId) with
  | some e =>
    left
    simp [linkClanTag, getUserProfile_fault env chatID (some userId) store e hr, Act.bind]
  | none =>
    by_cases hmem : tag ∈ (profileOf store chatID (some userId)).clanTags.getD []
    · left
      rw [linkClanTag_present env chatID userId tag store hr (by simpa [profileOf] using hmem)]
    · cases hw : env.updateOneFault chatID userId with
      | some e =>
        left
        have hmem2 : ¬ tag ∈ ((store chatID userId).getD UserProfile.empty).clanTags.getD [] := by
          simpa [profileOf] using hmem
        simp [linkClanTag, getUserProfile, findOne, saveUserProfile, updateOne, Act.bind,
          Act.ret, hr, hw, hmem2]
      | none =>
        right
        refine ⟨hmem, ?_⟩
        rw [linkClanTag_absent env chatID userId tag store hr hw
          (by simpa [profileOf] using hmem)]
        simp [profileOf]

/-- What `unlinkPlayerTag` does with a working store. -/
theorem unlinkPlayerTag_ok (env : Env) (chatID userId tag : String) (store : Store)
    (hr : env.findOneFault chatID (some userId) = none)
    (hw : env.updateOneFault chatID userId = none) :
    unlinkPlayerTag env chatID userId tag store =
      ⟨.ok (),
        fun c u => if c = chatID ∧ u = userId then
          some { userId := some userId
                 playerTags := some
                   (((profileOf store chatID (some userId)).playerTags.getD []).filter
                     (fun t => t != tag))
                 clanTags := (profileOf store chatID (some userId)).clanTags }
          else store c u,
        [.storeRead chatID (some userId), .storeWrite chatID userId]⟩ := by
  simp [unlinkPlayerTag, getUserProfile, findOne, saveUserProfile, updateOne, Act.bind,
    Act.ret, hr, hw, option_orElse_self, profileOf]

/-- What `unlinkClanTag` does with a working store. -/
theorem unlinkClanTag_ok (env : Env) (chatID userId tag : String) (store : Store)
    (hr : env.findOneFault chatID (some userId) = none)
    (hw : env.updateOneFault chatID userId = none) :
    unlinkClanTag env chatID userId tag store =
      ⟨.ok (),
        fun c u => if c = chatID ∧ u = userId then
          some { userId := some userId
                 playerTags := (profileOf store chatID (some userId)).playerTags
                 clanTags := some
                   (((profileOf store chatID (some userId)).clanTags.getD []).filter
                     (fun t => t != tag)) }
          else store c u,
        [.storeRead chatID (some userId), .storeWrite chatID userId]⟩ := by
  simp [unlinkClanTag, getUserProfile, findOne, saveUserProfile, updateOne, Act.bind,
    Act.ret, hr, hw, option_orElse_self, profileOf]

/-- A failing store leaves the records as they are under `unlinkPlayerTag`. -/
theorem unlinkPlayerTag_fault (env : Env) (chatID userId tag : String) (store : Store)
    (h : env.findOneFault chatID (some userId) ≠ none ∨
      env.updateOneFault chatID userId ≠ none) :
    (unlinkPlayerTag env chatID userId tag store).store = store := by
  cases hr : env.findOneFault chatID (some userId) with
  | some e => simp [unlinkPlayerTag, getUserProfile, findOne, Act.bind, hr]
  | none =>
    cases hw : env.updateOneFault chatID userId with
    | some e =>
      simp [unlinkPlayerTag, getUserProfile, findOne, saveUserProfile, updateOne, Act.bind,
        Act.ret, hr, hw]
    | none => simp [hr, hw] at h

/-- A failing store leaves the records as they are under `unlinkClanTag`. -/
theorem unlinkClanTag_fault (env : Env) (chatID userId tag : String) (store : Store)
    (h : env.findOneFault chatID (some userId) ≠ none ∨
      env.updateOneFault chatID userId ≠ none) :
    (unlinkClanTag env chatID userId tag store).store = store := by
  cases hr : env.findOneFault chatID (some userId) with
  | some e => simp [unlinkClanTag, getUserProfile, findOne, Act.bind, hr]
  | none =>
    cases hw : env.updateOneFault chatID userId with
    | some e =>
      simp [unlinkClanTag, getUserProfile, findOne, saveUserProfile, updateOne, Act.bind,
        Act.ret, hr, hw]
    | none => simp [hr, hw] at h

/-- What the unlink-all branch of `unlinkplayer` does with a working store. -/
theorem unlinkplayer_all_ok (env : Env) (message : Message) (args : List String)
    (store : Store) (hno : Js.truthy args.head? = false)
    (hr : env.findOneFault message.sender (some message.userId) = none)
    (hw : env.updateOneFault message.sender message.userId = none) :
    unlinkplayer env message args store =
      ⟨.ok (),
        fun c u => if c = message.sender ∧ u = message.userId then
          some { userId := some message.userId
                 playerTags := some []
                 clanTags := (profileOf store message.sender (some message.userId)).clanTags }
          else store c u,
        [.storeRead message.sender (some message.userId),
          .storeWrite message.sender message.userId,
          .reply (.text "All player tags unlinked from your profile.")]⟩ := by
  simp [unlinkplayer, hno, getUserProfile, findOne, saveUserProfile, updateOne, Act.bind,
    Act.ret, hr, hw, option_orElse_self, profileOf, reply, Act.emit]

/-- What the unlink-all branch of `unlinkclan` does with a working store. -/
theorem unlinkclan_all_ok (env : Env) (message : Message) (args : List String)
    (store : Store) (hno : Js.truthy args.head? = false)
    (hr : env.findOneFault message.sender (some message.userId) = none)
    (hw : env.updateOneFault message.sender message.userId = none) :
    unlinkclan env message args store =
      ⟨.ok (),
        fun c u => if c = message.sender ∧ u = message.userId then
          some { userId := some message.userId
                 playerTags := (profileOf store message.sender (some message.userId)).playerTags
                 clanTags := some [] }
          else store c u,
        [.storeRead message.sender (some message.userId),
          .storeWrite message.sender message.userId,
          .reply (.text "All clan tags unlinked from your profile.")]⟩ := by
  simp [unlinkclan, hno, getUserProfile, findOne, saveUserProfile, updateOne, Act.bind,
    Act.ret, hr, hw, option_orElse_self, profileOf, reply, Act.emit]

/-- A failing store leaves the records as they are under the unlink-all branches. -/
theorem unlink_all_fault (env : Env) (message : Message) (store : Store)
    (h : env.findOneFault message.sender (some message.userId) ≠ none ∨
      env.updateOneFault message.sender message.userId ≠ none) :
    (unlinkplayer env message [] store).store = store ∧
      (unlinkclan env message [] store).store = store := by
  cases hr : env.findOneFault message.sender (some message.userId) with
  | some e =>
    simp [unlinkplayer, unlinkclan, Js.truthy, getUserProfile, findOne, Act.bind, hr]
  | none =>
    cases hw : env.updateOneFault message.sender message.userId with
    | some e =>
      simp [unlinkplayer, unlinkclan, Js.truthy, getUserProfile, findOne, saveUserProfile,
        updateOne, Act.bind, Act.ret, hr, hw]
    | none => simp [hr, hw] at h

end StoreOps

section Invariant

/-- Replacing one record by a duplicate-free one keeps every profile duplicate-free. -/
theorem duplicateFree_update (store : Store) (chatID userId c0 u0 : String)
    (doc : UserProfile) (h : DuplicateFree store chatID userId)
    (hp : (doc.playerTags.getD []).Nodup) (hc : (doc.clanTags.getD []).Nodup) :
    DuplicateFree (fun c u => if c = c0 ∧ u = u0 then some doc else store c u)
      chatID userId := by
  unfold DuplicateFree profileOf at *
  by_cases hk : chatID = c0 ∧ userId = u0
  · simp [hk, hp, hc]
  · simpa [hk] using h

theorem nodup_append_singleton (tag : String) (tags : List String) (h : tags.Nodup)
    (habs : ¬ tag ∈ tags) : (tags ++ [tag]).Nodup := by
  rw [List.nodup_append]
  refine ⟨h, List.nodup_singleton tag, ?_⟩
  intro a ha hb
  simp only [List.mem_singleton] at hb
  subst hb
  exact habs ha

/-- One operation, on whatever record, keeps every profile duplicate-free. -/
theorem duplicateFree_apply (env : Env) (op : ProfileOp) (store : Store)
    (chatID userId : String) (h : DuplicateFree store chatID userId) :
    DuplicateFree (op.apply env store) chatID userId := by
  cases op with
  | linkPlayerTag c0 u0 tag =>
    rcases linkPlayerTag_effect env c0 u0 tag store with h1 | ⟨habs, h1⟩
    · simpa [ProfileOp.apply, h1] using h
    · simp only [ProfileOp.apply, h1]
      by_cases hk : chatID = c0 ∧ userId = u0
      · obtain ⟨rfl, rfl⟩ := hk
        exact duplicateFree_update store _ _ _ _ _ h
          (nodup_append_singleton tag _ h.1 habs) h.2
      · unfold DuplicateFree profileOf at *
        simpa [hk] using h
  | linkClanTag c0 u0 tag =>
    rcases linkClanTag_effect env c0 u0 tag store with h1 | ⟨habs, h1⟩
    · simpa [ProfileOp.apply, h1] using h
    · simp only [ProfileOp.apply, h1]
      by_cases hk : chatID = c0 ∧ userId = u0
      · obtain ⟨rfl, rfl⟩ := hk
        exact duplicateFree_update store _ _ _ _ _ h h.1
          (nodup_append_singleton tag _ h.2 habs)
      · unfold DuplicateFree profileOf at *
        simpa [hk] using h
  | unlinkPlayerTag c0 u0 tag =>
    by_cases hf : env.findOneFault c0 (some u0) = none ∧ env.updateOneFault c0 u0 = none
    · simp only [ProfileOp.apply, unlinkPlayerTag_ok env c0 u0 tag store hf.1 hf.2]
      by_cases hk : chatID = c0 ∧ userId = u0
      · obtain ⟨rfl, rfl⟩ := hk
        exact duplicateFree_update store _ _ _ _ _ h (h.1.filter _) h.2
      · unfold DuplicateFree profileOf at *
        simpa [hk] using h
    · have hf2 : env.findOneFault c0 (some u0) ≠ none ∨ env.updateOneFault c0 u0 ≠ none := by
        by_contra hcon
        push_neg at hcon
        exact hf hcon
      simpa [ProfileOp.apply, unlinkPlayerTag_fault env c0 u0 tag store hf2] using h
  | unlinkClanTag c0 u0 tag =>
    by_cases hf : env.findOneFault c0 (some u0) = none ∧ env.updateOneFault c0 u0 = none
    · simp only [ProfileOp.apply, unlinkClanTag_ok env c0 u0 tag store hf.1 hf.2]
      by_cases hk : chatID = c0 ∧ userId = u0
      · obtain ⟨rfl, rfl⟩ := hk
        exact duplicateFree_update store _ _ _ _ _ h h.1 (h.2.filter _)
      · unfold DuplicateFree profileOf at *
        simpa [hk] using h
    · have hf2 : env.findOneFault c0 (some u0) ≠ none ∨ env.updateOneFault c0 u0 ≠ none := by
        by_contra hcon
        push_neg at hcon
        exact hf hcon
      simpa [ProfileOp.apply, unlinkClanTag_fault env c0 u0 tag store hf2] using h
  | unlinkAllPlayers message =>
    by_cases hf : env.findOneFault message.sender (some message.userId) = none ∧
        env.updateOneFault message.sender message.userId = none
    · simp only [ProfileOp.apply,
        unlinkplayer_all_ok env message [] store (by simp [Js.truthy]) hf.1 hf.2]
      by_cases hk : chatID = message.sender ∧ userId = message.userId
      · obtain ⟨rfl, rfl⟩ := hk
        exact duplicateFree_update store _ _ _ _ _ h List.nodup_nil h.2
      · unfold DuplicateFree profileOf at *
        simpa [hk] using h
    · have hf2 : env.findOneFault message.sender (some message.userId) ≠ none ∨
          env.updateOneFault message.sender message.userId ≠ none := by
        by_contra hcon
        push_neg at hcon
        exact hf hcon
      simpa [ProfileOp.apply, (unlink_all_fault env message store hf2).1] using h
  | unlinkAllClans message =>
    by_cases hf : env.findOneFault message.sender (some message.userId) = none ∧
        env.updateOneFault message.sender message.userId = none
    · simp only [ProfileOp.apply,
        unlinkclan_all_ok env message [] store (by simp [Js.truthy]) hf.1 hf.2]
      by_cases hk : chatID = message.sender ∧ userId = message.userId
      · obtain ⟨rfl, rfl⟩ := hk
        exact duplicateFree_update store _ _ _ _ _ h h.1 List.nodup_nil
      · unfold DuplicateFree profileOf at *
        simpa [hk] using h
    · have hf2 : env.findOneFault message.sender (some message.userId) ≠ none ∨
          env.updateOneFault message.sender message.userId ≠ none := by
        by_contra hcon
        push_neg at hcon
        exact hf hcon
      simpa [ProfileOp.apply, (unlink_all_fault env message store hf2).2] using h

/-- A user without a stored document has a duplicate-free profile. -/
theorem duplicateFree_of_absent (store : Store) (chatID userId : String)
    (h : store chatID userId = none) : DuplicateFree store chatID userId := by
  simp [DuplicateFree, profileOf, h, UserProfile.empty]

theorem duplicateFree_applyAll (steps : List (Env × ProfileOp)) (store : Store)
    (chatID userId : String) (h : DuplicateFree store chatID userId) :
    DuplicateFree (applyAll store steps) chatID userId := by
  induction steps generalizing store with
  | nil => exact h
  | cons step rest ih =>
    simp only [applyAll, List.foldl_cons]
    exact ih _ (duplicateFree_apply step.1 step.2 store chatID userId h)

end Invariant

/-- C23. If neither tag list of a user's profile holds a tag twice, then after any one
of `linkPlayerTag`, `linkClanTag`, `unlinkPlayerTag`, `unlinkClanTag` and the
unlink-all branches of `unlinkplayer` and `unlinkclan`, applied with any arguments to
any record and whether or not the store fails, neither list holds a tag twice; the
same holds after any sequence of such operations, and so for every profile reached
from an absent one. -/
theorem no_duplicates_invariant (store : Store) (chatID userId : String)
    (h : DuplicateFree store chatID userId) :
    (∀ env op, DuplicateFree (ProfileOp.apply env store op) chatID userId) ∧
      (∀ steps, DuplicateFree (applyAll store steps) chatID userId) ∧
      (∀ (absent : Store), absent chatID userId = none →
        ∀ steps, DuplicateFree (applyAll absent steps) chatID userId) :=
  ⟨fun env op => duplicateFree_apply env op store chatID userId h,
    fun steps => duplicateFree_applyAll steps store chatID userId h,
    fun absent habsent steps =>
      duplicateFree_applyAll steps absent chatID userId
        (duplicateFree_of_absent absent chatID userId habsent)⟩

/-- Witness of C23: `alice`, without a document, links `#A` twice and `#B`, unlinks
`#A`, links a clan, fails to unlink all clans while the store is down and unlinks all
players. -/
theorem no_duplicates_invariant_witness :
    applyAll Store.empty
        [(Env.failing, .linkPlayerTag "chat" "alice" "#A"),
          (Env.failing, .linkPlayerTag "chat" "alice" "#A"),
          (Env.failing, .linkPlayerTag "chat" "alice" "#B"),
          (Env.failing, .unlinkPlayerTag "chat" "alice" "#A"),
          (Env.failing, .linkClanTag "chat" "alice" "#C"),
          (Env.storeDown, .unlinkAllClans (Message.sample "!unlinkclan")),
          (Env.failing, .unlinkAllPlayers (Message.sample "!unlinkplayer"))]
        "chat" "alice" =
      some { userId := some "alice", playerTags := some [], clanTags := some ["#C"] } ∧
    DuplicateFree
      (applyAll Store.empty
        [(Env.failing, .linkPlayerTag "chat" "alice" "#A"),
          (Env.failing, .linkPlayerTag "chat" "alice" "#A"),
          (Env.failing, .linkPlayerTag "chat" "alice" "#B"),
          (Env.failing, .unlinkPlayerTag "chat" "alice" "#A"),
          (Env.failing, .linkClanTag "chat" "alice" "#C"),
          (Env.storeDown, .unlinkAllClans (Message.sample "!unlinkclan")),
          (Env.failing, .unlinkAllPlayers (Message.sample "!unlinkplayer"))])
      "chat" "alice" :=
  ⟨by decide,
    (no_duplicates_invariant Store.empty "chat" "alice"
      ⟨List.nodup_nil, List.nodup_nil⟩).2.1 _⟩

/-- C24. With a working store, for every chat, user and store content, `unlinkplayer`
without a tag argument returns normally and leaves for the invoker in the chat a
stored record whose `playerTags` is the empty list and whose `clanTags` is as before
(absent when there was no record); the record carries the invoker as `userId`, so a
record that was stored under its own `userId` changes in `playerTags` only; every
record of another user or another chat is unchanged. The same holds for `unlinkclan`
with the two lists exchanged. -/
theorem unlink_all_clears_one_list (env : Env) (message : Message) (args : List String)
    (store : Store) (hno : Js.truthy args.head? = false)
    (hr : env.findOneFault message.sender (some message.userId) = none)
    (hw : env.updateOneFault message.sender message.userId = none) :
    ((unlinkplayer env message args store).out = .ok () ∧
      (unlinkplayer env message args store).store message.sender message.userId =
        some { userId := some message.userId
               playerTags := some []
               clanTags := (profileOf store message.sender (some message.userId)).clanTags } ∧
      (∀ record, store message.sender message.userId = some record →
        record.userId = some message.userId →
        (unlinkplayer env message args store).store message.sender message.userId =
          some { record with playerTags := some [] }) ∧
      (∀ chat user, ¬ (chat = message.sender ∧ user = message.userId) →
        (unlinkplayer env message args store).store chat user = store chat user)) ∧
    ((unlinkclan env message args store).out = .ok () ∧
      (unlinkclan env message args store).store message.sender message.userId =
        some { userId := some message.userId
               playerTags := (profileOf store message.sender (some message.userId)).playerTags
               clanTags := some [] } ∧
      (∀ record, store message.sender message.userId = some record →
        record.userId = some message.userId →
        (unlinkclan env message args store).store message.sender message.userId =
          some { record with clanTags := some [] }) ∧
      (∀ chat user, ¬ (chat = message.sender ∧ user = message.userId) →
        (unlinkclan env message args store).store chat user = store chat user)) := by
  rw [unlinkplayer_all_ok env message args store hno hr hw,
    unlinkclan_all_ok env message args store hno hr hw]
  refine ⟨⟨rfl, by simp, ?_, ?_⟩, ⟨rfl, by simp, ?_, ?_⟩⟩
  · intro record hrecord huser
    simp [profileOf, hrecord, ← huser]
  · intro chat user hk
    simp [hk]
  · intro record hrecord huser
    simp [profileOf, hrecord, ← huser]
  · intro chat user hk
    simp [hk]

/-- Witness of C24: `!unlinkplayer` by `alice`, who has linked two players and three
clans in `chat`. -/
theorem unlink_all_clears_one_list_witness :
    (unlinkplayer Env.failing (Message.sample "!unlinkplayer") [] Store.sample).store
        "chat" "alice" =
      some { userId := some "alice", playerTags := some [],
             clanTags := some ["#A", "#B", "#C"] } :=
  (unlink_all_clears_one_list Env.failing (Message.sample "!unlinkplayer") [] Store.sample
    (by decide) (by decide) (by decide)).1.2.1

/-- C30. With a working store, for every chat, user, store content and tag: when the
tag is not among the user's player tags, `linkPlayerTag` followed by
`unlinkPlayerTag` returns normally and leaves the player tags as they were, same
elements in the same order, and the clan tags unchanged, and `unlinkPlayerTag` alone
leaves both lists as they were; the records of every other user and chat are
unchanged. The same holds for `linkClanTag` and `unlinkClanTag` with the two lists
exchanged. An absent list reads as the empty list. -/
theorem link_unlink_round_trip (env : Env) (chatID userId tag : String) (store : Store)
    (hr : env.findOneFault chatID (some userId) = none)
    (hw : env.updateOneFault chatID userId = none) :
    (¬ tag ∈ (profileOf store chatID (some userId)).playerTags.getD [] →
      (Act.bind (linkPlayerTag env chatID userId tag)
          (fun _ => unlinkPlayerTag env chatID userId tag) store).out = .ok () ∧
        (profileOf
            (Act.bind (linkPlayerTag env chatID userId tag)
              (fun _ => unlinkPlayerTag env chatID userId tag) store).store
            chatID (some userId)).playerTags.getD [] =
          (profileOf store chatID (some userId)).playerTags.getD [] ∧
        (profileOf
            (Act.bind (linkPlayerTag env chatID userId tag)
              (fun _ => unlinkPlayerTag env chatID userId tag) store).store
            chatID (some userId)).clanTags =
          (profileOf store chatID (some userId)).clanTags ∧
        (profileOf (unlinkPlayerTag env chatID userId tag store).store chatID
            (some userId)).playerTags.getD [] =
          (profileOf store chatID (some userId)).playerTags.getD [] ∧
        (profileOf (unlinkPlayerTag env chatID userId tag store).store chatID
            (some userId)).clanTags =
          (profileOf store chatID (some userId)).clanTags ∧
        ∀ chat user, ¬ (chat = chatID ∧ user = userId) →
          (Act.bind (linkPlayerTag env chatID userId tag)
            (fun _ => unlinkPlayerTag env chatID userId tag) store).store chat user =
            store chat user) ∧
    (¬ tag ∈ (profileOf store chatID (some userId)).clanTags.getD [] →
      (Act.bind (linkClanTag env chatID userId tag)
          (fun _ => unlinkClanTag env chatID userId tag) store).out = .ok () ∧
        (profileOf
            (Act.bind (linkClanTag env chatID userId tag)
              (fun _ => unlinkClanTag env chatID userId tag) store).store
            chatID (some userId)).clanTags.getD [] =
          (profileOf store chatID (some userId)).clanTags.getD [] ∧
        (profileOf
            (Act.bind (linkClanTag env chatID userId tag)
              (fun _ => unlinkClanTag env chatID userId tag) store).store
            chatID (some userId)).playerTags =
          (profileOf store chatID (some userId)).playerTags ∧
        (profileOf (unlinkClanTag env chatID userId tag store).store chatID
            (some userId)).clanTags.getD [] =
          (profileOf store chatID (some userId)).clanTags.getD [] ∧
        (profileOf (unlinkClanTag env chatID userId tag store).store chatID
            (some userId)).playerTags =
          (profileOf store chatID (some userId)).playerTags ∧
        ∀ chat user, ¬ (chat = chatID ∧ user = userId) →
          (Act.bind (linkClanTag env chatID userId tag)
            (fun _ => unlinkClanTag env chatID userId tag) store).store chat user =
            store chat user) := by
  have hfilter : ∀ tags : List String, ¬ tag ∈ tags →
      tags.filter (fun t => t != tag) = tags := by
    intro tags habs
    rw [List.filter_eq_self]
    intro a ha
    simp only [bne_iff_ne, ne_eq]
    intro h
    exact habs (h ▸ ha)
  constructor
  · intro habs
    have h1 := linkPlayerTag_absent env chatID userId tag store hr hw
      (by simpa [profileOf] using habs)
    simp only [Act.bind, h1, unlinkPlayerTag_ok env chatID userId tag _ hr hw]
    refine ⟨trivial, ?_, ?_, ?_, ?_, ?_⟩
    · simp [profileOf, List.filter_append, hfilter _ (by simpa [profileOf] using habs)]
    · simp [profileOf]
    · simp [profileOf, hfilter _ (by simpa [profileOf] using habs)]
    · simp [profileOf]
    · intro chat user hk
      simp [hk]
  · intro habs
    have h1 := linkClanTag_absent env chatID userId tag store hr hw
      (by simpa [profileOf] using habs)
    simp only [Act.bind, h1, unlinkClanTag_ok env chatID userId tag _ hr hw]
    refine ⟨trivial, ?_, ?_, ?_, ?_, ?_⟩
    · simp [profileOf, List.filter_append, hfilter _ (by simpa [profileOf] using habs)]
    · simp [profileOf]
    · simp [profileOf, hfilter _ (by simpa [profileOf] using habs)]
    · simp [profileOf]
    · intro chat user hk
      simp [hk]

/-- Witness of C30: `alice`, with the players `#P`, `#Q`, links and unlinks `#R`. -/
theorem link_unlink_round_trip_witness :
    (Act.bind (linkPlayerTag Env.failing "chat" "alice" "#R")
        (fun _ => unlinkPlayerTag Env.failing "chat" "alice" "#R") Store.sample).out =
        .ok () ∧
      (profileOf
          (Act.bind (linkPlayerTag Env.failing "chat" "alice" "#R")
            (fun _ => unlinkPlayerTag Env.failing "chat" "alice" "#R") Store.sample).store
          "chat" (some "alice")).playerTags.getD [] = ["#P", "#Q"] :=
  ⟨((link_unlink_round_trip Env.failing "chat" "alice" "#R" Store.sample rfl rfl).1
      (by decide)).1,
    ((link_unlink_round_trip Env.failing "chat" "alice" "#R" Store.sample rfl rfl).1
      (by decide)).2.1⟩

section Profile

theorem head_append (a b : String) (x : Char) (h : a.data.head? = some x) :
    (a ++ b).data.head? = some x := by
  rw [String.data_append]
  cases ha : a.data with
  | nil => simp [ha] at h
  | cons y ys =>
    rw [ha] at h
    simpa using h

theorem ne_of_head (a b : String) (x y : Char) (ha : a.data.head? = some x)
    (hb : b.data.head? = some y) (hxy : x ≠ y) : a ≠ b := by
  intro h
  subst h
  rw [ha] at hb
  exact hxy (Option.some.inj hb)

/-- The lines of `fetchClanDetails`: it returns normally, keeps the store and only
calls the upstream API. -/
theorem fetchClanDetails_run (env : Env) (tags : List String) (s : Store) :
    ∃ lines calls, fetchClanDetails env tags s = ⟨.ok lines, s, calls⟩ ∧
      ∀ e ∈ calls, ∃ m t, e = Event.api m t := by
  induction tags with
  | nil => exact ⟨[], [], rfl, by simp⟩
  | cons tag rest ih =>
    obtain ⟨lines, calls, h, hcalls⟩ := ih
    cases hc : env.getClan tag with
    | error e =>
      refine ⟨("- Unknown Clan - " ++ tag) :: lines, .api .getClan tag :: calls, ?_, ?_⟩
      · simp [fetchClanDetails, getClan, hc, h, Act.tryCatch, Act.bind, Act.emit,
          Act.ofExcept, Act.throw, Act.ret]
      · intro e he
        rcases List.mem_cons.mp he with rfl | he
        · exact ⟨_, _, rfl⟩
        · exact hcalls e he
    | ok clan =>
      refine ⟨("- " ++ Js.str clan.name ++ " (Level " ++ Js.num clan.level ++ ") - " ++ tag) ::
        lines, .api .getClan tag :: calls, ?_, ?_⟩
      · simp [fetchClanDetails, getClan, hc, h, Act.tryCatch, Act.bind, Act.emit,
          Act.ofExcept, Act.throw, Act.ret]
      · intro e he
        rcases List.mem_cons.mp he with rfl | he
        · exact ⟨_, _, rfl⟩
        · exact hcalls e he

/-- The lines of `fetchPlayerDetails`: it returns normally, keeps the store and only
calls the upstream API. -/
theorem fetchPlayerDetails_run (env : Env) (tags : List String) (s : Store) :
    ∃ lines calls, fetchPlayerDetails env tags s = ⟨.ok lines, s, calls⟩ ∧
      ∀ e ∈ calls, ∃ m t, e = Event.api m t := by
  induction tags with
  | nil => exact ⟨[], [], rfl, by simp⟩
  | cons tag rest ih =>
    obtain ⟨lines, calls, h, hcalls⟩ := ih
    cases hc : env.getPlayer tag with
    | error e =>
      refine ⟨(" Unknown Player - " ++ tag) :: lines, .api .getPlayer tag :: calls, ?_, ?_⟩
      · simp [fetchPlayerDetails, getPlayer, hc, h, Act.tryCatch, Act.bind, Act.emit,
          Act.ofExcept, Act.throw, Act.ret]
      · intro e he
        rcases List.mem_cons.mp he with rfl | he
        · exact ⟨_, _, rfl⟩
        · exact hcalls e he
    | ok player =>
      refine ⟨("-  " ++ Js.str player.name ++ " (Level " ++ Js.num player.expLevel ++ ") - " ++
        tag) :: lines, .api .getPlayer tag :: calls, ?_, ?_⟩
      · simp [fetchPlayerDetails, getPlayer, hc, h, Act.tryCatch, Act.bind, Act.emit,
          Act.ofExcept, Act.throw, Act.ret]
      · intro e he
        rcases List.mem_cons.mp he with rfl | he
        · exact ⟨_, _, rfl⟩
        · exact hcalls e he

theorem profileInfo_ne (profile : UserProfile) (linkedClans linkedPlayers : String) :
    PROFILE_INFO profile linkedClans linkedPlayers ≠ "No profile linked to this user." := by
  refine ne_of_head _ _ (Char.ofNat 10) (Char.ofNat 78) ?_ rfl (by decide)
  simp only [PROFILE_INFO]
  repeat apply head_append
  rfl

theorem profileError_ne (error : String) :
    "Error fetching profile: " ++ error ++ " \u00e2\u0152" ≠
      "No profile linked to this user." := by
  refine ne_of_head _ _ (Char.ofNat 69) (Char.ofNat 78) ?_ rfl (by decide)
  repeat apply head_append
  rfl

/-- The `try` statement of `profile` never sends the "no profile" reply. -/
theorem profileFor_trace (env : Env) (chatID userId : String) (store : Store) :
    ¬ Event.reply (.text "No profile linked to this user.") ∈
      (profileFor env chatID userId store).trace := by
  cases hr : env.findOneFault chatID (some userId) with
  | some error =>
    have h : profileFor env chatID userId store =
        ⟨.ok (), store,
          [.storeRead chatID (some userId),
            .reply (.text ("Error fetching profile: " ++ error ++ " \u00e2\u0152"))]⟩ := by
      simp [profileFor, Act.tryCatch, Act.bind,
        getUserProfile_fault env chatID (some userId) store error hr, reply, Act.emit]
    rw [h]
    simp only [List.mem_cons, List.mem_singleton, List.not_mem_nil, or_false, not_or]
    refine ⟨by simp, ?_⟩
    intro heq
    injection heq with heq
    injection heq with heq
    exact profileError_ne error heq.symm
  | none =>
    obtain ⟨clanLines, calls1, h1, hcalls1⟩ :=
      fetchClanDetails_run env ((profileOf store chatID (some userId)).clanTags.getD []) store
    obtain ⟨playerLines, calls2, h2, hcalls2⟩ :=
      fetchPlayerDetails_run env ((profileOf store chatID (some userId)).playerTags.getD [])
        store
    have h : profileFor env chatID userId store =
        ⟨.ok (), store,
          .storeRead chatID (some userId) :: (calls1 ++ (calls2 ++
            [.reply (.text (PROFILE_INFO (profileOf store chatID (some userId))
              (Js.join "\n" clanLines) (Js.join "\n" playerLines)))]))⟩ := by
      simp [profileFor, Act.tryCatch, Act.bind,
        getUserProfile_ok env chatID (some userId) store hr, Js.truthyObject, h1, h2, reply,
        Act.emit]
    rw [h]
    simp only [List.mem_cons, List.mem_append, List.mem_singleton, List.not_mem_nil,
      or_false, not_or]
    refine ⟨by simp, ?_, ?_, ?_⟩
    · intro hmem
      obtain ⟨m, t, hmt⟩ := hcalls1 _ hmem
      cases hmt
    · intro hmem
      obtain ⟨m, t, hmt⟩ := hcalls2 _ hmem
      cases hmt
    · intro heq
      injection heq with heq
      injection heq with heq
      exact profileInfo_ne _ _ _ heq.symm

end Profile

/-- C25. For every chat and user without a stored document, `getUserProfile` with a
working store returns the empty record, which has no tags of either kind; and for
every message, argument list, store content and behaviour of the collaborators, the
reply `No profile linked to this user.` is never sent by `profile`. -/
theorem absent_profile_reads_empty (env : Env) (chatID userId : String) (store : Store)
    (habsent : store chatID userId = none)
    (hr : env.findOneFault chatID (some userId) = none) :
    getUserProfile env chatID (some userId) store =
        ⟨.ok UserProfile.empty, store, [.storeRead chatID (some userId)]⟩ ∧
      UserProfile.empty.playerTags = none ∧ UserProfile.empty.clanTags = none ∧
      ∀ (anyEnv : Env) (message : Message) (args : List String) (anyStore : Store),
        ¬ Event.reply (.text "No profile linked to this user.") ∈
          (profile anyEnv message args anyStore).trace := by
  refine ⟨?_, rfl, rfl, ?_⟩
  · rw [getUserProfile_ok env chatID (some userId) store hr]
    simp [profileOf, habsent]
  · intro anyEnv message args anyStore
    unfold profile
    by_cases hm : Js.truthy args.head? = true
    · by_cases hu : Js.truthy message.mentionedUser = true
      · simp only [hm, hu, if_true, Bool.not_true, Bool.false_eq_true, if_false]
        exact profileFor_trace _ _ _ _
      · simp only [hm, hu, if_true, Bool.not_eq_true] at *
        simp [hu, reply, Act.emit]
    · simp only [hm, Bool.false_eq_true, if_false]
      exact profileFor_trace _ _ _ _

/-- Witness of C25: `bob` has no document in the sample store, and `!profile` by
`alice` there does not send the "no profile" reply. -/
theorem absent_profile_reads_empty_witness :
    getUserProfile Env.failing "chat" (some "bob") Store.sample =
        ⟨.ok UserProfile.empty, Store.sample, [.storeRead "chat" (some "bob")]⟩ ∧
      ¬ Event.reply (.text "No profile linked to this user.") ∈
        (profile Env.failing (Message.sample "!profile") [] Store.sample).trace :=
  ⟨(absent_profile_reads_empty Env.failing "chat" "bob" Store.sample (by decide) rfl).1,
    (absent_profile_reads_empty Env.failing "chat" "bob" Store.sample (by decide) rfl).2.2.2
      Env.failing (Message.sample "!profile") [] Store.sample⟩

section ProfileRead

/-- The common body of the fan-out commands when the profile cannot be read. -/
theorem fanOut_body_fault (env : Env) (chatID : String) (userId : Option String)
    (body : UserProfile → Act Unit) (errText : String → String) (store : Store)
    (error : String) (hfault : env.findOneFault chatID userId = some error) :
    Act.tryCatch (Act.bind (getUserProfile env chatID userId) body)
        (fun e => reply (errText e)) store =
      ⟨.ok (), store, [.storeRead chatID userId, .reply (.text (errText error))]⟩ := by
  simp [Act.tryCatch, Act.bind, getUserProfile_fault env chatID userId store error hfault,
    reply, Act.emit]

/-- What a fan-out command does when the profile cannot be read. -/
theorem fanOut_run_fault (c : Command) (hc : c ∈ fanOutCommands) (env : Env)
    (message : Message) (args : List String) (store : Store) (error : String)
    (user : Option String) (huser : lookedUpUser c message args = .ok user)
    (hfault : env.findOneFault message.sender user =
      some error) :
    c.run env message args store =
      ⟨.ok (), store,
        [.storeRead message.sender user,
          .reply (.text (profileErrorText c error))]⟩ := by
  simp only [fanOutCommands, List.mem_cons, List.mem_singleton, List.not_mem_nil,
    or_false] at hc
  rcases hc with rfl | rfl | rfl | rfl | rfl
  · show Whatsapp.war env message args store = _
    have hu : warUser message args.head? (hashArg args) = .ok user := huser
    unfold Whatsapp.war
    simp only [hu, bind_ofExcept_ok]
    exact fanOut_body_fault env message.sender _ _ (profileErrorText .war) store error hfault
  · show Whatsapp.leftattack env message args store = _
    have hu : warUser message args.head? (hashArg args) = .ok user := huser
    unfold Whatsapp.leftattack
    simp only [hu, bind_ofExcept_ok]
    exact fanOut_body_fault env message.sender _ _ (profileErrorText .leftattack) store error
      hfault
  · show Whatsapp.attack env message args store = _
    obtain rfl : attackUser message args (hashArg args) = user :=
      Except.ok.inj huser
    unfold Whatsapp.attack
    exact fanOut_body_fault env message.sender _ _ (profileErrorText .attack) store error
      hfault
  · show Whatsapp.members env message args store = _
    obtain rfl : membersUser message args (args.find? (fun arg => Js.startsWith arg "#"))
        (args.head? == some "table" || args.contains "table") = user :=
      Except.ok.inj huser
    unfold Whatsapp.members
    exact fanOut_body_fault env message.sender _ _ (profileErrorText .members) store error
      hfault
  · show Whatsapp.warlog env message args store = _
    obtain rfl : attackUser message args (hashArg args) = user :=
      Except.ok.inj huser
    unfold Whatsapp.warlog
    exact fanOut_body_fault env message.sender _ _ (profileErrorText .warlog) store error
      hfault

end ProfileRead

/-- C26 (the code departs from it). `war`, `leftattack`, `attack`, `warlog` and
`members` call `getUserProfile` before they look at the tag: invoked with a first
argument that starts with `#`, the first thing the handler does is to read the
invoker's profile; when that read fails with `error` the handler makes no upstream
call and its only reply is the error reply of its outer `catch`, and when the read
succeeds it goes on to fetch the tag and answers for it. -/
theorem explicit_tag_reads_profile (c : Command) (hc : c ∈ fanOutCommands) (env : Env)
    (message : Message) (args : List String) (store : Store) (tag : String)
    (hhead : args.head? = some tag) (hhash : Js.startsWith tag "#" = true) :
    (c.run env message args store).trace.head? =
        some (.storeRead message.sender (some message.userId)) ∧
      (∀ error, env.findOneFault message.sender (some message.userId) = some error →
        c.run env message args store =
          ⟨.ok (), store,
            [.storeRead message.sender (some message.userId),
              .reply (.text (profileErrorText c error))]⟩) ∧
      (env.findOneFault message.sender (some message.userId) = none →
        c.run env message args store =
          ⟨.ok (), store,
            .storeRead message.sender (some message.userId) :: tagTrace c env args tag⟩ ∧
        (replies (tagTrace c env args tag)).length = 1 ∧
        apiCalls (tagTrace c env args tag) ≠ []) := by
  have huser := lookedUpUser_of_head c hc message args tag hhead hhash
  have hne := startsWith_hash_ne_empty tag hhash
  have hfault : ∀ error, env.findOneFault message.sender (some message.userId) = some error →
      c.run env message args store =
        ⟨.ok (), store,
          [.storeRead message.sender (some message.userId),
            .reply (.text (profileErrorText c error))]⟩ := by
    intro error herror
    exact fanOut_run_fault c hc env message args store error (some message.userId) huser
      herror
  have hok : env.findOneFault message.sender (some message.userId) = none →
      c.run env message args store =
        ⟨.ok (), store,
          .storeRead message.sender (some message.userId) :: tagTrace c env args tag⟩ := by
    intro hread
    have hres : resolveClanTags (explicitTag c args)
        (profileOf store message.sender (some message.userId)) = [tag] := by
      simp [explicitTag_of_head c args tag hhead hhash, resolveClanTags, hne]
    have := fanOut_run c hc env message args store (some message.userId) huser hread
      (by rw [hres]; simp)
    rw [hres] at this
    simpa using this
  refine ⟨?_, hfault, ?_⟩
  · cases hr : env.findOneFault message.sender (some message.userId) with
    | some error => rw [hfault error hr]; rfl
    | none => rw [hok hr]; rfl
  · intro hread
    refine ⟨hok hread, replies_tagTrace_length c hc env args tag, ?_⟩
    obtain ⟨calls, answer, h, hcne, hcalls, -⟩ := tagStep_shape c hc env args tag
    obtain ⟨n, hn, hfetched⟩ := fetchedTags_shape tag calls answer hcne hcalls
    intro hnil
    have : fetchedTags (tagTrace c env args tag) = [] := by simp [fetchedTags, hnil]
    rw [show tagTrace c env args tag = calls ++ [.reply answer] by simp [tagTrace, h]] at this
    rw [hfetched] at this
    cases n with
    | zero => exact absurd hn (by decide)
    | succ k => simp [List.replicate_succ] at this

/-- Witness of C26: `!war #A` while the store cannot be read gets the profile error,
no upstream call being made; with a working store the same message gets the answer
for `#A`. -/
theorem explicit_tag_reads_profile_witness :
    war Env.lookupDown (Message.sample "!war #A") ["#A"] Store.sample =
        ⟨.ok (), Store.sample,
          [.storeRead "chat" (some "alice"),
            .reply (.text (profileErrorText .war "store down"))]⟩ ∧
      (war Env.failsOnB (Message.sample "!war #A") ["#A"] Store.sample).trace =
        [.storeRead "chat" (some "alice"), .api .getClan "#A", .api .getCurrentWar "#A",
          .reply (.text (noCurrentWar (Clan.sample "#A")))] :=
  ⟨(explicit_tag_reads_profile .war (by decide) Env.lookupDown (Message.sample "!war #A")
      ["#A"] Store.sample "#A" rfl (by decide)).2.1 "store down" rfl,
    by decide⟩

/-- C27 (the code departs from it). The exported `handleMessage` calls `handleCommand`,
which `commands.js` neither defines nor imports: for every message, so also for one
whose lower-cased body is a registered command word followed by space-separated
arguments, it throws the `ReferenceError` and has no effect at all; no handler is
invoked, nothing is replied, no upstream call is made and the store is neither read
nor written. -/
theorem handleMessage_throws (c : Command) (env : Env) (message : Message)
    (args handlerArgs : List String) (store : Store) :
    handleMessage env message args store =
        ⟨.error "handleCommand is not defined", store, []⟩ ∧
      ¬ Event.call c.name handlerArgs ∈ (handleMessage env message args store).trace ∧
      replies (handleMessage env message args store).trace = [] ∧
      apiCalls (handleMessage env message args store).trace = [] :=
  ⟨rfl, by simp [handleMessage, Act.throw], rfl, rfl⟩

/-- Witness of C27: the message `Clan #2pp`, whose lower-cased body is the command
word `clan` followed by `#2pp`; the `clan` handler itself would fetch `#2pp`. -/
theorem handleMessage_throws_witness :
    Js.toLowerCase "Clan #2pp" = Js.join " " ["clan", "#2pp"] ∧
      handleMessage Env.failsOnB (Message.sample "Clan #2pp") [] Store.sample =
        ⟨.error "handleCommand is not defined", Store.sample, []⟩ ∧
      (clan Env.failsOnB (Message.sample "Clan #2pp") ["#2pp"] Store.sample).trace.head? =
        some (.api .getClan "#2pp") :=
  ⟨by decide,
    (handleMessage_throws .clan Env.failsOnB (Message.sample "Clan #2pp") [] ["#2pp"]
      Store.sample).1,
    by decide⟩

section Composition

theorem thKeyLt_irrefl (a : Option Nat) : thKeyLt a a = false := by
  cases a <;> simp [thKeyLt]

theorem thKeyLt_trans (a b c : Option Nat) (hab : thKeyLt a b = true)
    (hbc : thKeyLt b c = true) : thKeyLt a c = true := by
  cases a <;> cases b <;> cases c <;> simp [thKeyLt] at *
  omega

theorem thKeyLt_total (a b : Option Nat) (hne : a ≠ b) (h : thKeyLt a b = false) :
    thKeyLt b a = true := by
  cases a <;> cases b <;> simp [thKeyLt] at *
  omega

/-- The count recorded for a key after one more member. -/
theorem thCountOf_thBump (thLevel key : Option Nat) (counts : List (Option Nat × Nat)) :
    thCountOf (thBump thLevel counts) key =
      thCountOf counts key + (if thLevel = key then 1 else 0) := by
  induction counts with
  | nil => by_cases h : thLevel = key <;> simp [thBump, thCountOf, h]
  | cons entry rest ih =>
    obtain ⟨k, n⟩ := entry
    simp only [thBump]
    by_cases hk : k = thLevel
    · subst hk
      by_cases h : k = key
      · simp [thCountOf, h]
        omega
      · simp [thCountOf, h]
    · simp only [hk, if_false]
      by_cases hlt : thKeyLt thLevel k = true
      · simp only [hlt, if_true]
        by_cases h : thLevel = key <;> by_cases h2 : k = key <;> simp [thCountOf, h, h2] <;>
          omega
      · simp only [hlt, Bool.false_eq_true, if_false]
        have ih2 := ih
        simp only [thCountOf] at ih2 ⊢
        by_cases h2 : k = key
        · simp [h2, List.filter_cons, ih2]
          omega
        · simp [h2, List.filter_cons, ih2]

theorem thCountOf_foldl (key : Option Nat) (members : List ClanMember)
    (counts : List (Option Nat × Nat)) :
    thCountOf (members.foldl (fun counts member => thBump member.townHallLevel counts) counts)
        key =
      thCountOf counts key +
        members.countP (fun member => decide (member.townHallLevel = key)) := by
  induction members generalizing counts with
  | nil => simp
  | cons member rest ih =>
    simp only [List.foldl_cons, ih, thCountOf_thBump, List.countP_cons]
    by_cases h : member.townHallLevel = key <;> simp [h]
    omega

/-- The count recorded for a town-hall key is the number of members with it. -/
theorem thCountOf_thCounts (key : Option Nat) (members : List ClanMember) :
    thCountOf (thCounts members) key =
      members.countP (fun member => decide (member.townHallLevel = key)) := by
  rw [thCounts, thCountOf_foldl]
  simp [thCountOf]

theorem thBump_keys (thLevel : Option Nat) (counts : List (Option Nat × Nat)) :
    ∀ key ∈ (thBump thLevel counts).map Prod.fst,
      key = thLevel ∨ key ∈ counts.map Prod.fst := by
  induction counts with
  | nil => simp [thBump]
  | cons entry rest ih =>
    obtain ⟨k, n⟩ := entry
    intro key hkey
    simp only [thBump] at hkey
    by_cases hk : k = thLevel
    · simp only [hk, if_true, List.map_cons, List.mem_cons] at hkey
      rcases hkey with h | h
      · exact Or.inl h
      · exact Or.inr (by simp [h])
    · simp only [hk, if_false] at hkey
      by_cases hlt : thKeyLt thLevel k = true
      · simp only [hlt, if_true, List.map_cons, List.mem_cons] at hkey
        rcases hkey with h | h | h
        · exact Or.inl h
        · exact Or.inr (by simp [h])
        · exact Or.inr (by simp [h])
      · simp only [hlt, Bool.false_eq_true, if_false, List.map_cons, List.mem_cons] at hkey
        rcases hkey with h | h
        · exact Or.inr (by simp [h])
        · rcases ih key h with h2 | h2
          · exact Or.inl h2
          · exact Or.inr (by simp [h2])

theorem thOrdered_thBump (thLevel : Option Nat) (counts : List (Option Nat × Nat))
    (h : ThOrdered counts) : ThOrdered (thBump thLevel counts) := by
  induction counts with
  | nil => simp [thBump, ThOrdered]
  | cons entry rest ih =>
    obtain ⟨k, n⟩ := entry
    obtain ⟨hsorted, hpos⟩ := h
    simp only [List.map_cons, List.pairwise_cons] at hsorted
    have hrest : ThOrdered rest := ⟨hsorted.2, fun e he => hpos e (by simp [he])⟩
    simp only [thBump]
    by_cases hk : k = thLevel
    · simp only [hk, if_true]
      refine ⟨?_, ?_⟩
      · simp only [List.map_cons, List.pairwise_cons]
        exact ⟨fun a ha => hk ▸ hsorted.1 a ha, hsorted.2⟩
      · intro e he
        rcases List.mem_cons.mp he with rfl | he
        · exact Nat.succ_pos _
        · exact hpos e (by simp [he])
    · simp only [hk, if_false]
      by_cases hlt : thKeyLt thLevel k = true
      · simp only [hlt, if_true]
        refine ⟨?_, ?_⟩
        · simp only [List.map_cons, List.pairwise_cons]
          refine ⟨?_, hsorted⟩
          intro a ha
          rcases List.mem_cons.mp ha with rfl | ha
          · exact hlt
          · exact thKeyLt_trans _ _ _ hlt (hsorted.1 a ha)
        · intro e he
          rcases List.mem_cons.mp he with rfl | he
          · exact Nat.one_pos
          · exact hpos e he
      · simp only [hlt, Bool.false_eq_true, if_false]
        have hklt : thKeyLt k thLevel = true :=
          thKeyLt_total thLevel k (fun h => hk h.symm) (by simpa using hlt)
        obtain ⟨ihs, ihp⟩ := ih hrest
        refine ⟨?_, ?_⟩
        · simp only [List.map_cons, List.pairwise_cons]
          refine ⟨?_, ihs⟩
          intro a ha
          rcases thBump_keys thLevel rest a ha with rfl | ha
          · exact hklt
          · exact hsorted.1 a ha
        · intro e he
          rcases List.mem_cons.mp he with rfl | he
          · exact hpos _ (by simp)
          · exact ihp e he

theorem thOrdered_foldl (members : List ClanMember) (counts : List (Option Nat × Nat))
    (h : ThOrdered counts) :
    ThOrdered (members.foldl (fun counts member => thBump member.townHallLevel counts)
      counts) := by
  induction members generalizing counts with
  | nil => exact h
  | cons member rest ih => exact ih _ (thOrdered_thBump _ _ h)

theorem thOrdered_thCounts (members : List ClanMember) : ThOrdered (thCounts members) :=
  thOrdered_foldl members [] ⟨by simp, by simp⟩

/-- With ascending keys, the count recorded for a key is the count of its entry. -/
theorem thCountOf_of_mem (counts : List (Option Nat × Nat)) (h : ThOrdered counts)
    (key : Option Nat) (count : Nat) (hmem : (key, count) ∈ counts) :
    thCountOf counts key = count := by
  induction counts with
  | nil => simp at hmem
  | cons entry rest ih =>
    obtain ⟨k, n⟩ := entry
    obtain ⟨hsorted, hpos⟩ := h
    simp only [List.map_cons, List.pairwise_cons] at hsorted
    have hrest : ThOrdered rest := ⟨hsorted.2, fun e he => hpos e (by simp [he])⟩
    rcases List.mem_cons.mp hmem with heq | hmem2
    · obtain ⟨rfl, rfl⟩ := Prod.mk.inj heq
      have hnone : rest.filter (fun entry => decide (entry.1 = key)) = [] := by
        rw [List.filter_eq_nil_iff]
        intro e he
        simp only [decide_eq_true_eq]
        intro hek
        have := hsorted.1 e.1 (List.mem_map_of_mem Prod.fst he)
        rw [hek, thKeyLt_irrefl] at this
        exact absurd this (by decide)
      simp [thCountOf, hnone]
    · have hne : k ≠ key := by
        intro hk
        have := hsorted.1 key (by
          have := List.mem_map_of_mem Prod.fst hmem2
          simpa using this)
        rw [hk, thKeyLt_irrefl] at this
        exact absurd this (by decide)
      have := ih hrest hmem2
      simp only [thCountOf] at this ⊢
      simpa [List.filter_cons, hne] using this

theorem thCountOf_pos_iff (counts : List (Option Nat × Nat)) (h : ThOrdered counts)
    (key : Option Nat) : 0 < thCountOf counts key ↔ key ∈ counts.map Prod.fst := by
  constructor
  · intro hpos
    by_contra hnot
    have hnone : counts.filter (fun entry => decide (entry.1 = key)) = [] := by
      rw [List.filter_eq_nil_iff]
      intro e he
      simp only [decide_eq_true_eq]
      intro hek
      exact hnot (hek ▸ List.mem_map_of_mem Prod.fst he)
    simp [thCountOf, hnone] at hpos
  · intro hmem
    obtain ⟨entry, hentry, hkey⟩ := List.mem_map.mp hmem
    obtain ⟨k, n⟩ := entry
    simp only at hkey
    subst hkey
    rw [thCountOf_of_mem counts h k n hentry]
    exact h.2 _ hentry

theorem thBump_sum (thLevel : Option Nat) (counts : List (Option Nat × Nat)) :
    ((thBump thLevel counts).map Prod.snd).sum = (counts.map Prod.snd).sum + 1 := by
  induction counts with
  | nil => simp [thBump]
  | cons entry rest ih =>
    obtain ⟨k, n⟩ := entry
    simp only [thBump]
    by_cases hk : k = thLevel
    · simp [hk]
      omega
    · simp only [hk, if_false]
      by_cases hlt : thKeyLt thLevel k = true
      · simp [hlt]
        omega
      · simp [hlt, ih]
        omega

theorem thCounts_sum_foldl (members : List ClanMember) (counts : List (Option Nat × Nat)) :
    ((members.foldl (fun counts member => thBump member.townHallLevel counts) counts).map
      Prod.snd).sum = (counts.map Prod.snd).sum + members.length := by
  induction members generalizing counts with
  | nil => simp
  | cons member rest ih =>
    simp only [List.foldl_cons, ih, thBump_sum, List.length_cons]
    omega

theorem foldl_append_init (lines : List String) (init : String) :
    lines.foldl (fun r s => r ++ s) init = init ++ lines.foldl (fun r s => r ++ s) "" := by
  induction lines generalizing init with
  | nil => simp
  | cons line rest ih =>
    simp only [List.foldl_cons]
    rw [ih (init ++ line), ih ("" ++ line)]
    simp [String.append_assoc]

theorem foldl_lines {α : Type} (line : α → String) (entries : List α) (init : String) :
    entries.foldl (fun text entry => text ++ line entry) init =
      init ++ String.join (entries.map line) := by
  induction entries generalizing init with
  | nil => simp [String.join]
  | cons entry rest ih =>
    have hjoin : String.join (line entry :: rest.map line) =
        line entry ++ String.join (rest.map line) := by
      simp only [String.join, List.foldl_cons]
      rw [foldl_append_init]
      simp
    simp only [List.foldl_cons, List.map_cons, ih, hjoin, String.append_assoc]

/-- The entries for members of town-hall levels 12, 10, 12 and one without level. -/
theorem thCounts_example :
    thCounts [ClanMember.sample (some 12), ClanMember.sample (some 10),
        ClanMember.sample (some 12), ClanMember.sample none] =
      [(some 10, 1), (some 12, 2), (none, 1)] := by
  decide

end Composition

/-- C28. For every member list, in the reply of `compo`: a town-hall level is listed
exactly when some member has it, each level is listed once, the count shown for a
level is the number of members with it, the counts add up to the number of members,
and the text is the header followed by one line per listed level. Members without
`townHallLevel` are counted under the key `undefined`. -/
theorem compo_counts (clan : Clan) (members : List ClanMember) :
    (∀ thLevel, thLevel ∈ (thCounts members).map Prod.fst ↔
        ∃ member ∈ members, member.townHallLevel = thLevel) ∧
      (∀ thLevel count, (thLevel, count) ∈ thCounts members →
        count = members.countP (fun member => decide (member.townHallLevel = thLevel))) ∧
      ((thCounts members).map Prod.fst).Nodup ∧
      ((thCounts members).map Prod.snd).sum = members.length ∧
      compoMessage clan members =
        compoHeader clan ++ String.join ((thCounts members).map thLine) ∧
      ∀ (env : Env) (message : Message) (tag : String) (store : Store), tag ≠ "" →
        env.getClan tag = .ok clan → env.getClanMembers tag = .ok members →
        replies (compo env message [tag] store).trace = [.text (compoMessage clan members)] := by
  have hord := thOrdered_thCounts members
  refine ⟨?_, ?_, ?_, ?_, ?_, ?_⟩
  · intro thLevel
    rw [← thCountOf_pos_iff _ hord, thCountOf_thCounts, List.countP_pos_iff]
    simp
  · intro thLevel count hmem
    rw [← thCountOf_thCounts, thCountOf_of_mem _ hord thLevel count hmem]
  · refine hord.1.imp ?_
    intro a b hab heq
    subst heq
    rw [thKeyLt_irrefl] at hab
    exact absurd hab (by decide)
  · simpa [thCounts] using thCounts_sum_foldl members []
  · simp only [compoMessage, compoHeader]
    rw [← foldl_lines thLine]
    congr 1
    funext text entry
    simp [thLine, String.append_assoc]
  · intro env message tag store htag hclan hmembers
    simp [compo, mentionOrSelf, Js.truthy, htag, compoFetch, getClan, getClanMembers, hclan,
      hmembers, Act.tryCatch, Act.bind, Act.emit, Act.ofExcept, Act.ret, reply, replies]

section AttacksLeftAgree

theorem unused_add_used (members : List WarMember)
    (hused : ∀ m ∈ members, attacksUsed m ≤ 2) :
    (members.map (fun m => 2 - attacksUsed m)).sum + (members.map attacksUsed).sum =
      2 * members.length := by
  induction members with
  | nil => rfl
  | cons member rest ih =>
    have h1 := hused member (by simp)
    have h2 := ih (fun m hm => hused m (by simp [hm]))
    simp only [List.map_cons, List.sum_cons, List.length_cons]
    omega

end AttacksLeftAgree

section AttacksLeftReplies

/-- The reply of `leftattack` ends with the total of the two groups. -/
theorem leftAttackMessage_total (clan : Clan) (warClan : WarClan) (members : List WarMember)
    (hmembers : warClan.members = some members)
    (hdefined : ∀ m ∈ members, m.attacks.isSome) :
    ∃ body, leftAttackMessage clan warClan =
      .ok (body ++ "\n\n*Total Attacks Left*: " ++
        toString (2 * (members.filter (fun m => decide (attacksUsed m = 0))).length +
          (members.filter (fun m => decide (attacksUsed m = 1))).length)) := by
  have h0 := membersWithAttacks_eq_filter 0 members hdefined
  have h1 := membersWithAttacks_eq_filter 1 members hdefined
  simp only [leftAttackMessage, hmembers, Js.orThrow, h0, h1, totalAttacksLeft, bind,
    Except.bind, pure, Except.pure]
  rw [Nat.mul_comm (List.length _) 2]
  exact ⟨_, rfl⟩

/-- The reply of `attack`, when its formatters do not throw, ends with the figure
`TEAM_INFO` makes of `teamSize * attacksPerMember - attacks.length`. -/
theorem attackMessage_total (clan : Clan) (war : ClanWar) (warClan : WarClan)
    (attacks : List WarAttack) (text : String) (teamSize perMember : Nat)
    (hteam : war.teamSize = some teamSize) (hper : war.attacksPerMember = some perMember)
    (hformat : attackMessage clan war warClan attacks = .ok text) :
    ∃ body, text = body ++ "\n      \u00e2\u0152 **Total Attacks Left**: " ++
      Js.intOrNA (some (((teamSize * perMember : Nat) : Int) - (attacks.length : Int))) ++
      "\n    " := by
  simp only [attackMessage, hteam, hper, Js.mul, bind, Except.bind, pure, Except.pure]
    at hformat
  cases hm : Js.orThrow warClan.members "reduce" with
  | error e => simp [hm] at hformat
  | ok members =>
    cases hd : ATTACK_INFO attacks with
    | error e => simp [hm, hd] at hformat
    | ok details =>
      cases hbd : BEST_DEFENSE (bestDefense members) with
      | error e => simp [hm, hd, hbd] at hformat
      | ok bestDefenseInfo =>
        cases hba : BEST_ATTACK (bestAttack attacks) with
        | error e => simp [hm, hd, hbd, hba] at hformat
        | ok bestAttackInfo =>
          simp only [hm, hd, hbd, hba, Except.ok.injEq] at hformat
          subst hformat
          refine ⟨"\u011f\u0178\u00b0 **Clan**: " ++ Js.str clan.name ++ " (" ++
            Js.str clan.tag ++ ")\n\n" ++ details ++ "\n\n" ++ bestDefenseInfo ++ "\n\n" ++
            bestAttackInfo ++ "\n\n" ++
            ("\n      \u011f\u0178\u00b0 **Team Size**: " ++ Js.numOrNA (some teamSize) ++
              "\n      \u00e2\u0153\u2026 **Total Completed Attacks**: " ++
              Js.numOrNA (some attacks.length)), ?_⟩
          simp [TEAM_INFO, String.append_assoc]

/-- The per-tag answer of `attack` for a running war with at least one attack. -/
theorem attackAnswer_reply (clan : Clan) (war : ClanWar) (warClan opponent : WarClan)
    (attacks : List WarAttack) (text : String)
    (hside : war.clan = some warClan) (hopponent : war.opponent = some opponent)
    (hstate : war.state ≠ some "notInWar") (hattacks : warClan.attacks = some attacks)
    (hsome : attacks ≠ []) (hformat : attackMessage clan war warClan attacks = .ok text)
    (s : Store) :
    attackAnswer clan (some war) s = ⟨.ok (), s, [.reply (.text text)]⟩ := by
  have hlen : attacks.length ≠ 0 := by simpa using hsome
  simp [attackAnswer, inWar, hside, hopponent, hstate, hattacks, hlen, hformat, Act.bind,
    Act.ofExcept, Act.ret, reply, Act.emit]

/-- The per-tag answer of `leftattack` for a running war. -/
theorem leftattackAnswer_reply (clan : Clan) (war : ClanWar) (warClan opponent : WarClan)
    (text : String)
    (hside : war.clan = some warClan) (hopponent : war.opponent = some opponent)
    (hstate : war.state ≠ some "notInWar")
    (hformat : leftAttackMessage clan warClan = .ok text) (s : Store) :
    leftattackAnswer clan (some war) s = ⟨.ok (), s, [.reply (.text text)]⟩ := by
  simp [leftattackAnswer, inWar, hside, hopponent, hstate, hformat, Act.bind, Act.ofExcept,
    Act.ret, reply, Act.emit]

/-- The replies of `attack` given a tag whose clan and war are fetched. -/
theorem attack_replies (env : Env) (message : Message) (store : Store) (tag : String)
    (clan : Clan) (war : Option ClanWar) (text : String)
    (hhash : Js.startsWith tag "#" = true)
    (hread : env.findOneFault message.sender (some message.userId) = none)
    (hclan : env.getClan tag = .ok clan) (hwar : env.getCurrentWar tag = .ok war)
    (hanswer : ∀ s, attackAnswer clan war s = ⟨.ok (), s, [.reply (.text text)]⟩) :
    replies (attack env message [tag] store).trace = [.text text] := by
  have hne := startsWith_hash_ne_empty tag hhash
  have hres : resolveClanTags (explicitTag .attack [tag])
      (profileOf store message.sender (some message.userId)) = [tag] := by
    simp [explicitTag_of_head .attack [tag] tag rfl hhash, resolveClanTags, hne]
  have hrun := fanOut_run .attack (by simp [fanOutCommands]) env message [tag] store
    (some message.userId)
    (lookedUpUser_of_head .attack (by simp [fanOutCommands]) message [tag] tag rfl hhash)
    hread (by rw [hres]; simp)
  rw [hres] at hrun
  have htrace : tagTrace .attack env [tag] tag =
      [.api .getClan tag, .api .getCurrentWar tag, .reply (.text text)] := by
    simp [tagTrace, tagStep, attackForTag, getClan, getCurrentWar, hclan, hwar, hanswer,
      Act.tryCatch, Act.bind, Act.emit, Act.ofExcept, Act.ret]
  have hrun2 : attack env message [tag] store = _ := hrun
  rw [hrun2]
  simp [htrace, replies]

/-- The replies of `leftattack` given a tag whose clan and war are fetched. -/
theorem leftattack_replies (env : Env) (message : Message) (store : Store) (tag : String)
    (clan : Clan) (war : Option ClanWar) (text : String)
    (hhash : Js.startsWith tag "#" = true)
    (hread : env.findOneFault message.sender (some message.userId) = none)
    (hclan : env.getClan tag = .ok clan) (hwar : env.getCurrentWar tag = .ok war)
    (hanswer : ∀ s, leftattackAnswer clan war s = ⟨.ok (), s, [.reply (.text text)]⟩) :
    replies (leftattack env message [tag] store).trace = [.text text] := by
  have hne := startsWith_hash_ne_empty tag hhash
  have hres : resolveClanTags (explicitTag .leftattack [tag])
      (profileOf store message.sender (some message.userId)) = [tag] := by
    simp [explicitTag_of_head .leftattack [tag] tag rfl hhash, resolveClanTags, hne]
  have hrun := fanOut_run .leftattack (by simp [fanOutCommands]) env message [tag] store
    (some message.userId)
    (lookedUpUser_of_head .leftattack (by simp [fanOutCommands]) message [tag] tag rfl hhash)
    hread (by rw [hres]; simp)
  rw [hres] at hrun
  have htrace : tagTrace .leftattack env [tag] tag =
      [.api .getClan tag, .api .getCurrentWar tag, .reply (.text text)] := by
    simp [tagTrace, tagStep, leftattackForTag, getClan, getCurrentWar, hclan, hwar, hanswer,
      Act.tryCatch, Act.bind, Act.emit, Act.ofExcept, Act.ret]
  have hrun2 : leftattack env message [tag] store = _ := hrun
  rw [hrun2]
  simp [htrace, replies]

end AttacksLeftReplies

/-- C29. For every running war with two attacks per member, at least one attack made,
a team size equal to the number of clan members, every member having an attack list
of at most two attacks and the clan's attack list having as many entries as the
members have used attacks, the formatters of `attack` not throwing: `attack` and
`leftattack`, given the tag of the clan with a working store, each send one reply; the
reply of `attack` ends with the `Total Attacks Left` line of `TEAM_INFO` showing
`x || "N/A"` for a value `x`, the reply of `leftattack` ends with its
`Total Attacks Left` line showing the same value, and that value is both
`teamSize * attacksPerMember - attacks.length` and `2 * (members with no attack) +
(members with one attack)`. -/
theorem attacks_left_agree (env : Env) (message : Message) (store : Store) (tag : String)
    (clan : Clan) (war : ClanWar) (warClan opponent : WarClan) (members : List WarMember)
    (attacks : List WarAttack)
    (hhash : Js.startsWith tag "#" = true)
    (hread : env.findOneFault message.sender (some message.userId) = none)
    (hclan : env.getClan tag = .ok clan) (hwar : env.getCurrentWar tag = .ok (some war))
    (hside : war.clan = some warClan) (hopponent : war.opponent = some opponent)
    (hstate : war.state ≠ some "notInWar")
    (hmembers : warClan.members = some members) (hattacks : warClan.attacks = some attacks)
    (hsome : attacks ≠ [])
    (hformat : ∃ text, attackMessage clan war warClan attacks = .ok text)
    (hper : war.attacksPerMember = some 2) (hteam : war.teamSize = some members.length)
    (hdefined : ∀ m ∈ members, m.attacks.isSome)
    (hused : ∀ m ∈ members, attacksUsed m ≤ 2)
    (hsum : attacks.length = (members.map attacksUsed).sum) :
    ∃ (attackBody leftBody : String) (total : Nat),
      replies (attack env message [tag] store).trace =
          [.text (attackBody ++ "\n      \u00e2\u0152 **Total Attacks Left**: " ++
            Js.intOrNA (some (total : Int)) ++ "\n    ")] ∧
        replies (leftattack env message [tag] store).trace =
          [.text (leftBody ++ "\n\n*Total Attacks Left*: " ++ toString total)] ∧
        total = 2 * (members.filter (fun m => decide (attacksUsed m = 0))).length +
          (members.filter (fun m => decide (attacksUsed m = 1))).length ∧
        (total : Int) = ((members.length * 2 : Nat) : Int) - (attacks.length : Int) := by
  obtain ⟨text, htext⟩ := hformat
  obtain ⟨attackBody, hattackBody⟩ :=
    attackMessage_total clan war warClan attacks text members.length 2 hteam hper htext
  obtain ⟨leftBody, hleftBody⟩ := leftAttackMessage_total clan warClan members hmembers hdefined
  have h1 := total_eq_sum members
  have h2 := unused_add_used members hused
  have hvalue : (((members.length * 2 : Nat) : Int) - (attacks.length : Int)) =
      ((2 * (members.filter (fun m => decide (attacksUsed m = 0))).length +
        (members.filter (fun m => decide (attacksUsed m = 1))).length : Nat) : Int) := by
    omega
  refine ⟨attackBody, leftBody, _, ?_, ?_, rfl, hvalue.symm⟩
  · rw [attack_replies env message store tag clan (some war) text hhash hread hclan hwar
      (attackAnswer_reply clan war warClan opponent attacks text hside hopponent hstate
        hattacks hsome htext), hattackBody, hvalue]
  · exact leftattack_replies env message store tag clan (some war) _ hhash hread hclan hwar
      (leftattackAnswer_reply clan war warClan opponent _ hside hopponent hstate hleftBody)

/-- Witness of C29: `!attack #A` and `!leftattack #A` for a war of four members who used
0, 1, 2 and 0 attacks, three attacks being made; both replies show five attacks left. -/
theorem attacks_left_agree_witness :
    ∃ (attackBody leftBody : String) (total : Nat),
      replies (attack Env.atWar (Message.sample "!attack #A") ["#A"] Store.sample).trace =
          [.text (attackBody ++ "\n      \u00e2\u0152 **Total Attacks Left**: " ++
            Js.intOrNA (some (total : Int)) ++ "\n    ")] ∧
        replies
            (leftattack Env.atWar (Message.sample "!leftattack #A") ["#A"] Store.sample).trace =
          [.text (leftBody ++ "\n\n*Total Attacks Left*: " ++ toString total)] ∧
        total = 5 := by
  obtain ⟨attackBody, leftBody, total, h1, h2, h3, -⟩ :=
    attacks_left_agree Env.atWar (Message.sample "!attack #A") Store.sample "#A"
      (Clan.sample "#A") ClanWar.sample WarClan.sample WarClan.sample
      [WarMember.sample "m1" 0, WarMember.sample "m2" 1, WarMember.sample "m3" 2,
        WarMember.sample "m4" 0]
      [WarAttack.detailed "m2" "o1" 1 50, WarAttack.detailed "m3" "o2" 2 80,
        WarAttack.detailed "m3" "o3" 3 100]
      (by decide) rfl rfl rfl rfl rfl (by decide) rfl rfl (by decide) ⟨_, rfl⟩ rfl rfl
      (by decide) (by decide) (by decide)
  exact ⟨attackBody, leftBody, total, h1, h2, h3⟩

end Whatsapp
